import Mathlib

/-! # Filmoteka: session/auth flow and transactional film persistence

A shallow embedding of the Go sources of the Filmoteka backend
(`internal/films`, `internal/actors`, `internal/users`, `internal/session`,
`internal/middleware`, `cmd/main`).

Conventions of the embedding:

* Go `error` values are `Option GoError` (`none` is `nil`);
* `uint64` identifiers are natural numbers;
* `time.Time` is an instant (`Int`), `float64` values that are only stored and
  compared are rationals;
* the relational store and the session store are explicit state that every
  operation receives and returns;
* a Go slice is `Slice α`, which tells the nil slice from an empty one, and a
  Go map is a list of its entries in insertion order, ranged over in any order.
-/

namespace Filmoteka

/-! ## Go errors -/

/-- Go `error` values occurring in the program: the package-level sentinels
(`sql.ErrNoRows`, redigo `ErrNil`, `http.ErrNoCookie`, the use-case errors), an
error raised by the store for a violated uniqueness constraint, any other error
identified by its text, and an error wrapping another one (`%w`). -/
inductive GoError where
  | ErrNoRows
  | ErrNil
  | ErrNoCookie
  | ErrNoSession
  | ErrNoUser
  | ErrBadCredentials
  | ErrUserAlreadyExists
  | ErrFilmsNotFound
  | ErrFilmNotFound
  | ErrBadFilmUpdateData
  | ErrBadFilmAddData
  | ErrActorNotFound
  | uniqueViolation
  | text (msg : String)
  | wrap (msg : String) (inner : GoError)
  deriving DecidableEq, Repr

/-- Go `errors.Is(err, target)` for a sentinel target: the error or one of the
errors it wraps is the target. A nil error is never the target. -/
def GoError.chainHas : GoError → GoError → Bool
  | .wrap msg inner, target =>
      decide (GoError.wrap msg inner = target) || GoError.chainHas inner target
  | e, target => decide (e = target)

/-- Go `errors.Is` on a possibly nil error. -/
def errorsIs (err : Option GoError) (target : GoError) : Bool :=
  match err with
  | none => false
  | some e => e.chainHas target

/-! ## Entities (`internal/films/entity`, `internal/actors/entity`) -/

/-- Go `entity.Film`. -/
structure Film where
  ID : Nat
  Name : String
  Description : String
  DateOfRelease : Int
  Rating : Rat
  deriving DecidableEq, Repr

/-- Go `entity.Actor`. -/
structure Actor where
  ID : Nat
  Name : String
  Surname : String
  Gender : String
  Birthday : Int
  deriving DecidableEq, Repr

/-! ## The relational store

The table declarations (DDL) are not part of the Go sources. The relations are
lists of rows. `films.id` is generated by the store (`RETURNING id`); the
sequence that generates it is, as in PostgreSQL, not transactional. -/

/-- Modelled from the spec: the declaration of the `film_actors` table is not in
the sources; section 3 of the specification describes the pair
`(film_id, actor_id)` as unique. `uniquePair` says whether the store enforces
that, rejecting the insertion of a pair that is already present. -/
structure Schema where
  uniquePair : Bool
  deriving DecidableEq, Repr

/-- Rows of the three relations the film repository touches. A `film_actors` row
is the pair `(film_id, actor_id)`. -/
structure Tables where
  films : List Film
  actors : List Actor
  filmActors : List (Nat × Nat)
  deriving DecidableEq, Repr

/-- The database: committed rows and the last value of the `films.id` sequence. -/
structure DB where
  tables : Tables
  filmSeq : Nat
  deriving DecidableEq, Repr

/-- How a `database/sql` transaction ended. -/
inductive TxEnd where
  | committed
  | rolledBack
  | leftOpen
  deriving DecidableEq, Repr

/-- An open transaction `*sql.Tx`: its own view of the rows, and the sequence. -/
structure Tx where
  work : Tables
  seq : Nat
  deriving DecidableEq, Repr

/-- Go `db.Begin()`. -/
def DB.begin (db : DB) : Except GoError Tx :=
  .ok ⟨db.tables, db.filmSeq⟩

/-- Go `tx.Commit()`: the transaction's rows become the committed rows. -/
def Tx.commit (tx : Tx) : Except GoError DB :=
  .ok ⟨tx.work, tx.seq⟩

/-- Go `tx.Rollback()`: the committed rows stay; the sequence keeps the values
it handed out. -/
def Tx.rollback (db : DB) (tx : Tx) : DB :=
  ⟨db.tables, tx.seq⟩

/-- SQL `INSERT INTO films (name, description, date_of_release, rating)
VALUES ($1, $2, $3, $4) RETURNING id`, scanned into `lastInsertId`. -/
def Tx.insertFilm (tx : Tx) (film : Film) : Except GoError (Nat × Tx) :=
  let id := tx.seq + 1
  .ok (id, ⟨{ tx.work with films := tx.work.films ++ [{ film with ID := id }] }, id⟩)

/-- SQL `SELECT id FROM actors WHERE id = $1` through `QueryRow(...).Scan`:
`sql.ErrNoRows` when no row matches. -/
def Tx.selectActorID (tx : Tx) (id : Nat) : Except GoError Nat :=
  match tx.work.actors.find? (fun a => a.ID == id) with
  | some a => .ok a.ID
  | none => .error .ErrNoRows

/-- SQL `INSERT INTO film_actors (film_id, actor_id) VALUES ($1, $2)`. -/
def Tx.insertFilmActor (sch : Schema) (tx : Tx) (filmID actorID : Nat) :
    Except GoError Tx :=
  if sch.uniquePair && tx.work.filmActors.contains (filmID, actorID) then
    .error .uniqueViolation
  else
    .ok { tx with work := { tx.work with filmActors := tx.work.filmActors ++ [(filmID, actorID)] } }

/-- SQL `UPDATE films SET name = $1, description = $2, date_of_release = $3,
rating = $4 WHERE id = $5` through `Exec`: the number of rows affected is in the
result, and matching no row is not an error. -/
def Tx.updateFilm (tx : Tx) (film : Film) : Except GoError (Nat × Tx) :=
  let hit := tx.work.films.filter (fun f => f.ID == film.ID)
  .ok (hit.length,
    { tx with work := { tx.work with
        films := tx.work.films.map (fun f => if f.ID == film.ID then film else f) } })

/-- SQL `DELETE FROM film_actors WHERE film_id = $1` through `Exec`. -/
def Tx.deleteFilmActors (tx : Tx) (filmID : Nat) : Except GoError (Nat × Tx) :=
  let hit := tx.work.filmActors.filter (fun p => p.1 == filmID)
  .ok (hit.length,
    { tx with work := { tx.work with
        filmActors := tx.work.filmActors.filter (fun p => !(p.1 == filmID)) } })

/-! ## `FilmRepoPG` (`internal/films/repo/film.go`) -/

/-- State of a repository method at its `return`: the error it returns, the
value of its local variable `err` (which the deferred function reads, the
results being unnamed), and the transaction. -/
structure BodyExit where
  retErr : Option GoError
  errVar : Option GoError
  tx : Tx
  deriving DecidableEq, Repr

/-- The loop `for _, id := range actorIDs` shared by the bodies of `AddFilm` and
`UpdateFilm`: look the actor up, return on `sql.ErrNoRows` with a nil error,
return any other error, insert the join row. `.ok` is falling out of the loop. -/
def linkActors (sch : Schema) (filmID : Nat) : List Nat → Tx → Except BodyExit Tx
  | [], tx => .ok tx
  | id :: rest, tx =>
    match tx.selectActorID id with
    | .error err =>
      if errorsIs (some err) .ErrNoRows then .error ⟨none, some err, tx⟩
      else .error ⟨some err, some err, tx⟩
    | .ok _ =>
      match tx.insertFilmActor sch filmID id with
      | .error err => .error ⟨some err, some err, tx⟩
      | .ok tx1 => linkActors sch filmID rest tx1

/-- The deferred function of `AddFilm` and `UpdateFilm`:
`if err != nil { err = tx.Rollback() ... }`, on a transaction that `ended`. -/
def deferredRollback (db : DB) (errVar : Option GoError) (tx : Tx) (ended : Option DB) :
    DB × TxEnd :=
  match ended with
  | some db1 => (db1, .committed)
  | none =>
    match errVar with
    | some _ => (Tx.rollback db tx, .rolledBack)
    | none => (Tx.rollback db tx, .leftOpen)

/-- Result of `AddFilm`. -/
structure AddFilmResult where
  id : Nat
  err : Option GoError
  db : DB
  txEnd : Option TxEnd
  deriving DecidableEq, Repr

/-- Go `FilmRepoPG.AddFilm`. -/
def FilmRepoPG.AddFilm (sch : Schema) (db : DB) (film : Film) (actorIDs : List Nat) :
    AddFilmResult :=
  match db.begin with
  | .error err => ⟨0, some err, db, none⟩
  | .ok tx =>
    match tx.insertFilm film with
    | .error err =>
      let fin := deferredRollback db (some err) tx none
      ⟨0, some err, fin.1, some fin.2⟩
    | .ok (lastInsertId, tx1) =>
      match linkActors sch lastInsertId actorIDs tx1 with
      | .error ex =>
        let fin := deferredRollback db ex.errVar ex.tx none
        ⟨0, ex.retErr, fin.1, some fin.2⟩
      | .ok tx2 =>
        match tx2.commit with
        | .error err =>
          let fin := deferredRollback db (some err) tx2 none
          ⟨0, some err, fin.1, some fin.2⟩
        | .ok db1 =>
          let fin := deferredRollback db none tx2 (some db1)
          ⟨lastInsertId, none, fin.1, some fin.2⟩

/-- Result of `UpdateFilm`. -/
structure UpdateFilmResult where
  ok : Bool
  err : Option GoError
  db : DB
  txEnd : Option TxEnd
  deriving DecidableEq, Repr

/-- Go `FilmRepoPG.UpdateFilm`. -/
def FilmRepoPG.UpdateFilm (sch : Schema) (db : DB) (film : Film) (actorIDs : List Nat) :
    UpdateFilmResult :=
  match db.begin with
  | .error err => ⟨false, some err, db, none⟩
  | .ok tx =>
    match tx.updateFilm film with
    | .error err =>
      let fin := deferredRollback db (some err) tx none
      if errorsIs (some err) .ErrNoRows then ⟨false, none, fin.1, some fin.2⟩
      else ⟨false, some err, fin.1, some fin.2⟩
    | .ok (_, tx1) =>
      match tx1.deleteFilmActors film.ID with
      | .error err =>
        let fin := deferredRollback db (some err) tx1 none
        ⟨false, some err, fin.1, some fin.2⟩
      | .ok (_, tx2) =>
        match linkActors sch film.ID actorIDs tx2 with
        | .error ex =>
          let fin := deferredRollback db ex.errVar ex.tx none
          ⟨false, ex.retErr, fin.1, some fin.2⟩
        | .ok tx3 =>
          match tx3.commit with
          | .error err =>
            let fin := deferredRollback db (some err) tx3 none
            ⟨false, some err, fin.1, some fin.2⟩
          | .ok db1 =>
            let fin := deferredRollback db none tx3 (some db1)
            ⟨true, none, fin.1, some fin.2⟩

/-! ## `FilmUseCaseApp` (`internal/films/usecase/film.go`) -/

/-- Go `FilmUseCaseApp.UpdateFilm` over a repository result `(wasUpdated, err)`. -/
def FilmUseCaseApp.UpdateFilm (repoResult : Bool × Option GoError) : Option GoError :=
  match repoResult.2 with
  | some err => some err
  | none => if !repoResult.1 then some .ErrBadFilmUpdateData else none

/-- Go `FilmUseCaseApp.AddFilm` over a repository result `(filmID, err)`. -/
def FilmUseCaseApp.AddFilm (film : Film) (repoResult : Nat × Option GoError) :
    Option Film × Option GoError :=
  match repoResult.2 with
  | some err => (none, some err)
  | none =>
    if repoResult.1 == 0 then (none, some .ErrBadFilmAddData)
    else (some { film with ID := repoResult.1 }, none)

/-- Whether the `actors` relation has a row with the given id. -/
def actorExists (acts : List Actor) (id : Nat) : Bool :=
  acts.any (fun a => a.ID == id)

/-! ## Sample data -/

/-- A sample actor with the given id. -/
def sampleActor (id : Nat) : Actor := ⟨id, "Ann", "Lee", "female", 0⟩

/-- A sample film with the given id. -/
def sampleFilm (id : Nat) : Film := ⟨id, "X", "a film", 0, 51 / 10⟩

/-- A store with film 1, actor 1 and the join row `(1, 1)`. -/
def sampleDB : DB := ⟨⟨[sampleFilm 1], [sampleActor 1], [(1, 1)]⟩, 1⟩

/-! ## The session store (redigo connection and its reply helpers)

redigo is an external library; `Conn.Do` and the helpers `redis.String`,
`redis.Uint64` and `redis.Bool` follow its documented behaviour. -/

/-- Entity `entity.Session` (its declaration is not among the sources; the fields
are the ones the use case and the repository read and write). -/
structure Session where
  ID : String
  UserID : Nat
  deriving DecidableEq, Repr

/-- A reply of `Conn.Do`: nil, an integer, a bulk string, a status string, or a
value of another type. -/
inductive Reply where
  | nil
  | int (n : Int)
  | bulk (s : String)
  | status (s : String)
  | other
  deriving DecidableEq, Repr

/-- The commands the session repository sends, with their arguments as redigo
writes them. -/
inductive Cmd where
  | SET (key value : String) (exSeconds : Nat)
  | GET (key : String)
  | EXISTS (key : String)
  | DEL (key : String)
  deriving DecidableEq, Repr

/-- A `redis.Conn` over a store of type `σ`: `Do` answers a command with a reply
and an error and leaves a new store. -/
structure RedisConn (σ : Type) where
  Do : σ → Cmd → (Reply × Option GoError) × σ

/-- Go `strconv.FormatUint(n, 10)`, the way redigo writes a `uint64` argument. -/
def formatUint (n : Nat) : String :=
  String.mk (Nat.toDigits 10 n)

/-- Digits of `strconv.ParseUint`, most significant first, added to `acc`; `none`
on a character that is not a decimal digit. -/
def parseDigits : List Char → Nat → Option Nat
  | [], acc => some acc
  | c :: rest, acc =>
    if c.isDigit then parseDigits rest (acc * 10 + (c.toNat - 48)) else none

/-- Go `strconv.Quote`: the string between double quotes, with a backslash
before a double quote and a backslash, and `\n`, `\r`, `\t` for these three
control characters. (For the other control characters and for runes that are
not printable Go writes a numeric escape; they are left as they are here.) -/
def strconvQuote (s : String) : String :=
  "\"" ++ String.mk (s.data.flatMap fun c =>
    if c = '"' ∨ c = '\\' then ['\\', c]
    else if c = '\n' then ['\\', 'n']
    else if c = '\r' then ['\\', 'r']
    else if c = '\t' then ['\\', 't']
    else [c]) ++ "\""

/-- Go `strconv.ParseUint(s, 10, 64)`: a syntax error on the empty string or on a
character that is not a digit, a range error from `2^64` on; the text of the
error names the input, as that of `*strconv.NumError` does. -/
def ParseUint (s : String) : Except GoError Nat :=
  match s.data with
  | [] => .error (.text ("strconv.ParseUint: parsing " ++ strconvQuote s ++ ": invalid syntax"))
  | c :: rest =>
    match parseDigits (c :: rest) 0 with
    | none =>
      .error (.text ("strconv.ParseUint: parsing " ++ strconvQuote s ++ ": invalid syntax"))
    | some n =>
      if n < 2 ^ 64 then .ok n
      else
        .error (.text ("strconv.ParseUint: parsing " ++ strconvQuote s ++ ": value out of range"))

/-- The number that `strconv.ParseUint(s, 10, 64)` returns together with an
error: the largest `uint64` with a range error, 0 with a syntax error. -/
def ParseUintErrValue (s : String) : Nat :=
  match s.data with
  | [] => 0
  | c :: rest =>
    match parseDigits (c :: rest) 0 with
    | none => 0
    | some _ => 2 ^ 64 - 1

/-- redigo `redis.String(reply, err)`. -/
def redisString (r : Reply × Option GoError) : String × Option GoError :=
  match r.2 with
  | some err => ("", some err)
  | none =>
    match r.1 with
    | .bulk s => (s, none)
    | .status s => (s, none)
    | .nil => ("", some .ErrNil)
    | _ => ("", some (.text "redigo: unexpected type for String"))

/-- redigo `redis.Uint64(reply, err)`. -/
def redisUint64 (r : Reply × Option GoError) : Nat × Option GoError :=
  match r.2 with
  | some err => (0, some err)
  | none =>
    match r.1 with
    | .int n =>
      if n < 0 then (0, some (.text "redigo: unexpected negative value for Uint64"))
      else (n.toNat, none)
    | .bulk s =>
      match ParseUint s with
      | .ok n => (n, none)
      | .error e => (ParseUintErrValue s, some e)
    | .nil => (0, some .ErrNil)
    | _ => (0, some (.text "redigo: unexpected type for Uint64"))

/-- redigo `redis.Bool(reply, err)`. -/
def redisBool (r : Reply × Option GoError) : Bool × Option GoError :=
  match r.2 with
  | some err => (false, some err)
  | none =>
    match r.1 with
    | .int n => (decide (n ≠ 0), none)
    | .bulk s =>
      if s ∈ ["1", "t", "T", "TRUE", "true", "True"] then (true, none)
      else if s ∈ ["0", "f", "F", "FALSE", "false", "False"] then (false, none)
      else (false, some (.text "strconv.ParseBool: invalid syntax"))
    | .nil => (false, some .ErrNil)
    | _ => (false, some (.text "redigo: unexpected type for Bool"))

/-- A key of the session store with its value and the time it expires at. -/
structure Entry where
  key : String
  value : String
  expiresAt : Nat
  deriving DecidableEq, Repr

/-- The session store: a clock (seconds) and the keys set so far. -/
structure Redis where
  now : Nat
  entries : List Entry
  deriving DecidableEq, Repr

/-- The entry a key resolves to: set and not yet expired. -/
def Redis.live (r : Redis) (key : String) : Option Entry :=
  r.entries.find? (fun e => e.key == key && decide (r.now < e.expiresAt))

/-- Time passing in the store. -/
def Redis.advance (r : Redis) (seconds : Nat) : Redis :=
  { r with now := r.now + seconds }

/-- The commands as a Redis server answers them: `SET key value EX n` replies
`OK` (an error for `n = 0`), `GET` replies the value or nil, `EXISTS` and `DEL`
reply a count. -/
def Redis.Do (r : Redis) : Cmd → (Reply × Option GoError) × Redis
  | .SET key value ex =>
    if ex = 0 then ((.nil, some (.text "ERR invalid expire time in set")), r)
    else ((.status "OK", none),
      { r with entries := ⟨key, value, r.now + ex⟩ :: r.entries.filter (fun e => !(e.key == key)) })
  | .GET key =>
    match r.live key with
    | some e => ((.bulk e.value, none), r)
    | none => ((.nil, none), r)
  | .EXISTS key => ((.int (if (r.live key).isSome then 1 else 0), none), r)
  | .DEL key =>
    ((.int (if (r.live key).isSome then 1 else 0), none),
      { r with entries := r.entries.filter (fun e => !(e.key == key)) })

/-- The connection `dbinit.GetRedis` opens, to a Redis server. -/
def redisServer : RedisConn Redis := ⟨Redis.Do⟩

/-! ## `SessionRepoRedis` (`internal/session/repo/session.go`) -/

/-- Go interface `SessionRepo`, over a store of type `σ`. -/
structure SessionRepo (σ : Type) where
  CreateSession : σ → Session → Option GoError × σ
  GetSession : σ → String → (Option Session × Option GoError) × σ
  DeleteSession : σ → String → (Bool × Option GoError) × σ

/-- Field `expireTime` set by `NewSessionRepo`: `24 * 60 * 60`. -/
def expireTime : Nat := 24 * 60 * 60

/-- Go `SessionRepoRedis.CreateSession`. -/
def SessionRepoRedis.CreateSession {σ : Type} (conn : RedisConn σ) (st : σ) (session : Session) :
    Option GoError × σ :=
  let reply := conn.Do st (.SET session.ID (formatUint session.UserID) expireTime)
  let res := redisString reply.1
  if res.2 ≠ none ∨ res.1 ≠ "OK" then (res.2, reply.2) else (none, reply.2)

/-- Go `SessionRepoRedis.GetSession`. -/
def SessionRepoRedis.GetSession {σ : Type} (conn : RedisConn σ) (st : σ) (sessionID : String) :
    (Option Session × Option GoError) × σ :=
  let reply := conn.Do st (.GET sessionID)
  let res := redisUint64 reply.1
  match res.2 with
  | some err => ((none, some err), reply.2)
  | none => ((some ⟨sessionID, res.1⟩, none), reply.2)

/-- Go `SessionRepoRedis.DeleteSession`. -/
def SessionRepoRedis.DeleteSession {σ : Type} (conn : RedisConn σ) (st : σ) (sessionID : String) :
    (Bool × Option GoError) × σ :=
  let reply := conn.Do st (.EXISTS sessionID)
  let res := redisBool reply.1
  match res.2 with
  | some err => ((false, some err), reply.2)
  | none =>
    if !res.1 then ((false, none), reply.2)
    else
      let reply2 := conn.Do reply.2 (.DEL sessionID)
      match reply2.1.2 with
      | some err => ((false, some err), reply2.2)
      | none => ((true, none), reply2.2)

/-- Go `NewSessionRepo(redisConn)` as a `SessionRepo`. -/
def NewSessionRepo {σ : Type} (conn : RedisConn σ) : SessionRepo σ :=
  ⟨SessionRepoRedis.CreateSession conn, SessionRepoRedis.GetSession conn,
    SessionRepoRedis.DeleteSession conn⟩

/-! ## `SessionUseCaseApp` (`internal/session/usecase/session.go`) -/

/-- Go `SessionUseCaseApp.CreateSession`; `newID` is the string of the UUID that
`uuid.New()` draws. -/
def SessionUseCaseApp.CreateSession {σ : Type} (sessionRepo : SessionRepo σ) (st : σ)
    (newID : String) (userID : Nat) : (String × Option GoError) × σ :=
  let newSession : Session := ⟨newID, userID⟩
  let res := sessionRepo.CreateSession st newSession
  ((newSession.ID, res.1), res.2)

/-- Go `SessionUseCaseApp.GetSession`. -/
def SessionUseCaseApp.GetSession {σ : Type} (sessionRepo : SessionRepo σ) (st : σ)
    (sessionID : String) : (Option Session × Option GoError) × σ :=
  let res := sessionRepo.GetSession st sessionID
  match res.1.2 with
  | some err => ((none, some err), res.2)
  | none =>
    match res.1.1 with
    | none => ((none, some .ErrNoSession), res.2)
    | some session => ((some session, none), res.2)

/-- Go `SessionUseCaseApp.DeleteSession`. -/
def SessionUseCaseApp.DeleteSession {σ : Type} (sessionRepo : SessionRepo σ) (st : σ)
    (sessionID : String) : (Bool × Option GoError) × σ :=
  let res := sessionRepo.DeleteSession st sessionID
  match res.1.2 with
  | some err => ((false, some err), res.2)
  | none =>
    if !res.1.1 then ((false, some .ErrNoSession), res.2)
    else ((true, none), res.2)

/-! ## Requests, contexts and responses (`net/http`, `context`) -/

/-- A value stored in a request context, by its dynamic type: the
`*zap.SugaredLogger`, a `uint64`, a `string`, or a value of another type. -/
inductive CtxValue where
  | logger
  | uint64 (n : Nat)
  | string (s : String)
  | other
  deriving DecidableEq, Repr

/-- A `context.Context`, by the values under the three keys of the program:
`logger.MyLoggerKey`, `MyUserKey` and `MySessionIDKey` (of three different key
types, so none shadows another). -/
structure Context where
  loggerVal : Option CtxValue
  userVal : Option CtxValue
  sessionVal : Option CtxValue
  deriving DecidableEq, Repr

/-- An `*http.Request`: method, URL path, the cookies of its `Cookie` header in
order (name and value), and its context. -/
structure Request where
  method : String
  path : String
  cookies : List (String × String)
  ctx : Context
  deriving DecidableEq, Repr

/-- Go `r.WithContext(ctx)`. -/
def Request.WithContext (r : Request) (ctx : Context) : Request :=
  { r with ctx := ctx }

/-- Go `r.Cookie(name)`: the value of the first cookie of that name, or
`http.ErrNoCookie`. -/
def Request.Cookie (r : Request) (name : String) : Except GoError String :=
  match r.cookies.find? (fun c => c.1 == name) with
  | some c => .ok c.2
  | none => .error .ErrNoCookie

/-- Go `logger.GetLoggerFromContext`: whether the value under `MyLoggerKey` is a
`*zap.SugaredLogger`. -/
def GetLoggerFromContext (ctx : Context) : Except GoError Unit :=
  match ctx.loggerVal with
  | some .logger => .ok ()
  | _ => .error (.text "no logger in context")

/-- What a middleware does with a request: write a response (status and body, by
`response.WriteResponse`) and return, call `next.ServeHTTP` with a request, or
write nothing because the goroutine panics or the process exits. -/
inductive MwStep where
  | respond (status : Nat) (body : String)
  | callNext (r : Request)
  | aborted
  deriving DecidableEq, Repr

/-- Whether the middleware called `next`. -/
def MwStep.invokedNext : MwStep → Bool
  | .callNext _ => true
  | _ => false

/-- Status written by the middleware, if it wrote a response. -/
def MwStep.status : MwStep → Option Nat
  | .respond s _ => some s
  | _ => none

/-! ## Middleware (`internal/middleware`) -/

/-- The method of the interface `SessionUseCase` that the middleware calls, for
the state of the session store during the request. -/
structure SessionUseCase where
  GetSession : String → Option Session × Option GoError

/-- The method of the interface `UserUseCase` that the middleware calls. -/
structure UserUseCase where
  GetUserRole : Nat → String × Option GoError

/-- Go `middleware.Middleware`. -/
structure Middleware where
  sessionUseCase : SessionUseCase
  userUseCase : UserUseCase

/-- The body `{"error": "internal error"}`. -/
def internalErrorBody : String := "\x7b\"error\": \"internal error\"\x7d"

/-- Go `Middleware.AuthMiddleware`, applied to a request. -/
def Middleware.AuthMiddleware (mw : Middleware) (r : Request) : MwStep :=
  match GetLoggerFromContext r.ctx with
  | .error _ => .respond 500 internalErrorBody
  | .ok _ =>
    match r.Cookie "session_id" with
    | .error err =>
      if errorsIs (some err) .ErrNoCookie then
        .respond 401 "\x7b\"error\": \"no cookie in request\"\"\x7d"
      else .respond 500 internalErrorBody
    | .ok sessionID =>
      let res := mw.sessionUseCase.GetSession sessionID
      if errorsIs res.2 .ErrNoSession then
        .respond 401 ("\x7b\"error\": \"there is no session for session id " ++ sessionID ++ "\x7d")
      else
        match res.2 with
        | some _ => .respond 500 internalErrorBody
        | none =>
          match res.1 with
          | none => .aborted
          | some mySession =>
            let ctx := { r.ctx with userVal := some (.uint64 mySession.UserID) }
            let ctx := { ctx with sessionVal := some (.string mySession.ID) }
            .callNext (r.WithContext ctx)

/-- Go `Middleware.AdminMiddleware`, applied to a request. -/
def Middleware.AdminMiddleware (mw : Middleware) (r : Request) : MwStep :=
  match GetLoggerFromContext r.ctx with
  | .error _ => .respond 500 internalErrorBody
  | .ok _ =>
    match r.ctx.userVal with
    | some (.uint64 userID) =>
      let res := mw.userUseCase.GetUserRole userID
      if errorsIs res.2 .ErrNoUser then
        .respond 401 "\x7b\"error\": \"user is not found\"\x7d"
      else
        match res.2 with
        | some _ => .respond 500 internalErrorBody
        | none =>
          if res.1 ≠ "admin" then
            .respond 403 "\x7b\"error\": \"resource is forbidden for you\"\x7d"
          else .callNext r
    | _ => .respond 500 internalErrorBody

/-- Go `Middleware.RequestInitMiddleware`, applied to a request; `initLogger` is
the result of `logger.InitLogger()`. -/
def Middleware.RequestInitMiddleware (initLogger : Except GoError Unit) (r : Request) : MwStep :=
  match initLogger with
  | .error _ => .respond 500 "internal error"
  | .ok _ => .callNext (r.WithContext { r.ctx with loggerVal := some .logger })

/-- Go `Middleware.AccessLog`, applied to a request. -/
def Middleware.AccessLog (r : Request) : MwStep :=
  match GetLoggerFromContext r.ctx with
  | .error _ => .respond 500 "internal error"
  | .ok _ => .callNext r

/-! ## Route table of `main` (`cmd/main/main.go`, `gorilla/mux`) -/

/-- The handler functions that `main` registers. -/
inductive HandlerName where
  | GetActorByID | GetActors | GetFilmByID | GetFilms | GetFilmsBySearch
  | Login | Register | Logout
  | DeleteActor | UpdateActor | AddActor
  | DeleteFilm | UpdateFilm | AddFilm
  | Swagger
  deriving DecidableEq, Repr

/-- The four routers that `main` creates with `mux.NewRouter()`. -/
inductive RouterName where
  | mainRouter | router | adminRouter | authRouter
  deriving DecidableEq, Repr

/-- The four middlewares of the package `middleware`. -/
inductive MwName where
  | RequestInitMiddleware | AccessLog | AuthMiddleware | AdminMiddleware
  deriving DecidableEq, Repr

/-- What a route hands the request to: a handler function, or another router
used as an `http.Handler`. -/
inductive Target where
  | handlerFunc (h : HandlerName)
  | router (rn : RouterName)
  deriving DecidableEq, Repr

/-- A call of `main` that builds the route table, on the router `rtr`:
`rtr.PathPrefix(tpl).Handler(target)`, `rtr.HandleFunc(tpl, h).Methods(method)` or
`rtr.Use(mw)`. -/
inductive Registration where
  | PathPrefixHandler (rtr : RouterName) (tpl : String) (target : Target)
  | HandleFunc (rtr : RouterName) (tpl : String) (h : HandlerName) (method : String)
  | Use (rtr : RouterName) (mw : MwName)
  deriving DecidableEq, Repr

/-- The registrations of `main`, lines 100 to 132, in source order. -/
def mainRegistrations : List Registration :=
  [ .PathPrefixHandler .mainRouter "/api/v1" (.router .router),
    .PathPrefixHandler .mainRouter "/swagger/" (.handlerFunc .Swagger),
    .PathPrefixHandler .router "/api/v1/admin" (.router .adminRouter),
    .PathPrefixHandler .router "/api/v1/logout" (.router .authRouter),
    .HandleFunc .router "/api/v1/actor/\x7bACTOR_ID\x7d" .GetActorByID "GET",
    .HandleFunc .router "/api/v1/actors" .GetActors "GET",
    .HandleFunc .router "/api/v1/film/\x7bFILM_ID\x7d" .GetFilmByID "GET",
    .HandleFunc .router "/api/v1/film/\x7bFILM_ID\x7d" .GetFilmByID "GET",
    .HandleFunc .router "/api/v1/films" .GetFilms "GET",
    .HandleFunc .router "/api/v1/film/search/\x7bSEARCH_STR\x7d" .GetFilmsBySearch "GET",
    .HandleFunc .router "/api/v1/login" .Login "POST",
    .HandleFunc .router "/api/v1/register" .Register "POST",
    .HandleFunc .authRouter "/api/v1/logout" .Logout "POST",
    .HandleFunc .adminRouter "/api/v1/admin/actor/\x7bACTOR_ID\x7d" .DeleteActor "DELETE",
    .HandleFunc .adminRouter "/api/v1/admin/actor" .UpdateActor "PUT",
    .HandleFunc .adminRouter "/api/v1/admin/actor" .AddActor "POST",
    .HandleFunc .adminRouter "/api/v1/admin/film/\x7bFILM_ID\x7d" .DeleteFilm "DELETE",
    .HandleFunc .adminRouter "/api/v1/admin/film" .UpdateFilm "PUT",
    .HandleFunc .adminRouter "/api/v1/admin/film" .AddFilm "POST",
    .Use .router .RequestInitMiddleware,
    .Use .router .AccessLog,
    .Use .adminRouter .AuthMiddleware,
    .Use .adminRouter .AdminMiddleware,
    .Use .authRouter .AuthMiddleware ]

/-- The six handlers that change films or actors. -/
def mutatingHandlers : List HandlerName :=
  [.AddFilm, .UpdateFilm, .DeleteFilm, .AddActor, .UpdateActor, .DeleteActor]

/-- A route of a router: a path template matched as a prefix (`under`) or in
full, the methods it is restricted to (none: any method), and its target. -/
structure Route where
  under : Bool
  template : String
  methods : List String
  target : Target
  deriving DecidableEq, Repr

/-- The routes of a router, in registration order. -/
def routesOf (regs : List Registration) (rn : RouterName) : List Route :=
  regs.filterMap fun reg =>
    match reg with
    | .PathPrefixHandler rtr tpl target => if rtr = rn then some ⟨true, tpl, [], target⟩ else none
    | .HandleFunc rtr tpl h method =>
      if rtr = rn then some ⟨false, tpl, [method], .handlerFunc h⟩ else none
    | .Use _ _ => none

/-- The middlewares of a router, in the order of the `Use` calls. -/
def middlewaresOf (regs : List Registration) (rn : RouterName) : List MwName :=
  regs.filterMap fun reg =>
    match reg with
    | .Use rtr mw => if rtr = rn then some mw else none
    | _ => none

/-- The path matcher of `gorilla/mux` (a regular expression compiled from the
template), as a function of: prefix match or full match, template, URL path. -/
abbrev PathMatcher := Bool → String → String → Bool

/-- A path matcher for templates without variables: equality, or prefix of the
path. -/
def literalMatcher : PathMatcher := fun under tpl path =>
  if under then tpl.data.isPrefixOf path.data else decide (tpl = path)

/-- Result of matching a request against one route or against a router. -/
inductive RouteMatch where
  | found (route : Route)
  | methodMismatch
  | notFound
  deriving DecidableEq, Repr

/-- Matching of `mux.Route.Match`: the path matcher first, then the method
matcher, whose failure is remembered as `ErrMethodMismatch`. -/
def Route.Match (pm : PathMatcher) (route : Route) (r : Request) : RouteMatch :=
  if pm route.under route.template r.path then
    if route.methods = [] ∨ r.method ∈ route.methods then .found route else .methodMismatch
  else .notFound

/-- Matching of `mux.Router.Match`: the first route that matches; without one,
a method mismatch if some route matched but for the method. -/
def Router.Match (pm : PathMatcher) : List Route → Request → RouteMatch
  | [], _ => .notFound
  | route :: rest, r =>
    match route.Match pm r with
    | .found rt => .found rt
    | .methodMismatch =>
      match Router.Match pm rest r with
      | .found rt => .found rt
      | _ => .methodMismatch
    | .notFound => Router.Match pm rest r

/-- What the handlers of one request depend on: the use cases behind the
middleware and the result of `logger.InitLogger()`. -/
structure Env where
  mw : Middleware
  initLogger : Except GoError Unit

/-- What became of a request: it reached a handler function (with the request as
the middlewares passed it on), a middleware answered it, the router answered 404
or 405, or nothing was written. -/
inductive Served where
  | reached (h : HandlerName) (r : Request)
  | responded (status : Nat) (body : String)
  | notFound
  | methodNotAllowed
  | aborted
  deriving DecidableEq, Repr

/-- One middleware applied to a request. -/
def runMiddleware (env : Env) : MwName → Request → MwStep
  | .RequestInitMiddleware, r => Middleware.RequestInitMiddleware env.initLogger r
  | .AccessLog, r => Middleware.AccessLog r
  | .AuthMiddleware, r => env.mw.AuthMiddleware r
  | .AdminMiddleware, r => env.mw.AdminMiddleware r

/-- The middleware chain `mux` builds for a matched route: the middleware added
first is the outermost, so it runs first; `.ok` is the request that the last one
passes on to the route's handler. -/
def passChain (env : Env) : List MwName → Request → Except Served Request
  | [], r => .ok r
  | m :: rest, r =>
    match runMiddleware env m r with
    | .respond status body => .error (.responded status body)
    | .aborted => .error .aborted
    | .callNext r1 => passChain env rest r1

/-- Go `mux.Router.ServeHTTP` of a router with the given routes and middlewares;
`sub` serves the routers that routes use as their handler. The path of the
request is taken as already clean: a path that `cleanPath` would change is
answered by `mux` with a redirect (301) to the clean path before any route is
matched, and so reaches no handler. -/
def ServeHTTP (pm : PathMatcher) (env : Env) (sub : RouterName → Request → Served)
    (routes : List Route) (mws : List MwName) (r : Request) : Served :=
  match Router.Match pm routes r with
  | .notFound => .notFound
  | .methodMismatch => .methodNotAllowed
  | .found route =>
    match passChain env mws r with
    | .error s => s
    | .ok r1 =>
      match route.target with
      | .handlerFunc h => .reached h r1
      | .router rn => sub rn r1

/-- The router `adminRouter` of `main` serving a request. -/
def serveAdminRouter (pm : PathMatcher) (env : Env) (r : Request) : Served :=
  ServeHTTP pm env (fun _ _ => .notFound) (routesOf mainRegistrations .adminRouter)
    (middlewaresOf mainRegistrations .adminRouter) r

/-- The router `authRouter` of `main` serving a request. -/
def serveAuthRouter (pm : PathMatcher) (env : Env) (r : Request) : Served :=
  ServeHTTP pm env (fun _ _ => .notFound) (routesOf mainRegistrations .authRouter)
    (middlewaresOf mainRegistrations .authRouter) r

/-- The router `router` of `main` serving a request. -/
def serveRouter (pm : PathMatcher) (env : Env) (r : Request) : Served :=
  ServeHTTP pm env
    (fun rn r1 =>
      match rn with
      | .adminRouter => serveAdminRouter pm env r1
      | .authRouter => serveAuthRouter pm env r1
      | _ => .notFound)
    (routesOf mainRegistrations .router) (middlewaresOf mainRegistrations .router) r

/-- The router `mainRouter` that `main` passes to `http.ListenAndServe`, serving
a request. -/
def serveMainRouter (pm : PathMatcher) (env : Env) (r : Request) : Served :=
  ServeHTTP pm env
    (fun rn r1 =>
      match rn with
      | .router => serveRouter pm env r1
      | _ => .notFound)
    (routesOf mainRegistrations .mainRouter) (middlewaresOf mainRegistrations .mainRouter) r

/-- A sample environment: one session `tok` of user 7, who is an admin. -/
def sampleEnv : Env :=
  ⟨⟨⟨fun sid => if sid = "tok" then (some ⟨"tok", 7⟩, none) else (none, some .ErrNoSession)⟩,
     ⟨fun uid => if uid = 7 then ("admin", none) else ("default", none)⟩⟩, .ok ()⟩

/-! ## Users (`internal/users`, `pkg/password_hash`) -/

/-- Entity `entity.User` (its declaration is not among the sources; the fields
are the ones the repository fills in). -/
structure User where
  ID : Nat
  Username : String
  deriving DecidableEq, Repr

/-- A row of the `users` relation. -/
structure UserRow where
  id : Nat
  username : String
  password : String
  role : String
  deriving DecidableEq, Repr

/-- The `users` relation and the last value of its id sequence. -/
structure UserStore where
  rows : List UserRow
  seq : Nat
  deriving DecidableEq, Repr

/-- Go interface `UserRepo`, over a store of type `σ`. -/
structure UserRepo (σ : Type) where
  Login : σ → String → String → (Option User × Option GoError) × σ
  Register : σ → String → String → (Option User × Option GoError) × σ
  GetUserByUsername : σ → String → (Option User × Option GoError) × σ
  GetUserRole : σ → Nat → (String × Option GoError) × σ

/-- Go interface `Hasher`: `GetHashPassword`. -/
abbrev Hasher := String → String × Option GoError

/-- SQL `SELECT id, username FROM users WHERE username = $1 AND password = $2`
through `QueryRow(...).Scan`: the first matching row, or `sql.ErrNoRows`. -/
def UserStore.selectByCredentials (st : UserStore) (username password : String) :
    Except GoError User :=
  match st.rows.find? (fun u => u.username == username && u.password == password) with
  | some u => .ok ⟨u.id, u.username⟩
  | none => .error .ErrNoRows

/-- SQL `SELECT id, username FROM users WHERE username = $1`. -/
def UserStore.selectByUsername (st : UserStore) (username : String) : Except GoError User :=
  match st.rows.find? (fun u => u.username == username) with
  | some u => .ok ⟨u.id, u.username⟩
  | none => .error .ErrNoRows

/-- SQL `SELECT role FROM users WHERE id = $1`. -/
def UserStore.selectRole (st : UserStore) (userID : Nat) : Except GoError String :=
  match st.rows.find? (fun u => u.id == userID) with
  | some u => .ok u.role
  | none => .error .ErrNoRows

/-- SQL `INSERT INTO users (username, password, role) VALUES ($1, $2, $3)
RETURNING id`. -/
def UserStore.insert (st : UserStore) (username password role : String) :
    Except GoError (Nat × UserStore) :=
  let id := st.seq + 1
  .ok (id, ⟨st.rows ++ [⟨id, username, password, role⟩], id⟩)

/-- Go `UserRepoPG.Login`. -/
def UserRepoPG.Login (st : UserStore) (username password : String) :
    (Option User × Option GoError) × UserStore :=
  match st.selectByCredentials username password with
  | .error err =>
    if errorsIs (some err) .ErrNoRows then ((none, none), st) else ((none, some err), st)
  | .ok foundUser => ((some foundUser, none), st)

/-- Go `UserRepoPG.Register`. -/
def UserRepoPG.Register (st : UserStore) (username password : String) :
    (Option User × Option GoError) × UserStore :=
  match st.insert username password "default" with
  | .error err => ((none, some err), st)
  | .ok (userID, st1) => ((some ⟨userID, username⟩, none), st1)

/-- Go `UserRepoPG.GetUserByUsername`. -/
def UserRepoPG.GetUserByUsername (st : UserStore) (username : String) :
    (Option User × Option GoError) × UserStore :=
  match st.selectByUsername username with
  | .error err =>
    if errorsIs (some err) .ErrNoRows then ((none, none), st) else ((none, some err), st)
  | .ok foundUser => ((some foundUser, none), st)

/-- Go `UserRepoPG.GetUserRole`. -/
def UserRepoPG.GetUserRole (st : UserStore) (userID : Nat) :
    (String × Option GoError) × UserStore :=
  match st.selectRole userID with
  | .error err =>
    if errorsIs (some err) .ErrNoRows then (("", none), st) else (("", some err), st)
  | .ok userRole => ((userRole, none), st)

/-- Go `NewUserRepo(db)` as a `UserRepo`. -/
def NewUserRepo : UserRepo UserStore :=
  ⟨UserRepoPG.Login, UserRepoPG.Register, UserRepoPG.GetUserByUsername, UserRepoPG.GetUserRole⟩

/-- Go `hex.EncodeToString`: two lower-case hexadecimal digits per byte. -/
def hexEncodeToString (bytes : List Nat) : String :=
  String.mk (bytes.flatMap fun b => [Nat.digitChar (b / 16 % 16), Nat.digitChar (b % 16)])

/-- Go `SHA256Hasher.GetHashPassword`; `sum256` is the SHA-256 digest of
`crypto/sha256` (the bytes of the hash of a string), whose `Write` never fails. -/
def SHA256Hasher.GetHashPassword (sum256 : String → List Nat) : Hasher :=
  fun password => (hexEncodeToString (sum256 password), none)

/-- A call that a user use case makes on its hasher or its repository. -/
inductive UserCall where
  | GetHashPassword (password : String)
  | Login (username password : String)
  | Register (username password : String)
  | GetUserByUsername (username : String)
  | GetUserRole (userID : Nat)
  deriving DecidableEq, Repr

/-- Outcome of a user use case: the value and error it returns, the store it
leaves, and the calls it made on the hasher and the repository, in order. -/
structure Run (σ : Type) (α : Type) where
  value : α
  err : Option GoError
  st : σ
  calls : List UserCall

/-- Go `UserUseCaseApp.Login`. -/
def UserUseCaseApp.Login {σ : Type} (userRepo : UserRepo σ) (hasher : Hasher) (st : σ)
    (username password : String) : Run σ (Option User) :=
  let hashed := hasher password
  match hashed.2 with
  | some err => ⟨none, some err, st, [.GetHashPassword password]⟩
  | none =>
    let res := userRepo.Login st username hashed.1
    let calls := [UserCall.GetHashPassword password, .Login username hashed.1]
    match res.1.2 with
    | some err => ⟨none, some err, res.2, calls⟩
    | none =>
      match res.1.1 with
      | none => ⟨none, some .ErrBadCredentials, res.2, calls⟩
      | some loggedInUser => ⟨some loggedInUser, none, res.2, calls⟩

/-- Go `UserUseCaseApp.Register`. -/
def UserUseCaseApp.Register {σ : Type} (userRepo : UserRepo σ) (hasher : Hasher) (st : σ)
    (username password : String) : Run σ (Option User) :=
  let found := userRepo.GetUserByUsername st username
  match found.1.2 with
  | some err => ⟨none, some err, found.2, [.GetUserByUsername username]⟩
  | none =>
    match found.1.1 with
    | some _ => ⟨none, some .ErrUserAlreadyExists, found.2, [.GetUserByUsername username]⟩
    | none =>
      let hashed := hasher password
      match hashed.2 with
      | some err =>
        ⟨none, some err, found.2, [.GetUserByUsername username, .GetHashPassword password]⟩
      | none =>
        let res := userRepo.Register found.2 username hashed.1
        let calls := [UserCall.GetUserByUsername username, .GetHashPassword password,
          .Register username hashed.1]
        match res.1.2, res.1.1 with
        | some err, _ => ⟨none, some err, res.2, calls⟩
        | none, none => ⟨none, none, res.2, calls⟩
        | none, some newUser => ⟨some newUser, none, res.2, calls⟩

/-- Go `UserUseCaseApp.GetUserRole`. -/
def UserUseCaseApp.GetUserRole {σ : Type} (userRepo : UserRepo σ) (st : σ) (userID : Nat) :
    Run σ String :=
  let res := userRepo.GetUserRole st userID
  match res.1.2 with
  | some err => ⟨"", some err, res.2, [.GetUserRole userID]⟩
  | none =>
    if res.1.1 = "" then ⟨"", some .ErrNoUser, res.2, [.GetUserRole userID]⟩
    else ⟨res.1.1, none, res.2, [.GetUserRole userID]⟩

/-- Go `middleware.NewMiddleware(su, uu)` as `main` wires it: the session use
case over `SessionRepoRedis` and the user use case over `UserRepoPG`, for the
stores as they are during the request. -/
def NewMiddleware (sessions : Redis) (users : UserStore) : Middleware :=
  ⟨⟨fun sessionID =>
      (SessionUseCaseApp.GetSession (NewSessionRepo redisServer) sessions sessionID).1⟩,
   ⟨fun userID =>
      ((UserUseCaseApp.GetUserRole NewUserRepo users userID).value,
        (UserUseCaseApp.GetUserRole NewUserRepo users userID).err)⟩⟩

/-- A hasher for examples: the password reversed, never failing. -/
def sampleHasher : Hasher := fun password => (String.mk password.data.reverse, none)

/-- A users relation with the admin `root` (id 1) and the user `bob` (id 2). -/
def sampleUsers : UserStore :=
  ⟨[⟨1, "root", "toor", "admin"⟩, ⟨2, "bob", "drowssap", "default"⟩], 2⟩

/-! ## Actor repository and use case (`internal/actors`) -/

/-- SQL `UPDATE actors SET name = $1, surname = $2, gender = $3, birthday = $4
WHERE id = $5` through `db.Exec`: the number of rows affected is in the result,
and matching no row is not an error. -/
def DB.updateActor (db : DB) (actor : Actor) : Except GoError (Nat × DB) :=
  let hit := db.tables.actors.filter (fun a => a.ID == actor.ID)
  .ok (hit.length,
    { db with tables := { db.tables with
        actors := db.tables.actors.map (fun a => if a.ID == actor.ID then actor else a) } })

/-- Go `ActorRepoPG.UpdateActor`. -/
def ActorRepoPG.UpdateActor (db : DB) (actor : Actor) : (Bool × Option GoError) × DB :=
  match db.updateActor actor with
  | .error err =>
    if errorsIs (some err) .ErrNoRows then ((false, none), db) else ((false, some err), db)
  | .ok (_, db1) => ((true, none), db1)

/-- Go `ActorUseCaseApp.UpdateActor` over a repository result `(wasUpdated, err)`. -/
def ActorUseCaseApp.UpdateActor (repoResult : Bool × Option GoError) : Option GoError :=
  match repoResult.2 with
  | some err => some err
  | none => if !repoResult.1 then some .ErrActorNotFound else none

/-! ## `FilmRepoPG.DeleteFilm` -/

/-- SQL `DELETE FROM films WHERE id = $1` through `db.Exec`, with the number of
rows affected. Modelled from the spec: the declaration of `film_actors` is not
in the sources and the specification leaves open whether its `film_id` is a
cascading foreign key; `cascade` says whether the store removes the join rows of
a deleted film. -/
def DB.deleteFilm (cascade : Bool) (db : DB) (id : Nat) : Except GoError (Nat × DB) :=
  let hit := db.tables.films.filter (fun f => f.ID == id)
  .ok (hit.length,
    { db with tables := { db.tables with
        films := db.tables.films.filter (fun f => !(f.ID == id)),
        filmActors :=
          if cascade && decide (0 < hit.length) then
            db.tables.filmActors.filter (fun p => !(p.1 == id))
          else db.tables.filmActors } })

/-- Go `FilmRepoPG.DeleteFilm`. -/
def FilmRepoPG.DeleteFilm (cascade : Bool) (db : DB) (ID : Nat) : (Bool × Option GoError) × DB :=
  match db.deleteFilm cascade ID with
  | .error err => ((false, some err), db)
  | .ok (num, db1) => ((decide (num > 0), none), db1)

/-- Go `FilmUseCaseApp.DeleteFilm` over a repository result `(wasDeleted, err)`. -/
def FilmUseCaseApp.DeleteFilm (repoResult : Bool × Option GoError) : Option GoError :=
  match repoResult.2 with
  | some err => some err
  | none => if !repoResult.1 then some .ErrFilmNotFound else none

/-! ## Delivery (`internal/users/delivery`, `internal/films/delivery`) -/

/-- Go `err.Error()`: the text of an error (for `ErrNoSession` and
`ErrActorNotFound`, declared in files that are not among the sources, and for
the uniqueness error of the store, a stand-in text). -/
def GoError.Error : GoError → String
  | .ErrNoRows => "sql: no rows in result set"
  | .ErrNil => "redigo: nil returned"
  | .ErrNoCookie => "http: named cookie not present"
  | .ErrNoSession => "no session"
  | .ErrNoUser => "user not exists"
  | .ErrBadCredentials => "bad auth data for user"
  | .ErrUserAlreadyExists => "user with such username already exists"
  | .ErrFilmsNotFound => "films for this search were not found"
  | .ErrFilmNotFound => "film with such id does not exist"
  | .ErrBadFilmUpdateData => "invalid data to update film"
  | .ErrBadFilmAddData => "invalid data to add film"
  | .ErrActorNotFound => "actor not found"
  | .uniqueViolation => "pq: duplicate key value violates unique constraint"
  | .text msg => msg
  | .wrap msg inner => msg ++ ": " ++ inner.Error

/-- What a handler writes with `response.WriteResponse`: status and body. -/
structure Response where
  status : Nat
  body : String
  deriving DecidableEq, Repr

/-- Go `UserHandler.Logout`; `DeleteSession` is the method of its session use
case, over a store of type `σ`. -/
def UserHandler.Logout {σ : Type} (DeleteSession : σ → String → (Bool × Option GoError) × σ)
    (st : σ) (ctx : Context) : Response × σ :=
  match GetLoggerFromContext ctx with
  | .error _ => (⟨500, "\"error\": \"internal error\""⟩, st)
  | .ok _ =>
    match ctx.sessionVal with
    | some (.string sessionID) =>
      let res := DeleteSession st sessionID
      match res.1.2 with
      | some _ => (⟨500, internalErrorBody⟩, res.2)
      | none =>
        if !res.1.1 then
          (⟨404, "\x7b\"error\": \"no session with session id: " ++ sessionID ++ "\"\x7d"⟩, res.2)
        else (⟨200, "\x7b\"result\":\"success\"\x7d"⟩, res.2)
    | _ => (⟨500, internalErrorBody⟩, st)

/-- Go `dto.FilmAdd`. -/
structure FilmAdd where
  Name : String
  Description : String
  DateOfRelease : Int
  Rating : Rat
  ActorIDs : List Nat
  deriving DecidableEq, Repr

/-- Go `FilmAdd.GetFilmAndActorIDs`. -/
def FilmAdd.GetFilmAndActorIDs (f : FilmAdd) : Film × List Nat :=
  (⟨0, f.Name, f.Description, f.DateOfRelease, f.Rating⟩, f.ActorIDs)

/-- The library functions the `AddFilm` handler applies to the request body and
to its answer: `json.Unmarshal` into a `dto.FilmAdd`, `FilmAdd.Validate`
(`govalidator`), and `json.Marshal` of the validation errors and of the film. -/
structure FilmAddCodec where
  Unmarshal : String → Except GoError FilmAdd
  Validate : FilmAdd → List String
  MarshalErrors : List String → Except GoError String
  MarshalFilm : Option Film → Except GoError String

/-- Go `FilmHandler.AddFilm`; `body` is the result of `io.ReadAll(r.Body)` and
`AddFilm` the method of its film use case, over a store of type `σ`. -/
def FilmHandler.AddFilm {σ : Type} (codec : FilmAddCodec)
    (AddFilm : σ → Film → List Nat → (Option Film × Option GoError) × σ)
    (st : σ) (ctx : Context) (body : Except GoError String) : Response × σ :=
  match GetLoggerFromContext ctx with
  | .error _ => (⟨500, "\"error\":\"internal error\""⟩, st)
  | .ok _ =>
    match body with
    | .error err =>
      (⟨500, "\x7b\"error\": \"error in reading request body: " ++ err.Error ++ "\"\x7d"⟩, st)
    | .ok rBody =>
      match codec.Unmarshal rBody with
      | .error err =>
        (⟨400, "\x7b\"error\": \"error in decoding film: " ++ err.Error ++ "\"\x7d"⟩, st)
      | .ok filmDTO =>
        if (codec.Validate filmDTO).length ≠ 0 then
          match codec.MarshalErrors (codec.Validate filmDTO) with
          | .error _ => (⟨500, "\x7b\"error\": \"internal server error\"\x7d"⟩, st)
          | .ok errorsJSON => (⟨422, errorsJSON⟩, st)
        else
          let res := AddFilm st filmDTO.GetFilmAndActorIDs.1 filmDTO.GetFilmAndActorIDs.2
          if errorsIs res.1.2 .ErrBadFilmAddData then
            (⟨400, "\x7b\"error\": \"bad add data\"\x7d"⟩, res.2)
          else
            match res.1.2 with
            | some _ => (⟨500, "\x7b\"error\": \"internal server error\"\x7d"⟩, res.2)
            | none =>
              match codec.MarshalFilm res.1.1 with
              | .error _ => (⟨500, internalErrorBody⟩, res.2)
              | .ok filmJSON => (⟨200, filmJSON⟩, res.2)

/-- The film use case of `main` (`NewFilmUseCase(NewFilmRepo(db))`), method
`AddFilm`, over the relational store. -/
def NewFilmUseCase.AddFilm (sch : Schema) (db : DB) (film : Film) (actorIDs : List Nat) :
    (Option Film × Option GoError) × DB :=
  (FilmUseCaseApp.AddFilm film
      ((FilmRepoPG.AddFilm sch db film actorIDs).id, (FilmRepoPG.AddFilm sch db film actorIDs).err),
    (FilmRepoPG.AddFilm sch db film actorIDs).db)

/-- The film `X` of the specification's example, rated 5.1, with a release date
that is not the zero `time.Time`. -/
def filmX : Film := ⟨0, "X", "a film", 1, 51 / 10⟩

/-- Validation for the codec of the examples, as the tags of `dto.FilmAdd` read:
each field is `required` (not its zero value), the name has 1 to 150 and the
description 1 to 1000 characters, the rating is in the range from 0 to 10. The
messages stand for those of `govalidator`. -/
def sampleValidate (f : FilmAdd) : List String :=
  (if 1 ≤ f.Name.length ∧ f.Name.length ≤ 150 then [] else ["name: invalid"]) ++
  (if 1 ≤ f.Description.length ∧ f.Description.length ≤ 1000 then []
    else ["description: invalid"]) ++
  (if f.DateOfRelease = 0 then ["date_of_release: non zero value required"] else []) ++
  (if f.Rating = 0 ∨ f.Rating < 0 ∨ 10 < f.Rating then ["rating: invalid"] else [])

/-- A codec for examples: every body decodes to the film `filmX` with the given
actor ids, which `sampleValidate` accepts. -/
def sampleCodec (actorIDs : List Nat) : FilmAddCodec :=
  ⟨fun _ => .ok ⟨"X", "a film", 1, 51 / 10, actorIDs⟩, sampleValidate, fun _ => .ok "[]",
    fun _ => .ok "film"⟩

/-- A connection whose server answers every command with the status `QUEUED`
(as inside a `MULTI` block) and no error. -/
def queuedConn : RedisConn Unit := ⟨fun _ _ => ((.status "QUEUED", none), ())⟩

/-! ## Actor queries (`ActorRepoPG.GetActorByID`, `ActorRepoPG.GetActors`) -/

/-- A Go slice value: `none` is the nil slice, `some l` a slice (possibly of
length 0) with the elements `l`. -/
abbrev Slice (α : Type) := Option (List α)

/-- Go `len(s)`. -/
def Slice.len {α : Type} (s : Slice α) : Nat :=
  match s with
  | none => 0
  | some l => l.length

/-- Go `append(s, x)`. -/
def Slice.append {α : Type} (s : Slice α) (x : α) : Slice α :=
  match s with
  | none => some [x]
  | some l => some (l ++ [x])

/-- Go `dto.FilmDB`: the film columns of an outer join, each possibly `NULL`. -/
structure FilmDB where
  ID : Option Int
  Name : Option String
  Description : Option String
  DateOfRelease : Option Int
  Rating : Option Rat
  deriving DecidableEq, Repr

/-- Go `FilmDB.GetFilm`: nil when the id is `NULL`, else the film, with the zero
value for every other column that is `NULL` and the id converted to `uint64`. -/
def FilmDB.GetFilm (f : FilmDB) : Option Film :=
  match f.ID with
  | none => none
  | some id =>
    some ⟨(id % 2 ^ 64).toNat, f.Name.getD "", f.Description.getD "", f.DateOfRelease.getD 0,
      f.Rating.getD 0⟩

/-- Go `dto.ActorWithFilms`. -/
structure ActorWithFilms where
  Actor : Actor
  Films : Slice Film
  deriving DecidableEq, Repr

/-- A row of the join query of `GetActorByID` and `GetActors`: the columns
`a.id`, `a.name`, `a.surname`, `a.gender`, `a.birthday` and the film columns. -/
structure ActorFilmRow where
  aID : Nat
  aName : String
  aSurname : String
  aGender : String
  aBirthday : Int
  film : FilmDB
  deriving DecidableEq, Repr

/-- The zero value of `entity.Actor`. -/
def Actor.zero : Actor := ⟨0, "", "", "", 0⟩

/-- One iteration of the `rows.Next()` loop of `GetActorByID`: the actor columns
are scanned into `actor` (all five, the id included), which replaces
`actorWithFilms.Actor`, and the film is appended unless it is nil. -/
def getActorByIDStep (actorWithFilms : ActorWithFilms) (row : ActorFilmRow) : ActorWithFilms :=
  let actor : Actor := ⟨row.aID, row.aName, row.aSurname, row.aGender, row.aBirthday⟩
  match row.film.GetFilm with
  | some film => ⟨actor, actorWithFilms.Films.append film⟩
  | none => ⟨actor, actorWithFilms.Films⟩

/-- Go `ActorRepoPG.GetActorByID`; `Query` is the answer of the store to the join
query for an actor id (its rows in order, or an error). -/
def ActorRepoPG.GetActorByID (Query : Nat → Except GoError (List ActorFilmRow)) (actorID : Nat) :
    Option ActorWithFilms × Option GoError :=
  match Query actorID with
  | .error err => if errorsIs (some err) .ErrNoRows then (none, none) else (none, some err)
  | .ok rows =>
    let actorWithFilms := rows.foldl getActorByIDStep ⟨Actor.zero, some []⟩
    if actorWithFilms.Actor.Name = "" then (none, none) else (some actorWithFilms, none)

/-- One iteration of the `rows.Next()` loop of `GetActors` on `actorsMap`, a Go
map held as its entries in insertion order: `a.id` is scanned into the local
`actorID`, the other four actor columns into `actor`; an entry under `actorID`
gets the film appended (unless nil), and without one a new entry is made of
`actor` and the films so far. -/
def getActorsStep (row : ActorFilmRow) :
    List (Nat × ActorWithFilms) → List (Nat × ActorWithFilms)
  | [] =>
    let actor : Actor := { Actor.zero with
      Name := row.aName, Surname := row.aSurname, Gender := row.aGender, Birthday := row.aBirthday }
    let actorFilms : Slice Film :=
      match row.film.GetFilm with
      | some film => Slice.append (some []) film
      | none => some []
    [(row.aID, ⟨actor, actorFilms⟩)]
  | entry :: rest =>
    if entry.1 = row.aID then
      match row.film.GetFilm with
      | some film => (entry.1, { entry.2 with Films := entry.2.Films.append film }) :: rest
      | none => entry :: rest
    else entry :: getActorsStep row rest

/-- The map `actorsMap` of `GetActors` after the loop over the rows. -/
def actorsMapOf (rows : List ActorFilmRow) : List (Nat × ActorWithFilms) :=
  rows.foldl (fun actorsMap row => getActorsStep row actorsMap) []

/-- Go `ActorRepoPG.GetActors`; `Query` is the answer of the store to the join
query, and `rangeOrder` the order in which `for ... range actorsMap` visits the
values of the map (unspecified in Go). -/
def ActorRepoPG.GetActors (Query : Except GoError (List ActorFilmRow))
    (rangeOrder : List ActorWithFilms → List ActorWithFilms) :
    Slice ActorWithFilms × Option GoError :=
  match Query with
  | .error err => if errorsIs (some err) .ErrNoRows then (none, none) else (none, some err)
  | .ok rows => (some (rangeOrder ((actorsMapOf rows).map (fun entry => entry.2))), none)

/-- The film of a row of the join, as the specification means it: no film when
the `f.id` column is `NULL`, and else the film whose id, name, description,
release date and rating are the values of the five film columns of the row (a
`NULL` among the last four is the zero value of its Go type, the id is read as
`uint64`). It is stated on the columns alone, apart from `FilmDB.GetFilm`, and
is what the aggregates of the repository are compared with. -/
def ActorFilmRow.specFilm (row : ActorFilmRow) : Option Film :=
  row.film.ID.map fun id =>
    { ID := (id % 2 ^ 64).toNat
      Name := row.film.Name.getD ""
      Description := row.film.Description.getD ""
      DateOfRelease := row.film.DateOfRelease.getD 0
      Rating := row.film.Rating.getD 0 }

/-- The films of the rows of actor `id` that have a film id, in row order. -/
def filmsOfActor (rows : List ActorFilmRow) (id : Nat) : List Film :=
  (rows.filter (fun row => row.aID == id)).filterMap ActorFilmRow.specFilm

/-- The film column group of an actor without films. -/
def nullFilmDB : FilmDB := ⟨none, none, none, none, none⟩

/-- A result set: actor 5 with the films 1 and 2, actor 6 without films. -/
def sampleActorRows : List ActorFilmRow :=
  [⟨5, "John", "Doe", "male", 0, ⟨some 1, some "Alien", some "a ship", some 1979, some 8⟩⟩,
   ⟨6, "Jane", "Roe", "female", 0, nullFilmDB⟩,
   ⟨5, "John", "Doe", "male", 0, ⟨some 2, some "Brazil", some "a clerk", some 1985, some 7⟩⟩]


/-! ## Film queries (`GetFilms`, `GetFilmByID`, `GetFilmsBySearch`) -/

/-- The value of `sortParam` that `FilmRepoPG.GetFilms` concatenates into its
statement: the argument, with `"rating"` in place of the empty string. -/
def FilmRepoPG.orderBy (sortParam : String) : String :=
  if sortParam = "" then "rating" else sortParam

/-- The text of the statement that `FilmRepoPG.GetFilms` sends. -/
def FilmRepoPG.getFilmsQuery (sortParam : String) : String :=
  "SELECT f.id, f.name, f.description, f.date_of_release, f.rating FROM films f ORDER BY "
    ++ FilmRepoPG.orderBy sortParam ++ " DESC"

/-- Go `FilmRepoPG.GetFilms`; `Query` is `db.Query` on the text of a statement,
with the rows it yields, all of which scan. -/
def FilmRepoPG.GetFilms (Query : String → Except GoError (List Film)) (sortParam : String) :
    Slice Film × Option GoError :=
  match Query (FilmRepoPG.getFilmsQuery sortParam) with
  | .error err => if errorsIs (some err) .ErrNoRows then (none, none) else (none, some err)
  | .ok rows => (rows.foldl (fun films film => films.append film) (some []), none)

/-- Go `FilmUseCaseApp.GetFilms` over the repository result. -/
def FilmUseCaseApp.GetFilms (repoResult : Slice Film × Option GoError) :
    Slice Film × Option GoError :=
  match repoResult.2 with
  | some err => (none, some err)
  | none => (repoResult.1, none)

/-- Go `FilmUseCaseApp.GetFilmByID` over the repository result. -/
def FilmUseCaseApp.GetFilmByID (repoResult : Option Film × Option GoError) :
    Option Film × Option GoError :=
  match repoResult.2 with
  | some err => (none, some err)
  | none =>
    match repoResult.1 with
    | none => (none, some .ErrFilmNotFound)
    | some film => (some film, none)

/-- Go `FilmUseCaseApp.GetFilmsBySearch` over the repository result. -/
def FilmUseCaseApp.GetFilmsBySearch (repoResult : Slice Film × Option GoError) :
    Slice Film × Option GoError :=
  match repoResult.2 with
  | some err => (none, some err)
  | none =>
    if repoResult.1.isNone || repoResult.1.len == 0 then (none, some .ErrFilmsNotFound)
    else (repoResult.1, none)

/-- The columns of the relation `films` that the statements of `FilmRepoPG`
select (and, but for the generated `id`, insert). -/
def filmColumns : List String := ["id", "name", "description", "date_of_release", "rating"]

/-- Go `FilmHandler.GetFilms`: the response, and the arguments of the calls it
made to `GetFilms` of its film use case. `sortParam` is
`r.URL.Query().Get("sort_param")` and `Marshal` is `json.Marshal` on films. -/
def FilmHandler.GetFilms (GetFilms : String → Slice Film × Option GoError)
    (Marshal : Slice Film → Except GoError String) (ctx : Context) (sortParam : String) :
    Response × List String :=
  match GetLoggerFromContext ctx with
  | .error _ => (⟨500, "\"error\":\"internal error\""⟩, [])
  | .ok _ =>
    if sortParam ≠ "" && sortParam ≠ "rating" && sortParam ≠ "birthday" && sortParam ≠ "name" then
      (⟨400, "\x7b\"error\": " ++ sortParam ++ " can not be sorting param\"\x7d"⟩, [])
    else
      match (GetFilms sortParam).2 with
      | some _ => (⟨500, "\x7b\"error\": \"internal server error\x7d"⟩, [sortParam])
      | none =>
        match Marshal (GetFilms sortParam).1 with
        | .error _ => (⟨500, "\x7b\"error\": \"internal server error\x7d"⟩, [sortParam])
        | .ok filmsJSON => (⟨200, filmsJSON⟩, [sortParam])

/-- Go `FilmHandler.GetFilmByID`; `filmID` is `mux.Vars(r)["FILM_ID"]` and
`Marshal` is `json.Marshal` on a film. -/
def FilmHandler.GetFilmByID (GetFilmByID : Nat → Option Film × Option GoError)
    (Marshal : Option Film → Except GoError String) (ctx : Context) (filmID : String) : Response :=
  match GetLoggerFromContext ctx with
  | .error _ => ⟨500, "\"error\":\"internal error\""⟩
  | .ok _ =>
    match ParseUint filmID with
    | .error err => ⟨400, "\x7b\"error\": \"bad format of film id: " ++ err.Error ++ "\"\x7d"⟩
    | .ok filmIDInt =>
      if errorsIs (GetFilmByID filmIDInt).2 .ErrFilmNotFound then
        ⟨404, "\x7b\"error\": \"film with ID " ++ formatUint filmIDInt ++ " is not found\"\x7d"⟩
      else
        match (GetFilmByID filmIDInt).2 with
        | some _ => ⟨500, "\x7b\"error\": \"internal server error\"\x7d"⟩
        | none =>
          match Marshal (GetFilmByID filmIDInt).1 with
          | .error _ => ⟨500, "\x7b\"error\": \"internal server error\"\x7d"⟩
          | .ok filmJSON => ⟨200, filmJSON⟩

/-- Go `FilmHandler.GetFilmsBySearch`; `searchStr` is
`mux.Vars(r)["SEARCH_STR"]` and `Marshal` is `json.Marshal` on films. -/
def FilmHandler.GetFilmsBySearch (GetFilmsBySearch : String → Slice Film × Option GoError)
    (Marshal : Slice Film → Except GoError String) (ctx : Context) (searchStr : String) :
    Response :=
  match GetLoggerFromContext ctx with
  | .error _ => ⟨500, "\"error\":\"internal error\""⟩
  | .ok _ =>
    if errorsIs (GetFilmsBySearch searchStr).2 .ErrFilmsNotFound then
      ⟨404, "\x7b\"error\": \"no films found for search " ++ searchStr ++ "\"\x7d"⟩
    else
      match (GetFilmsBySearch searchStr).2 with
      | some _ => ⟨500, "\x7b\"error\": \"internal server error\"\x7d"⟩
      | none =>
        match Marshal (GetFilmsBySearch searchStr).1 with
        | .error _ => ⟨500, internalErrorBody⟩
        | .ok filmsJSON => ⟨200, filmsJSON⟩

/-- A context that carries the logger, as `RequestInitMiddleware` leaves it. -/
def loggerCtx : Context := ⟨some .logger, none, none⟩

/-- A stand-in for `json.Marshal` in examples: it never fails. -/
def sampleMarshal {α : Type} : α → Except GoError String := fun _ => .ok "json"

/-! ## User handlers (`UserHandler.Login`, `UserHandler.Register`) -/

/-- Go `dto.AuthRequest`. -/
structure AuthRequest where
  Password : String
  Username : String
  deriving DecidableEq, Repr

/-- The library functions the user handlers apply to the request body and to
their answer: `json.Unmarshal` into a `dto.AuthRequest`, `AuthRequest.Validate`
(`govalidator`), `json.Marshal` of the validation errors, and `json.Marshal` of
the `dto.AuthResponse` with a session id. -/
structure AuthCodec where
  Unmarshal : String → Except GoError AuthRequest
  Validate : AuthRequest → List String
  MarshalErrors : List String → Except GoError String
  MarshalResponse : String → Except GoError String

/-- Go `checkRequestFormat`: `.ok` with the request it returns, or `.error` with
the response it wrote on a path that returns a nil request (each such path
writes one; the error it returns there is the one of the write, which its
callers only test to return). `body` is the result of `io.ReadAll(r.Body)`. -/
def checkRequestFormat (codec : AuthCodec) (body : Except GoError String) :
    Except Response AuthRequest :=
  match body with
  | .error err =>
    .error ⟨500, "\x7b\"error\": \"error in reading request body: " ++ err.Error ++ "\"\x7d"⟩
  | .ok rBody =>
    match codec.Unmarshal rBody with
    | .error err =>
      .error ⟨401, "\x7b\"error\": \"error in decoding user: " ++ err.Error ++ "\"\x7d"⟩
    | .ok userFromLoginForm =>
      if (codec.Validate userFromLoginForm).length ≠ 0 then
        match codec.MarshalErrors (codec.Validate userFromLoginForm) with
        | .error _ => .error ⟨500, internalErrorBody⟩
        | .ok errorsJSON => .error ⟨401, errorsJSON⟩
      else .ok userFromLoginForm

/-- What a user handler leaves behind: the response it wrote, or a panic on a
nil pointer dereference before anything was written. -/
inductive HandlerResult where
  | wrote (response : Response)
  | panicked
  deriving DecidableEq, Repr

/-- Go `UserHandler.HandleGetSessionID`; `newUser.ID` is read first, which
panics when `newUser` is nil. `CreateSession` is the method of the session use
case. -/
def UserHandler.HandleGetSessionID (codec : AuthCodec)
    (CreateSession : Nat → String × Option GoError) (newUser : Option User) : HandlerResult :=
  match newUser with
  | none => .panicked
  | some user =>
    match (CreateSession user.ID).2 with
    | some _ => .wrote ⟨500, internalErrorBody⟩
    | none =>
      match codec.MarshalResponse (CreateSession user.ID).1 with
      | .error _ => .wrote ⟨500, internalErrorBody⟩
      | .ok sessionIDJSON => .wrote ⟨200, sessionIDJSON⟩

/-- Go `UserHandler.Login`; `Login` is the method of the user use case. -/
def UserHandler.Login (codec : AuthCodec) (Login : String → String → Option User × Option GoError)
    (CreateSession : Nat → String × Option GoError) (ctx : Context)
    (body : Except GoError String) : HandlerResult :=
  match GetLoggerFromContext ctx with
  | .error _ => .wrote ⟨500, "\"error\":\"internal error\""⟩
  | .ok _ =>
    match checkRequestFormat codec body with
    | .error written => .wrote written
    | .ok userFromLoginForm =>
      let res := Login userFromLoginForm.Username userFromLoginForm.Password
      if errorsIs res.2 .ErrBadCredentials then
        .wrote ⟨401, "\x7b\"error\": \"bad username or password\"\x7d"⟩
      else
        match res.2 with
        | some err =>
          .wrote ⟨500, "\x7b\"error\": \"error in getting user by login and password: "
            ++ err.Error ++ "\"\x7d"⟩
        | none => UserHandler.HandleGetSessionID codec CreateSession res.1

/-- Go `UserHandler.Register`; `Register` is the method of the user use case. -/
def UserHandler.Register (codec : AuthCodec)
    (Register : String → String → Option User × Option GoError)
    (CreateSession : Nat → String × Option GoError) (ctx : Context)
    (body : Except GoError String) : HandlerResult :=
  match GetLoggerFromContext ctx with
  | .error _ => .wrote ⟨500, "\"error\":\"internal error\""⟩
  | .ok _ =>
    match checkRequestFormat codec body with
    | .error written => .wrote written
    | .ok userFromLoginForm =>
      let res := Register userFromLoginForm.Username userFromLoginForm.Password
      if errorsIs res.2 .ErrUserAlreadyExists then
        .wrote ⟨422, "\x7b\"error\": \"user already exists\"\x7d"⟩
      else
        match res.2 with
        | some _ => .wrote ⟨500, internalErrorBody⟩
        | none => UserHandler.HandleGetSessionID codec CreateSession res.1

/-- A codec for examples: every body decodes to the credentials of `alice`,
which validate. -/
def sampleAuthCodec : AuthCodec :=
  ⟨fun _ => .ok ⟨"password1", "alice"⟩, fun _ => [], fun _ => .ok "[]", fun _ => .ok "session"⟩

/-- A user repository whose `Login` fails with `err`, as on a lost connection
to the store. -/
def failingUserRepo (err : GoError) : UserRepo Unit :=
  ⟨fun st _ _ => ((none, some err), st), fun st _ _ => ((none, some err), st),
    fun st _ => ((none, some err), st), fun st _ => (("", some err), st)⟩

/-- A user repository that finds no user and whose `Register` returns
`(nil, nil)`. -/
def nilUserRepo : UserRepo Unit :=
  ⟨fun st _ _ => ((none, none), st), fun st _ _ => ((none, none), st),
    fun st _ => ((none, none), st), fun st _ => (("", none), st)⟩

/-! ## Well-formed JSON bodies

The property "the body is a JSON object with a member named `error`" of the
specification, as a recogniser of the grammar of RFC 8259 that reads the body
once, with a stack of the open objects and arrays. -/

/-- An open container of the JSON recogniser. -/
inductive JFrame where
  | obj
  | arr
  deriving DecidableEq, Repr

/-- State of the JSON recogniser. In a string, `key` says whether the string is
a member name and `acc` holds its decoded characters, last first. -/
inductive JState where
  | start
  | value
  | after
  | objFirst
  | objKey
  | objColon
  | arrFirst
  | str (key : Bool) (acc : List Char)
  | strEsc (key : Bool) (acc : List Char)
  | strHex (key : Bool) (acc : List Char) (left : Nat) (code : Nat)
  | lit (rest : List Char)
  | numSign
  | numZero
  | numInt
  | numDot
  | numFrac
  | numE
  | numESign
  | numExp
  | done
  | fail
  deriving DecidableEq, Repr

/-- Configuration of the JSON recogniser: state, open containers (innermost
first), and whether a member named `error` of the outermost object was read. -/
structure JConf where
  st : JState
  stack : List JFrame
  found : Bool
  deriving DecidableEq, Repr

/-- JSON whitespace. -/
def isJSONSpace (c : Char) : Bool :=
  c == ' ' || c == '\n' || c == '\r' || c == '\t'

/-- The value of a hexadecimal digit. -/
def hexValue (c : Char) : Option Nat :=
  if c.isDigit then some (c.toNat - 48)
  else if 'a'.toNat ≤ c.toNat ∧ c.toNat ≤ 'f'.toNat then some (c.toNat - 87)
  else if 'A'.toNat ≤ c.toNat ∧ c.toNat ≤ 'F'.toNat then some (c.toNat - 55)
  else none

/-- The recogniser closes the innermost container. -/
def JConf.close (conf : JConf) (frame : JFrame) : JConf :=
  match conf.stack with
  | top :: rest =>
    if top = frame then
      match rest with
      | [] => { conf with st := .done, stack := [] }
      | _ => { conf with st := .after, stack := rest }
    else { conf with st := .fail }
  | [] => { conf with st := .fail }

/-- The recogniser reads `c` where a value has just ended. -/
def JConf.afterStep (conf : JConf) (c : Char) : JConf :=
  if isJSONSpace c then { conf with st := .after }
  else if c = ',' then
    match conf.stack with
    | .obj :: _ => { conf with st := .objKey }
    | .arr :: _ => { conf with st := .value }
    | [] => { conf with st := .fail }
  else if c = '\x7d' then conf.close .obj
  else if c = ']' then conf.close .arr
  else { conf with st := .fail }

/-- The recogniser reads `c` where a value is expected. -/
def JConf.valueStep (conf : JConf) (c : Char) : JConf :=
  if isJSONSpace c then conf
  else if c = '\x7b' then { conf with st := .objFirst, stack := .obj :: conf.stack }
  else if c = '[' then { conf with st := .arrFirst, stack := .arr :: conf.stack }
  else if c = '"' then { conf with st := .str false [] }
  else if c = '-' then { conf with st := .numSign }
  else if c = '0' then { conf with st := .numZero }
  else if c.isDigit then { conf with st := .numInt }
  else if c = 't' then { conf with st := .lit ['r', 'u', 'e'] }
  else if c = 'f' then { conf with st := .lit ['a', 'l', 's', 'e'] }
  else if c = 'n' then { conf with st := .lit ['u', 'l', 'l'] }
  else { conf with st := .fail }

/-- One step of the JSON recogniser. -/
def JConf.step (conf : JConf) (c : Char) : JConf :=
  match conf.st with
  | .start =>
    if isJSONSpace c then conf
    else if c = '\x7b' then { conf with st := .objFirst, stack := [.obj] }
    else { conf with st := .fail }
  | .value => conf.valueStep c
  | .after => conf.afterStep c
  | .objFirst =>
    if isJSONSpace c then conf
    else if c = '\x7d' then conf.close .obj
    else if c = '"' then { conf with st := .str true [] }
    else { conf with st := .fail }
  | .objKey =>
    if isJSONSpace c then conf
    else if c = '"' then { conf with st := .str true [] }
    else { conf with st := .fail }
  | .objColon =>
    if isJSONSpace c then conf
    else if c = ':' then { conf with st := .value }
    else { conf with st := .fail }
  | .arrFirst =>
    if c = ']' then conf.close .arr
    else { conf with st := .value }.valueStep c
  | .str key acc =>
    if c = '"' then
      if key then
        { conf with st := .objColon,
                    found := conf.found ||
                      (conf.stack.length == 1 && acc.reverse == ['e', 'r', 'r', 'o', 'r']) }
      else { conf with st := .after }
    else if c = '\\' then { conf with st := .strEsc key acc }
    else if c.toNat < 32 then { conf with st := .fail }
    else { conf with st := .str key (c :: acc) }
  | .strEsc key acc =>
    if c = '"' ∨ c = '\\' ∨ c = '/' then { conf with st := .str key (c :: acc) }
    else if c = 'b' then { conf with st := .str key (Char.ofNat 8 :: acc) }
    else if c = 'f' then { conf with st := .str key (Char.ofNat 12 :: acc) }
    else if c = 'n' then { conf with st := .str key ('\n' :: acc) }
    else if c = 'r' then { conf with st := .str key ('\r' :: acc) }
    else if c = 't' then { conf with st := .str key ('\t' :: acc) }
    else if c = 'u' then { conf with st := .strHex key acc 4 0 }
    else { conf with st := .fail }
  | .strHex key acc left code =>
    match hexValue c with
    | none => { conf with st := .fail }
    | some v =>
      if left ≤ 1 then { conf with st := .str key (Char.ofNat (code * 16 + v) :: acc) }
      else { conf with st := .strHex key acc (left - 1) (code * 16 + v) }
  | .lit rest =>
    match rest with
    | [] => { conf with st := .fail }
    | d :: more =>
      if c = d then
        match more with
        | [] => { conf with st := .after }
        | _ => { conf with st := .lit more }
      else { conf with st := .fail }
  | .numSign =>
    if c = '0' then { conf with st := .numZero }
    else if c.isDigit then { conf with st := .numInt }
    else { conf with st := .fail }
  | .numZero =>
    if c = '.' then { conf with st := .numDot }
    else if c = 'e' ∨ c = 'E' then { conf with st := .numE }
    else conf.afterStep c
  | .numInt =>
    if c.isDigit then conf
    else if c = '.' then { conf with st := .numDot }
    else if c = 'e' ∨ c = 'E' then { conf with st := .numE }
    else conf.afterStep c
  | .numDot => if c.isDigit then { conf with st := .numFrac } else { conf with st := .fail }
  | .numFrac =>
    if c.isDigit then conf
    else if c = 'e' ∨ c = 'E' then { conf with st := .numE }
    else conf.afterStep c
  | .numE =>
    if c = '+' ∨ c = '-' then { conf with st := .numESign }
    else if c.isDigit then { conf with st := .numExp }
    else { conf with st := .fail }
  | .numESign => if c.isDigit then { conf with st := .numExp } else { conf with st := .fail }
  | .numExp => if c.isDigit then conf else conf.afterStep c
  | .done => if isJSONSpace c then conf else { conf with st := .fail }
  | .fail => conf

/-- Whether the body is a well-formed JSON object that has a member named
`error`. -/
def isJSONObjectWithError (body : String) : Bool :=
  let conf := body.data.foldl JConf.step ⟨.start, [], false⟩
  conf.st == .done && conf.found

/-! ## Statements of the repositories -/

/-- A parameterised statement of a repository: the method that sends it, its
text, and the number of arguments bound to it in the call. -/
structure Statement where
  method : String
  sql : String
  args : Nat
  deriving DecidableEq, Repr

/-- The text of the statement of `FilmRepoPG.GetFilmByID`. -/
def FilmRepoPG.getFilmByIDQuery : String :=
  "SELECT id, name, description, date_of_release, rating FROM films WHERE id = ?"

/-- Go `FilmRepoPG.GetFilmByID`; `QueryRow` is `db.QueryRow(...).Scan` on the
text of a statement and its arguments. -/
def FilmRepoPG.GetFilmByID (QueryRow : String → List Nat → Except GoError Film) (filmID : Nat) :
    Option Film × Option GoError :=
  match QueryRow FilmRepoPG.getFilmByIDQuery [filmID] with
  | .error err => if errorsIs (some err) .ErrNoRows then (none, none) else (none, some err)
  | .ok film => (some film, none)

/-- The statements with bound arguments that `FilmRepoPG`, `ActorRepoPG` and
`UserRepoPG` send, in the order of the sources. -/
def repoStatements : List Statement :=
  [⟨"FilmRepoPG.GetFilmByID", FilmRepoPG.getFilmByIDQuery, 1⟩,
   ⟨"FilmRepoPG.AddFilm",
      "INSERT INTO films (name, description, date_of_release, rating)" ++
      " VALUES ($1, $2, $3, $4) RETURNING id", 4⟩,
   ⟨"FilmRepoPG.AddFilm",
      "SELECT id FROM actors WHERE id = $1", 1⟩,
   ⟨"FilmRepoPG.AddFilm",
      "INSERT INTO film_actors (film_id, actor_id) VALUES ($1, $2)", 2⟩,
   ⟨"FilmRepoPG.UpdateFilm",
      "UPDATE films SET name = $1, description = $2, date_of_release" ++
      " = $3, rating = $4 WHERE id = $5", 5⟩,
   ⟨"FilmRepoPG.UpdateFilm",
      "DELETE FROM film_actors WHERE film_id = $1", 1⟩,
   ⟨"FilmRepoPG.UpdateFilm",
      "SELECT id FROM actors WHERE id = $1", 1⟩,
   ⟨"FilmRepoPG.UpdateFilm",
      "INSERT INTO film_actors (film_id, actor_id) VALUES ($1, $2)", 2⟩,
   ⟨"FilmRepoPG.GetFilmsBySearch",
      "\n    SELECT DISTINCT f.id, f.name, f.description, f.date_of_release," ++
      " f.rating\n\tFROM films f\n\tLEFT JOIN film_actors fa ON f.id" ++
      " = fa.film_id\n\tLEFT JOIN actors a ON fa.actor_id = a.id\n\tWHERE" ++
      " LOWER(f.name) LIKE LOWER(\x27%\x27 || $1 || \x27%\x27)\n   " ++
      " OR LOWER(a.name || \x27 \x27 || a.surname) LIKE LOWER(\x27%\x27" ++
      " || $1 || \x27%\x27);\n", 1⟩,
   ⟨"FilmRepoPG.DeleteFilm",
      "DELETE FROM films WHERE id = $1", 1⟩,
   ⟨"ActorRepoPG.GetActorByID",
      "\n        SELECT a.id, a.name, a.surname, a.gender, a.birthday," ++
      " f.id, f.name, f.description, f.date_of_release, f.rating\n " ++
      "       FROM actors a\n        LEFT JOIN film_actors fa ON a.id" ++
      " = fa.actor_id\n        LEFT JOIN films f ON fa.film_id = f.id\n" ++
      "        WHERE a.id = $1\n    ", 1⟩,
   ⟨"ActorRepoPG.AddActor",
      "INSERT INTO actors (name, surname, gender, birthday) VALUES ($1," ++
      " $2, $3, $4) RETURNING id", 4⟩,
   ⟨"ActorRepoPG.UpdateActor",
      "UPDATE actors SET name = $1, surname = $2, gender = $3, birthday" ++
      " = $4 WHERE id = $5", 5⟩,
   ⟨"ActorRepoPG.DeleteActor",
      "DELETE FROM actors WHERE id = $1", 1⟩,
   ⟨"UserRepoPG.Login",
      "SELECT id, username FROM users WHERE username = $1 AND password = $2", 2⟩,
   ⟨"UserRepoPG.Register",
      "INSERT INTO users (username, password, role) VALUES ($1, $2, $3) RETURNING id", 3⟩,
   ⟨"UserRepoPG.GetUserByUsername",
      "SELECT id, username FROM users WHERE username = $1", 1⟩,
   ⟨"UserRepoPG.GetUserRole",
      "SELECT role FROM users WHERE id = $1", 1⟩]

/-- The numbers `k` of the placeholders `$k` of a statement, in order (0 for a
`$` that no digit follows). -/
def placeholderNumbers : List Char → List Nat
  | [] => []
  | c :: rest =>
    if c = '$' then
      match parseDigits (rest.takeWhile Char.isDigit) 0 with
      | some k => k :: placeholderNumbers rest
      | none => placeholderNumbers rest
    else placeholderNumbers rest

/-- Whether a statement with `n` bound arguments uses the positional
placeholders of PostgreSQL: no `?`, every placeholder among `$1..$n`, and each
of `$1..$n` present. -/
def Statement.usesPositional (s : Statement) : Bool :=
  !s.sql.data.contains '?' &&
  (placeholderNumbers s.sql.data).all (fun k => decide (1 ≤ k) && decide (k ≤ s.args)) &&
  (List.range s.args).all (fun i => (placeholderNumbers s.sql.data).contains (i + 1))

/-! ## Stores with an id that the sequence has not reached -/

/-- A `users` relation whose only row, an admin, has the id 3 although the id
sequence last handed out 2: a row that was inserted with an explicit id. -/
def staleUsers : UserStore := ⟨[⟨3, "root", "toor", "admin"⟩], 2⟩
/-! # Theorems -/

/-! ## Film repository -/

theorem actorExists_false_iff (acts : List Actor) (id : Nat) :
    actorExists acts id = false ↔ ∀ a ∈ acts, a.ID ≠ id := by
  simp [actorExists]

theorem selectActorID_of_exists (tx : Tx) (id : Nat) (h : actorExists tx.work.actors id = true) :
    tx.selectActorID id = .ok id := by
  unfold Tx.selectActorID
  cases hf : tx.work.actors.find? (fun b => b.ID == id) with
  | none =>
    rw [List.find?_eq_none] at hf
    simp [actorExists] at h
    obtain ⟨a, ha, rfl⟩ := h
    exact absurd (hf a ha) (by simp)
  | some b =>
    have := List.find?_some hf
    simp at this
    simp [this]

theorem selectActorID_of_absent (tx : Tx) (id : Nat) (h : actorExists tx.work.actors id = false) :
    tx.selectActorID id = .error .ErrNoRows := by
  unfold Tx.selectActorID
  cases hf : tx.work.actors.find? (fun b => b.ID == id) with
  | none => rfl
  | some b =>
    have h1 := List.find?_some hf
    have h2 := List.mem_of_find?_eq_some hf
    rw [actorExists_false_iff] at h
    exact absurd (by simpa using h1) (h b h2)

theorem linkActors_exit_errVar (sch : Schema) (filmID : Nat) :
    ∀ (ids : List Nat) (tx : Tx) (ex : BodyExit),
      linkActors sch filmID ids tx = .error ex → ex.errVar ≠ none := by
  intro ids
  induction ids with
  | nil => intro tx ex h; simp [linkActors] at h
  | cons id rest ih =>
    intro tx ex h
    unfold linkActors at h
    split at h
    · split at h <;> (cases h; simp)
    · split at h
      · cases h; simp
      · exact ih _ _ h

theorem insertFilmActor_ok (sch : Schema) (tx tx1 : Tx) (f a : Nat)
    (h : tx.insertFilmActor sch f a = .ok tx1) :
    tx1 = { tx with work := { tx.work with filmActors := tx.work.filmActors ++ [(f, a)] } } := by
  unfold Tx.insertFilmActor at h
  split at h
  · cases h
  · cases h; rfl

/-- Falling out of the loop: every id was found and one join row per id was
appended, in order; nothing else changed. -/
theorem linkActors_ok (sch : Schema) (filmID : Nat) :
    ∀ (ids : List Nat) (tx tx1 : Tx),
      linkActors sch filmID ids tx = .ok tx1 →
        (∀ id ∈ ids, actorExists tx.work.actors id = true) ∧
        tx1 = { tx with work := { tx.work with
          filmActors := tx.work.filmActors ++ ids.map (fun id => (filmID, id)) } } := by
  intro ids
  induction ids with
  | nil =>
    intro tx tx1 h
    simp [linkActors] at h
    subst h
    simp
  | cons id rest ih =>
    intro tx tx1 h
    unfold linkActors at h
    cases hs : tx.selectActorID id with
    | error e =>
      rw [hs] at h
      simp only at h
      split at h <;> cases h
    | ok v =>
      rw [hs] at h
      simp only at h
      cases hi : tx.insertFilmActor sch filmID id with
      | error e => rw [hi] at h; cases h
      | ok tx2 =>
        rw [hi] at h
        simp only at h
        have h2 := insertFilmActor_ok sch tx tx2 filmID id hi
        obtain ⟨hp, he⟩ := ih tx2 tx1 h
        subst h2
        have hid : actorExists tx.work.actors id = true := by
          by_contra hc
          have hc1 : actorExists tx.work.actors id = false := by simpa using hc
          rw [selectActorID_of_absent tx id hc1] at hs
          cases hs
        refine ⟨?_, ?_⟩
        · intro x hx
          rcases List.mem_cons.1 hx with rfl | hx
          · exact hid
          · exact hp x hx
        · rw [he]; simp

/-- With an id that is not in `actors`, the loop returns from inside. -/
theorem linkActors_absent (sch : Schema) (filmID : Nat) (ids : List Nat) (tx : Tx)
    (h : ∃ id ∈ ids, actorExists tx.work.actors id = false) :
    ∃ ex, linkActors sch filmID ids tx = .error ex ∧ ex.errVar ≠ none := by
  cases hl : linkActors sch filmID ids tx with
  | error ex => exact ⟨ex, rfl, linkActors_exit_errVar sch filmID ids tx ex hl⟩
  | ok tx1 =>
    obtain ⟨id, hid, hab⟩ := h
    have := (linkActors_ok sch filmID ids tx tx1 hl).1 id hid
    rw [hab] at this
    cases this


/-- When the loop returns from inside because an id is missing, the returned
error is nil exactly when no join-row insertion was refused before. -/
theorem linkActors_retErr (sch : Schema) (filmID : Nat) :
    ∀ (ids : List Nat) (tx : Tx) (ex : BodyExit),
      (∃ id ∈ ids, actorExists tx.work.actors id = false) →
      linkActors sch filmID ids tx = .error ex →
        (ex.retErr = none ↔
          (sch.uniquePair = false ∨
            ((ids.takeWhile (actorExists tx.work.actors)).Nodup ∧
              ∀ a ∈ ids.takeWhile (actorExists tx.work.actors),
                (filmID, a) ∉ tx.work.filmActors))) := by
  intro ids
  induction ids with
  | nil => intro tx ex h; simp at h
  | cons id rest ih =>
    intro tx ex hab h
    unfold linkActors at h
    cases hp : actorExists tx.work.actors id with
    | false =>
      rw [selectActorID_of_absent tx id hp] at h
      simp [errorsIs, GoError.chainHas] at h
      subst h
      simp [List.takeWhile, hp]
    | true =>
      rw [selectActorID_of_exists tx id hp] at h
      simp only at h
      cases hi : tx.insertFilmActor sch filmID id with
      | error e =>
        rw [hi] at h
        simp only at h
        cases h
        unfold Tx.insertFilmActor at hi
        split at hi
        · rename_i hc
          simp at hc
          simp [List.takeWhile, hp, hc.1]
          intro _ _ hx
          exact absurd hc.2 hx
        · cases hi
      | ok tx1 =>
        rw [hi] at h
        simp only at h
        have h1 := insertFilmActor_ok sch tx tx1 filmID id hi
        have hrest : ∃ x ∈ rest, actorExists tx1.work.actors x = false := by
          obtain ⟨x, hx, hxa⟩ := hab
          rcases List.mem_cons.1 hx with rfl | hx
          · rw [hp] at hxa; cases hxa
          · exact ⟨x, hx, by rw [h1]; exact hxa⟩
        have := ih tx1 ex hrest h
        rw [this, h1]
        simp only [List.takeWhile, hp]
        unfold Tx.insertFilmActor at hi
        split at hi
        · cases hi
        · rename_i hc
          simp at hc
          by_cases hu : sch.uniquePair = false
          · simp [hu]
          · have hu1 : sch.uniquePair = true := by simpa using hu
            have hni : (filmID, id) ∉ tx.work.filmActors := hc hu1
            simp only [hu1, Bool.true_eq_false, false_or, List.nodup_cons, List.mem_append,
              List.mem_singleton, List.mem_cons, Prod.mk.injEq, true_and, not_or,
              forall_eq_or_imp]
            constructor
            · rintro ⟨hn, hall⟩
              refine ⟨⟨?_, hn⟩, hni, fun a ha => (hall a ha).1⟩
              intro hmem
              exact (hall id hmem).2.1 rfl
            · rintro ⟨⟨hnm, hn⟩, _, hall⟩
              refine ⟨hn, fun a ha => ⟨hall a ha, ?_, List.not_mem_nil _⟩⟩
              rintro rfl
              exact hnm ha


theorem linkActors_exit_seq (sch : Schema) (filmID : Nat) :
    ∀ (ids : List Nat) (tx : Tx) (ex : BodyExit),
      linkActors sch filmID ids tx = .error ex → ex.tx.seq = tx.seq := by
  intro ids
  induction ids with
  | nil => intro tx ex h; simp [linkActors] at h
  | cons id rest ih =>
    intro tx ex h
    unfold linkActors at h
    split at h
    · split at h <;> (cases h; rfl)
    · split at h
      · cases h; rfl
      · rename_i tx1 hi
        rw [ih _ _ h, insertFilmActor_ok sch tx tx1 filmID id hi]

theorem absent_iff (acts : List Actor) (ids : List Nat) :
    (∃ id ∈ ids, ∀ a ∈ acts, a.ID ≠ id) ↔ ∃ id ∈ ids, actorExists acts id = false := by
  simp only [actorExists_false_iff]

/-- C1: when some requested actor id has no row in `actors`, `AddFilm` rolls the
transaction back and the rows of `films`, `actors` and `film_actors` are the
rows from before the call (also when join rows of earlier ids had been inserted
inside the transaction); the id returned is 0. -/
theorem AddFilm_missing_actor_leaves_store (sch : Schema) (db : DB) (film : Film)
    (actorIDs : List Nat) (h : ∃ id ∈ actorIDs, ∀ a ∈ db.tables.actors, a.ID ≠ id) :
    (FilmRepoPG.AddFilm sch db film actorIDs).db.tables = db.tables ∧
      (FilmRepoPG.AddFilm sch db film actorIDs).txEnd = some TxEnd.rolledBack ∧
      (FilmRepoPG.AddFilm sch db film actorIDs).id = 0 := by
  rw [absent_iff] at h
  obtain ⟨ex, hex, hv⟩ := linkActors_absent sch (db.filmSeq + 1) actorIDs
    ⟨{ db.tables with films := db.tables.films ++ [{ film with ID := db.filmSeq + 1 }] },
      db.filmSeq + 1⟩ h
  cases hvar : ex.errVar with
  | none => exact absurd hvar hv
  | some e =>
    simp [FilmRepoPG.AddFilm, DB.begin, Tx.insertFilm, hex, deferredRollback, hvar, Tx.rollback]

/-- C1 at a concrete input: actor 1 exists and its join row is inserted inside
the transaction before actor 2 is found missing. -/
theorem AddFilm_missing_actor_leaves_store_witness :
    (∃ id ∈ [1, 2], ∀ a ∈ sampleDB.tables.actors, a.ID ≠ id) ∧
      (FilmRepoPG.AddFilm ⟨true⟩ sampleDB (sampleFilm 0) [1, 2]).db.tables = sampleDB.tables ∧
      (FilmRepoPG.AddFilm ⟨true⟩ sampleDB (sampleFilm 0) [1, 2]).txEnd = some TxEnd.rolledBack ∧
      (FilmRepoPG.AddFilm ⟨true⟩ sampleDB (sampleFilm 0) [1, 2]).id = 0 :=
  ⟨⟨2, by decide, by decide⟩,
    AddFilm_missing_actor_leaves_store ⟨true⟩ sampleDB (sampleFilm 0) [1, 2]
      ⟨2, by decide, by decide⟩⟩

/-- C2 as stated fails: with an enforced unique pair, the list `[1, 1, 2]`
(actor 1 exists, actor 2 does not) makes `UpdateFilm` of the existing film 1
return `(false, uniqueViolation)` and not `(false, nil)`. -/
theorem UpdateFilm_missing_actor_counterexample :
    (∃ f ∈ sampleDB.tables.films, f.ID = (sampleFilm 1).ID) ∧
      (∃ id ∈ [1, 1, 2], ∀ a ∈ sampleDB.tables.actors, a.ID ≠ id) ∧
      (FilmRepoPG.UpdateFilm ⟨true⟩ sampleDB (sampleFilm 1) [1, 1, 2]).ok = false ∧
      (FilmRepoPG.UpdateFilm ⟨true⟩ sampleDB (sampleFilm 1) [1, 1, 2]).err
        = some GoError.uniqueViolation ∧
      (FilmRepoPG.UpdateFilm ⟨true⟩ sampleDB (sampleFilm 1) [1, 1, 2]).err ≠ none := by
  decide

theorem notmem_filter_ne (rows : List (Nat × Nat)) (f a : Nat) :
    (f, a) ∉ rows.filter (fun p => !(p.1 == f)) := by
  simp

/-- C2, amended: when some requested actor id has no row in `actors`,
`UpdateFilm` returns false, rolls the transaction back and leaves the store as
it was (film rows and join rows included); the error it returns is nil exactly
when the store does not enforce the unique pair or the ids before the first
missing one are pairwise distinct, and is the store's uniqueness error
otherwise. -/
theorem UpdateFilm_missing_actor_rolls_back (sch : Schema) (db : DB) (film : Film)
    (actorIDs : List Nat) (h : ∃ id ∈ actorIDs, ∀ a ∈ db.tables.actors, a.ID ≠ id) :
    (FilmRepoPG.UpdateFilm sch db film actorIDs).ok = false ∧
      (FilmRepoPG.UpdateFilm sch db film actorIDs).db = db ∧
      (FilmRepoPG.UpdateFilm sch db film actorIDs).txEnd = some TxEnd.rolledBack ∧
      ((FilmRepoPG.UpdateFilm sch db film actorIDs).err = none ↔
        (sch.uniquePair = false ∨
          (actorIDs.takeWhile (actorExists db.tables.actors)).Nodup)) := by
  rw [absent_iff] at h
  obtain ⟨ex, hex, hv⟩ := linkActors_absent sch film.ID actorIDs
    ⟨{ db.tables with
        films := db.tables.films.map (fun f => if f.ID == film.ID then film else f),
        filmActors := db.tables.filmActors.filter (fun p => !(p.1 == film.ID)) },
      db.filmSeq⟩ h
  have hr := linkActors_retErr sch film.ID actorIDs _ ex h hex
  cases hvar : ex.errVar with
  | none => exact absurd hvar hv
  | some e =>
    have hs := linkActors_exit_seq sch film.ID actorIDs _ ex hex
    simp only at hs
    have hu : FilmRepoPG.UpdateFilm sch db film actorIDs
        = ⟨false, ex.retErr, ⟨db.tables, ex.tx.seq⟩, some TxEnd.rolledBack⟩ := by
      simp only [FilmRepoPG.UpdateFilm, DB.begin, Tx.updateFilm, Tx.deleteFilmActors, hex,
        deferredRollback, hvar, Tx.rollback]
    refine ⟨?_, ?_, ?_, ?_⟩
    · rw [hu]
    · rw [hu, hs]
    · rw [hu]
    · have he : (FilmRepoPG.UpdateFilm sch db film actorIDs).err = ex.retErr := by
        rw [hu]
      rw [he, hr]
      constructor
      · rintro (hu | ⟨hn, _⟩)
        · exact Or.inl hu
        · exact Or.inr hn
      · rintro (hu | hn)
        · exact Or.inl hu
        · exact Or.inr ⟨hn, fun a _ => notmem_filter_ne _ _ _⟩

/-- C2 amended, at a concrete input: film 1 exists with join row `(1, 1)`, actor
2 is missing, the ids before it are distinct. -/
theorem UpdateFilm_missing_actor_rolls_back_witness :
    (∃ id ∈ [1, 2], ∀ a ∈ sampleDB.tables.actors, a.ID ≠ id) ∧
      (FilmRepoPG.UpdateFilm ⟨true⟩ sampleDB (sampleFilm 1) [1, 2]).ok = false ∧
      (FilmRepoPG.UpdateFilm ⟨true⟩ sampleDB (sampleFilm 1) [1, 2]).db = sampleDB ∧
      (FilmRepoPG.UpdateFilm ⟨true⟩ sampleDB (sampleFilm 1) [1, 2]).txEnd
        = some TxEnd.rolledBack ∧
      ((FilmRepoPG.UpdateFilm ⟨true⟩ sampleDB (sampleFilm 1) [1, 2]).err = none ↔
        ((⟨true⟩ : Schema).uniquePair = false ∨
          ([1, 2].takeWhile (actorExists sampleDB.tables.actors)).Nodup)) :=
  ⟨⟨2, by decide, by decide⟩,
    UpdateFilm_missing_actor_rolls_back ⟨true⟩ sampleDB (sampleFilm 1) [1, 2]
      ⟨2, by decide, by decide⟩⟩


/-- Shape of a successful `UpdateFilm`: the loop fell through and the rows of the
transaction were committed. -/
theorem UpdateFilm_ok_tables (sch : Schema) (db : DB) (film : Film) (actorIDs : List Nat)
    (h : (FilmRepoPG.UpdateFilm sch db film actorIDs).ok = true) :
    (FilmRepoPG.UpdateFilm sch db film actorIDs).db.tables =
      { films := db.tables.films.map (fun f => if f.ID == film.ID then film else f),
        actors := db.tables.actors,
        filmActors := db.tables.filmActors.filter (fun p => !(p.1 == film.ID))
          ++ actorIDs.map (fun id => (film.ID, id)) } := by
  cases hl : linkActors sch film.ID actorIDs
    ⟨{ db.tables with
        films := db.tables.films.map (fun f => if f.ID == film.ID then film else f),
        filmActors := db.tables.filmActors.filter (fun p => !(p.1 == film.ID)) },
      db.filmSeq⟩ with
  | error ex =>
    simp only [FilmRepoPG.UpdateFilm, DB.begin, Tx.updateFilm, Tx.deleteFilmActors, hl] at h
    cases h
  | ok tx3 =>
    have h3 := (linkActors_ok sch film.ID actorIDs _ tx3 hl).2
    simp only [FilmRepoPG.UpdateFilm, DB.begin, Tx.updateFilm, Tx.deleteFilmActors, hl,
      Tx.commit, deferredRollback]
    rw [h3]

/-- C3: after an `UpdateFilm` that returns `(true, nil)`, the `film_actors` rows
of the film are exactly one row per element of the new id list, in order: every
earlier row of the film is gone, and an actor is associated with the film if and
only if its id is in the list. -/
theorem UpdateFilm_success_replaces_actor_set (sch : Schema) (db : DB) (film : Film)
    (actorIDs : List Nat)
    (h : (FilmRepoPG.UpdateFilm sch db film actorIDs).ok = true ∧
      (FilmRepoPG.UpdateFilm sch db film actorIDs).err = none) :
    (FilmRepoPG.UpdateFilm sch db film actorIDs).db.tables.filmActors.filter
        (fun p => p.1 == film.ID) = actorIDs.map (fun id => (film.ID, id)) ∧
      ∀ a, (film.ID, a) ∈ (FilmRepoPG.UpdateFilm sch db film actorIDs).db.tables.filmActors
        ↔ a ∈ actorIDs := by
  rw [UpdateFilm_ok_tables sch db film actorIDs h.1]
  constructor
  · simp only [List.filter_append, List.filter_filter]
    have h1 : db.tables.filmActors.filter (fun p => (p.1 == film.ID) && !(p.1 == film.ID)) = [] := by
      rw [List.filter_eq_nil_iff]
      intro p _
      simp
    have h2 : (actorIDs.map (fun id => (film.ID, id))).filter (fun p => p.1 == film.ID)
        = actorIDs.map (fun id => (film.ID, id)) := by
      rw [List.filter_eq_self]
      intro p hp
      obtain ⟨a, _, rfl⟩ := List.mem_map.1 hp
      simp
    rw [h1, h2, List.nil_append]
  · intro a
    simp

/-- C3 at a concrete input: film 1 had the join row `(1, 1)`; after the update
with `[2, 3]` its rows are `(1, 2)` and `(1, 3)`. -/
theorem UpdateFilm_success_replaces_actor_set_witness :
    (FilmRepoPG.UpdateFilm ⟨true⟩
        ⟨⟨[sampleFilm 1], [sampleActor 1, sampleActor 2, sampleActor 3], [(1, 1)]⟩, 1⟩
        (sampleFilm 1) [2, 3]).db.tables.filmActors.filter (fun p => p.1 == (sampleFilm 1).ID)
      = [2, 3].map (fun id => ((sampleFilm 1).ID, id)) ∧
      ∀ a, ((sampleFilm 1).ID, a) ∈ (FilmRepoPG.UpdateFilm ⟨true⟩
        ⟨⟨[sampleFilm 1], [sampleActor 1, sampleActor 2, sampleActor 3], [(1, 1)]⟩, 1⟩
        (sampleFilm 1) [2, 3]).db.tables.filmActors ↔ a ∈ [2, 3] :=
  UpdateFilm_success_replaces_actor_set ⟨true⟩
    ⟨⟨[sampleFilm 1], [sampleActor 1, sampleActor 2, sampleActor 3], [(1, 1)]⟩, 1⟩
    (sampleFilm 1) [2, 3] (by decide)

/-- Shape of a successful `AddFilm`. -/
theorem AddFilm_ok_result (sch : Schema) (db : DB) (film : Film) (actorIDs : List Nat)
    (h : (FilmRepoPG.AddFilm sch db film actorIDs).id ≠ 0) :
    (FilmRepoPG.AddFilm sch db film actorIDs).id = db.filmSeq + 1 ∧
    (FilmRepoPG.AddFilm sch db film actorIDs).db.tables =
      { films := db.tables.films ++ [{ film with ID := db.filmSeq + 1 }],
        actors := db.tables.actors,
        filmActors := db.tables.filmActors
          ++ actorIDs.map (fun id => (db.filmSeq + 1, id)) } := by
  cases hl : linkActors sch (db.filmSeq + 1) actorIDs
    ⟨{ db.tables with films := db.tables.films ++ [{ film with ID := db.filmSeq + 1 }] },
      db.filmSeq + 1⟩ with
  | error ex =>
    simp only [FilmRepoPG.AddFilm, DB.begin, Tx.insertFilm, hl] at h
    exact absurd rfl h
  | ok tx2 =>
    have h2 := (linkActors_ok sch (db.filmSeq + 1) actorIDs _ tx2 hl).2
    simp only [FilmRepoPG.AddFilm, DB.begin, Tx.insertFilm, hl, Tx.commit, deferredRollback]
    rw [h2]
    exact ⟨trivial, rfl⟩

/-- C4 as stated fails: `UpdateFilm` of film 2, which has no row in `films`, with
the actor ids `[1]` returns `(true, nil)` and leaves the join row `(2, 1)`; the
id sequence still stands at 1. The next `AddFilm`, with no actor id, is handed
the id 2, returns it with a nil error, and one `film_actors` row exists under
the returned id where `len(ids)` is 0. -/
theorem AddFilm_stale_join_row_counterexample :
    (FilmRepoPG.UpdateFilm ⟨true⟩ sampleDB (sampleFilm 2) [1]).ok = true ∧
    (FilmRepoPG.UpdateFilm ⟨true⟩ sampleDB (sampleFilm 2) [1]).err = none ∧
    (FilmRepoPG.UpdateFilm ⟨true⟩ sampleDB (sampleFilm 2) [1]).db.tables.filmActors
      = [(1, 1), (2, 1)] ∧
    (FilmRepoPG.UpdateFilm ⟨true⟩ sampleDB (sampleFilm 2) [1]).db.filmSeq = 1 ∧
    (FilmRepoPG.AddFilm ⟨true⟩ (FilmRepoPG.UpdateFilm ⟨true⟩ sampleDB (sampleFilm 2) [1]).db
      filmX []).id = 2 ∧
    (FilmRepoPG.AddFilm ⟨true⟩ (FilmRepoPG.UpdateFilm ⟨true⟩ sampleDB (sampleFilm 2) [1]).db
      filmX []).err = none ∧
    (FilmRepoPG.AddFilm ⟨true⟩ (FilmRepoPG.UpdateFilm ⟨true⟩ sampleDB (sampleFilm 2) [1]).db
      filmX []).db.tables.filmActors.filter (fun p => p.1 == 2) = [(2, 1)] ∧
    ((FilmRepoPG.AddFilm ⟨true⟩ (FilmRepoPG.UpdateFilm ⟨true⟩ sampleDB (sampleFilm 2) [1]).db
      filmX []).db.tables.filmActors.filter (fun p => p.1 == 2)).length
      ≠ ([] : List Nat).length :=
  ⟨rfl, rfl, rfl, rfl, rfl, rfl, rfl, by decide⟩

/-- C4, amended: in a store where no `films` row and no `film_actors` row carries
a film id beyond the last value of the `films.id` sequence, an `AddFilm` that
returns a non-zero id with a nil error leaves exactly one `film_actors` row per
element of the id list under the returned film id (`len(ids)` rows), leaves the
rows of all other films as they were, and the only `films` row with the returned
id carries the name, description, release date and rating of the input film. -/
theorem AddFilm_success_rows (sch : Schema) (db : DB) (film : Film) (actorIDs : List Nat)
    (hfilms : ∀ f ∈ db.tables.films, f.ID ≤ db.filmSeq)
    (hrows : ∀ p ∈ db.tables.filmActors, p.1 ≤ db.filmSeq)
    (h : (FilmRepoPG.AddFilm sch db film actorIDs).id ≠ 0 ∧
      (FilmRepoPG.AddFilm sch db film actorIDs).err = none) :
    (FilmRepoPG.AddFilm sch db film actorIDs).db.tables.filmActors.filter
        (fun p => p.1 == (FilmRepoPG.AddFilm sch db film actorIDs).id)
      = actorIDs.map (fun id => ((FilmRepoPG.AddFilm sch db film actorIDs).id, id)) ∧
    ((FilmRepoPG.AddFilm sch db film actorIDs).db.tables.filmActors.filter
        (fun p => p.1 == (FilmRepoPG.AddFilm sch db film actorIDs).id)).length
      = actorIDs.length ∧
    (FilmRepoPG.AddFilm sch db film actorIDs).db.tables.filmActors.filter
        (fun p => !(p.1 == (FilmRepoPG.AddFilm sch db film actorIDs).id))
      = db.tables.filmActors ∧
    (FilmRepoPG.AddFilm sch db film actorIDs).db.tables.films.filter
        (fun f => f.ID == (FilmRepoPG.AddFilm sch db film actorIDs).id)
      = [{ ID := (FilmRepoPG.AddFilm sch db film actorIDs).id, Name := film.Name,
           Description := film.Description, DateOfRelease := film.DateOfRelease,
           Rating := film.Rating }] := by
  obtain ⟨hid, htab⟩ := AddFilm_ok_result sch db film actorIDs h.1
  rw [htab, hid]
  have h1 : db.tables.filmActors.filter (fun p => p.1 == db.filmSeq + 1) = [] := by
    rw [List.filter_eq_nil_iff]
    intro p hp
    have := hrows p hp
    simp only [beq_iff_eq]
    omega
  have h2 : (actorIDs.map (fun id => (db.filmSeq + 1, id))).filter
      (fun p => p.1 == db.filmSeq + 1) = actorIDs.map (fun id => (db.filmSeq + 1, id)) := by
    rw [List.filter_eq_self]
    intro p hp
    obtain ⟨a, _, rfl⟩ := List.mem_map.1 hp
    simp
  have h3 : db.tables.filmActors.filter (fun p => !(p.1 == db.filmSeq + 1))
      = db.tables.filmActors := by
    rw [List.filter_eq_self]
    intro p hp
    have := hrows p hp
    simp only [Bool.not_eq_true', beq_eq_false_iff_ne, ne_eq]
    omega
  have h4 : (actorIDs.map (fun id => (db.filmSeq + 1, id))).filter
      (fun p => !(p.1 == db.filmSeq + 1)) = [] := by
    rw [List.filter_eq_nil_iff]
    intro p hp
    obtain ⟨a, _, rfl⟩ := List.mem_map.1 hp
    simp
  have h5 : db.tables.films.filter (fun f => f.ID == db.filmSeq + 1) = [] := by
    rw [List.filter_eq_nil_iff]
    intro f hf
    have := hfilms f hf
    simp only [beq_iff_eq]
    omega
  refine ⟨?_, ?_, ?_, ?_⟩
  · simp only [List.filter_append, h1, h2, List.nil_append]
  · simp only [List.filter_append, h1, h2, List.nil_append, List.length_map]
  · simp only [List.filter_append, h3, h4, List.append_nil]
  · simp only [List.filter_append, h5, List.nil_append]
    simp [List.filter]

/-- C4 amended, at a concrete input: the sample store, the film of the
specification's example and the actor list `[1]`. -/
theorem AddFilm_success_rows_witness :
    (∀ f ∈ sampleDB.tables.films, f.ID ≤ sampleDB.filmSeq) ∧
    (∀ p ∈ sampleDB.tables.filmActors, p.1 ≤ sampleDB.filmSeq) ∧
    (FilmRepoPG.AddFilm ⟨true⟩ sampleDB (sampleFilm 0) [1]).id = 2 ∧
    (FilmRepoPG.AddFilm ⟨true⟩ sampleDB (sampleFilm 0) [1]).err = none ∧
    (FilmRepoPG.AddFilm ⟨true⟩ sampleDB (sampleFilm 0) [1]).db.tables.filmActors.filter
        (fun p => p.1 == (FilmRepoPG.AddFilm ⟨true⟩ sampleDB (sampleFilm 0) [1]).id)
      = [1].map (fun id => ((FilmRepoPG.AddFilm ⟨true⟩ sampleDB (sampleFilm 0) [1]).id, id)) ∧
    ((FilmRepoPG.AddFilm ⟨true⟩ sampleDB (sampleFilm 0) [1]).db.tables.filmActors.filter
        (fun p => p.1 == (FilmRepoPG.AddFilm ⟨true⟩ sampleDB (sampleFilm 0) [1]).id)).length
      = [1].length ∧
    (FilmRepoPG.AddFilm ⟨true⟩ sampleDB (sampleFilm 0) [1]).db.tables.filmActors.filter
        (fun p => !(p.1 == (FilmRepoPG.AddFilm ⟨true⟩ sampleDB (sampleFilm 0) [1]).id))
      = sampleDB.tables.filmActors :=
  ⟨by decide, by decide, by decide, by decide,
    (AddFilm_success_rows ⟨true⟩ sampleDB (sampleFilm 0) [1] (by decide) (by decide)
      (by decide)).1,
    (AddFilm_success_rows ⟨true⟩ sampleDB (sampleFilm 0) [1] (by decide) (by decide)
      (by decide)).2.1,
    (AddFilm_success_rows ⟨true⟩ sampleDB (sampleFilm 0) [1] (by decide) (by decide)
      (by decide)).2.2.1⟩

/-- C5 fails on the code: film 7 has no row in `films`, yet `UpdateFilm` commits
and returns `(true, nil)`, so the use case returns nil and not
`ErrBadFilmUpdateData`; with the id list `[1]` the join row `(7, 1)` is written
for the film that does not exist. -/
theorem UpdateFilm_absent_film_reports_success :
    (∀ f ∈ sampleDB.tables.films, f.ID ≠ (sampleFilm 7).ID) ∧
    (FilmRepoPG.UpdateFilm ⟨true⟩ sampleDB (sampleFilm 7) []).ok = true ∧
    (FilmRepoPG.UpdateFilm ⟨true⟩ sampleDB (sampleFilm 7) []).err = none ∧
    (FilmRepoPG.UpdateFilm ⟨true⟩ sampleDB (sampleFilm 7) []).txEnd = some TxEnd.committed ∧
    FilmUseCaseApp.UpdateFilm
      ((FilmRepoPG.UpdateFilm ⟨true⟩ sampleDB (sampleFilm 7) []).ok,
        (FilmRepoPG.UpdateFilm ⟨true⟩ sampleDB (sampleFilm 7) []).err) = none ∧
    (FilmRepoPG.UpdateFilm ⟨true⟩ sampleDB (sampleFilm 7) [1]).ok = true ∧
    (7, 1) ∈ (FilmRepoPG.UpdateFilm ⟨true⟩ sampleDB (sampleFilm 7) [1]).db.tables.filmActors := by
  decide

/-! ## Session store -/

theorem digitChar_value : ∀ d, d < 10 →
    (Nat.digitChar d).isDigit = true ∧ (Nat.digitChar d).toNat - 48 = d := by
  decide

theorem parseDigits_toDigitsCore :
    ∀ (fuel n : Nat) (acc : List Char), n < fuel →
      parseDigits (Nat.toDigitsCore 10 fuel n acc) 0 = parseDigits acc n := by
  intro fuel
  induction fuel with
  | zero => intro n acc h; omega
  | succ fuel ih =>
    intro n acc h
    have hd := digitChar_value (n % 10) (Nat.mod_lt _ (by norm_num))
    unfold Nat.toDigitsCore
    simp only
    split
    · rename_i h0
      simp only [parseDigits, hd.1, hd.2, if_true]
      congr 1
      omega
    · rename_i h0
      rw [ih (n / 10) _ (by omega)]
      simp only [parseDigits, hd.1, hd.2, if_true]
      congr 1
      omega

theorem toDigitsCore_ne_nil (fuel n : Nat) (acc : List Char) :
    Nat.toDigitsCore 10 (fuel + 1) n acc ≠ [] := by
  induction fuel generalizing n acc with
  | zero =>
    unfold Nat.toDigitsCore
    simp only
    split
    · simp
    · simp [Nat.toDigitsCore]
  | succ fuel ih =>
    unfold Nat.toDigitsCore
    simp only
    split
    · simp
    · exact ih _ _

/-- The decimal text of a `uint64` parses back to the number. -/
theorem ParseUint_formatUint (n : Nat) (h : n < 2 ^ 64) : ParseUint (formatUint n) = .ok n := by
  have hp := parseDigits_toDigitsCore (n + 1) n [] (by omega)
  have hne := toDigitsCore_ne_nil n n []
  unfold ParseUint formatUint Nat.toDigits
  simp only
  cases hl : Nat.toDigitsCore 10 (n + 1) n [] with
  | nil => exact absurd hl hne
  | cons c rest =>
    rw [hl] at hp
    simp only [parseDigits] at hp
    simp only [parseDigits, hp, h, if_true]

/-- What `GetSession` of the repository returns for a key that resolves to no
entry: redigo's `ErrNil`, as an error. -/
theorem GetSession_absent (st : Redis) (sessionID : String) (h : st.live sessionID = none) :
    SessionUseCaseApp.GetSession (NewSessionRepo redisServer) st sessionID
      = ((none, some GoError.ErrNil), st) := by
  simp [SessionUseCaseApp.GetSession, NewSessionRepo, SessionRepoRedis.GetSession, redisServer,
    Redis.Do, h, redisUint64]

/-- C9: session round trip. For every `uint64` user id `u` and every token `t`
drawn for it, `CreateSession(u)` over `SessionRepoRedis` returns `t` with a nil
error, and `GetSession(t)` against the store it left, at any time before the 24
hours of `expireTime` have passed (in particular at once), returns the session
with `ID = t` and `UserID = u` and a nil error. -/
theorem session_round_trip (st : Redis) (t : String) (u dt : Nat) (hu : u < 2 ^ 64)
    (hdt : dt < expireTime) :
    (SessionUseCaseApp.CreateSession (NewSessionRepo redisServer) st t u).1 = (t, none) ∧
    (SessionUseCaseApp.GetSession (NewSessionRepo redisServer)
        ((SessionUseCaseApp.CreateSession (NewSessionRepo redisServer) st t u).2.advance dt) t).1
      = (some ⟨t, u⟩, none) := by
  have hex : expireTime ≠ 0 := by decide
  have hst : ∃ rest, (SessionUseCaseApp.CreateSession (NewSessionRepo redisServer) st t u).2
      = ⟨st.now, ⟨t, formatUint u, st.now + expireTime⟩ :: rest⟩ := by
    refine ⟨st.entries.filter (fun e => !(e.key == t)), ?_⟩
    simp [SessionUseCaseApp.CreateSession, NewSessionRepo, SessionRepoRedis.CreateSession,
      redisServer, Redis.Do, hex, redisString]
  obtain ⟨rest, hst⟩ := hst
  refine ⟨?_, ?_⟩
  · simp [SessionUseCaseApp.CreateSession, NewSessionRepo, SessionRepoRedis.CreateSession,
      redisServer, Redis.Do, hex, redisString]
  rw [hst]
  have hlive : (Redis.advance ⟨st.now, ⟨t, formatUint u, st.now + expireTime⟩ :: rest⟩ dt).live t
      = some ⟨t, formatUint u, st.now + expireTime⟩ := by
    simp [Redis.live, Redis.advance, List.find?, hdt]
  simp [SessionUseCaseApp.GetSession, NewSessionRepo, SessionRepoRedis.GetSession, redisServer,
    Redis.Do, hlive, redisUint64, ParseUint_formatUint u hu]

/-- C9 at a concrete input: user 42, token `tok`, an empty store, one hour
later. -/
theorem session_round_trip_witness :
    (42 : Nat) < 2 ^ 64 ∧ 3600 < expireTime ∧
    (SessionUseCaseApp.CreateSession (NewSessionRepo redisServer) ⟨0, []⟩ "tok" 42).1
      = ("tok", none) ∧
    (SessionUseCaseApp.GetSession (NewSessionRepo redisServer)
        ((SessionUseCaseApp.CreateSession (NewSessionRepo redisServer) ⟨0, []⟩ "tok"
          42).2.advance 3600) "tok").1 = (some ⟨"tok", 42⟩, none) :=
  ⟨by norm_num, by decide, session_round_trip ⟨0, []⟩ "tok" 42 3600 (by norm_num) (by decide)⟩

/-- C10 fails on the code: for a token that was never created, for one whose 24
hours have passed, and for one removed by a `DeleteSession` that returned true,
`GetSession` fails with redigo's `ErrNil`, which is not `ErrNoSession`. -/
theorem GetSession_absent_token_returns_ErrNil :
    (SessionUseCaseApp.GetSession (NewSessionRepo redisServer) ⟨0, []⟩ "ghost").1
      = (none, some GoError.ErrNil) ∧
    (SessionUseCaseApp.GetSession (NewSessionRepo redisServer)
        ((SessionUseCaseApp.CreateSession (NewSessionRepo redisServer) ⟨0, []⟩ "tok" 42).2.advance
          expireTime) "tok").1 = (none, some GoError.ErrNil) ∧
    (SessionUseCaseApp.DeleteSession (NewSessionRepo redisServer)
        (SessionUseCaseApp.CreateSession (NewSessionRepo redisServer) ⟨0, []⟩ "tok" 42).2 "tok").1
      = (true, none) ∧
    (SessionUseCaseApp.GetSession (NewSessionRepo redisServer)
        (SessionUseCaseApp.DeleteSession (NewSessionRepo redisServer)
          (SessionUseCaseApp.CreateSession (NewSessionRepo redisServer) ⟨0, []⟩ "tok" 42).2
          "tok").2 "tok").1 = (none, some GoError.ErrNil) ∧
    errorsIs (some GoError.ErrNil) GoError.ErrNoSession = false := by
  decide

/-! ## Middleware -/

theorem GetLoggerFromContext_ok_iff (ctx : Context) :
    GetLoggerFromContext ctx = .ok () ↔ ctx.loggerVal = some CtxValue.logger := by
  unfold GetLoggerFromContext
  split
  · rename_i h; simp [h]
  · rename_i h
    constructor
    · intro h1; cases h1
    · intro h1; exact absurd h1 (h)

theorem GetLoggerFromContext_error (ctx : Context) (h : ctx.loggerVal ≠ some CtxValue.logger) :
    ∃ e, GetLoggerFromContext ctx = .error e := by
  unfold GetLoggerFromContext
  split
  · rename_i h1; exact absurd h1 h
  · exact ⟨_, rfl⟩

/-- When `AuthMiddleware` calls `next`: the logger is in the context, the cookie
is there, the session lookup returned a session and a nil error, and the request
passed on carries the session's user id and id. -/
theorem AuthMiddleware_callNext (mw : Middleware) (r r1 : Request)
    (h : mw.AuthMiddleware r = .callNext r1) :
    r.ctx.loggerVal = some CtxValue.logger ∧
    ∃ sid sess, r.Cookie "session_id" = .ok sid ∧
      mw.sessionUseCase.GetSession sid = (some sess, none) ∧
      r1 = r.WithContext ⟨r.ctx.loggerVal, some (.uint64 sess.UserID), some (.string sess.ID)⟩ := by
  unfold Middleware.AuthMiddleware at h
  split at h
  · cases h
  · rename_i hl
    split at h
    · split at h <;> cases h
    · rename_i sid hc
      simp only at h
      split at h
      · cases h
      · split at h
        · cases h
        · rename_i herr
          split at h
          · cases h
          · rename_i sess hs
            refine ⟨?_, sid, sess, hc, ?_, ?_⟩
            · rw [← GetLoggerFromContext_ok_iff]
              rw [hl]
            · exact Prod.ext hs herr
            · cases h; rfl

/-- When `AdminMiddleware` calls `next`: the logger and a `uint64` user id are in
the context, the role lookup returned `admin` and a nil error, and the request is
passed on as it is. -/
theorem AdminMiddleware_callNext (mw : Middleware) (r r1 : Request)
    (h : mw.AdminMiddleware r = .callNext r1) :
    r.ctx.loggerVal = some CtxValue.logger ∧
    ∃ uid, r.ctx.userVal = some (.uint64 uid) ∧
      mw.userUseCase.GetUserRole uid = ("admin", none) ∧ r1 = r := by
  unfold Middleware.AdminMiddleware at h
  split at h
  · cases h
  · rename_i hl
    split at h
    · rename_i uid hu
      simp only at h
      split at h
      · cases h
      · split at h
        · cases h
        · rename_i herr
          split at h
          · cases h
          · rename_i hrole
            refine ⟨?_, uid, hu, ?_, ?_⟩
            · rw [← GetLoggerFromContext_ok_iff]
              rw [hl]
            · refine Prod.ext ?_ herr
              simpa using hrole
            · cases h; rfl
    · cases h

theorem AdminMiddleware_ne_aborted (mw : Middleware) (r : Request) :
    mw.AdminMiddleware r ≠ .aborted := by
  unfold Middleware.AdminMiddleware
  split
  · simp
  · split
    · simp only
      split
      · simp
      · split
        · simp
        · split <;> simp
    · simp

/-- C6: `AdminMiddleware` calls `next` if and only if the context holds the
logger and a `uint64` user id and `GetUserRole` returns exactly `admin` with a
nil error, and then passes the request on unchanged. In every other case `next`
is not called and a response is written: 500 without the logger, 500 without a
`uint64` user id, 401 when `GetUserRole` fails with `ErrNoUser`, 500 on any other
error and 403 for every role other than `admin`. -/
theorem AdminMiddleware_spec (mw : Middleware) (r : Request) :
    ((mw.AdminMiddleware r).invokedNext = true ↔
      (r.ctx.loggerVal = some CtxValue.logger ∧
        ∃ uid, r.ctx.userVal = some (.uint64 uid) ∧
          mw.userUseCase.GetUserRole uid = ("admin", none))) ∧
    ((mw.AdminMiddleware r).invokedNext = true → mw.AdminMiddleware r = .callNext r) ∧
    ((mw.AdminMiddleware r).invokedNext = false → (mw.AdminMiddleware r).status ≠ none) ∧
    (r.ctx.loggerVal ≠ some CtxValue.logger → (mw.AdminMiddleware r).status = some 500) ∧
    (r.ctx.loggerVal = some CtxValue.logger → (∀ uid, r.ctx.userVal ≠ some (.uint64 uid)) →
      (mw.AdminMiddleware r).status = some 500) ∧
    (∀ uid, r.ctx.loggerVal = some CtxValue.logger → r.ctx.userVal = some (.uint64 uid) →
      errorsIs (mw.userUseCase.GetUserRole uid).2 .ErrNoUser = true →
      (mw.AdminMiddleware r).status = some 401) ∧
    (∀ uid, r.ctx.loggerVal = some CtxValue.logger → r.ctx.userVal = some (.uint64 uid) →
      (mw.userUseCase.GetUserRole uid).2 ≠ none →
      errorsIs (mw.userUseCase.GetUserRole uid).2 .ErrNoUser = false →
      (mw.AdminMiddleware r).status = some 500) ∧
    (∀ uid, r.ctx.loggerVal = some CtxValue.logger → r.ctx.userVal = some (.uint64 uid) →
      (mw.userUseCase.GetUserRole uid).2 = none →
      (mw.userUseCase.GetUserRole uid).1 ≠ "admin" →
      (mw.AdminMiddleware r).status = some 403) := by
  have hnext : ∀ uid, r.ctx.loggerVal = some CtxValue.logger →
      r.ctx.userVal = some (.uint64 uid) →
      mw.userUseCase.GetUserRole uid = ("admin", none) →
      mw.AdminMiddleware r = .callNext r := by
    intro uid hl hu hr
    rw [← GetLoggerFromContext_ok_iff] at hl
    simp [Middleware.AdminMiddleware, hl, hu, hr, errorsIs]
  refine ⟨⟨?_, ?_⟩, ?_, ?_, ?_, ?_, ?_, ?_, ?_⟩
  · intro h
    cases hs : mw.AdminMiddleware r with
    | respond s b => rw [hs] at h; cases h
    | aborted => rw [hs] at h; cases h
    | callNext r1 =>
      obtain ⟨hl, uid, hu, hr, _⟩ := AdminMiddleware_callNext mw r r1 hs
      exact ⟨hl, uid, hu, hr⟩
  · rintro ⟨hl, uid, hu, hr⟩
    rw [hnext uid hl hu hr]
    rfl
  · intro h
    cases hs : mw.AdminMiddleware r with
    | respond s b => rw [hs] at h; cases h
    | aborted => rw [hs] at h; cases h
    | callNext r1 =>
      obtain ⟨_, _, _, _, h1⟩ := AdminMiddleware_callNext mw r r1 hs
      rw [h1]
  · intro h
    cases hs : mw.AdminMiddleware r with
    | respond s b => simp [MwStep.status]
    | aborted => exact absurd hs (AdminMiddleware_ne_aborted mw r)
    | callNext r1 => rw [hs] at h; cases h
  · intro hl
    obtain ⟨e, he⟩ := GetLoggerFromContext_error r.ctx hl
    simp [Middleware.AdminMiddleware, he, MwStep.status]
  · intro hl hu
    rw [← GetLoggerFromContext_ok_iff] at hl
    cases hv : r.ctx.userVal with
    | none => simp [Middleware.AdminMiddleware, hl, hv, MwStep.status]
    | some v =>
      cases v with
      | uint64 uid => exact absurd hv (hu uid)
      | logger => simp [Middleware.AdminMiddleware, hl, hv, MwStep.status]
      | string s => simp [Middleware.AdminMiddleware, hl, hv, MwStep.status]
      | other => simp [Middleware.AdminMiddleware, hl, hv, MwStep.status]
  · intro uid hl hu he
    rw [← GetLoggerFromContext_ok_iff] at hl
    simp [Middleware.AdminMiddleware, hl, hu, he, MwStep.status]
  · intro uid hl hu hne he
    rw [← GetLoggerFromContext_ok_iff] at hl
    cases herr : (mw.userUseCase.GetUserRole uid).2 with
    | none => exact absurd herr hne
    | some e =>
      rw [herr] at he
      simp [Middleware.AdminMiddleware, hl, hu, he, herr, MwStep.status]
  · intro uid hl hu herr hrole
    rw [← GetLoggerFromContext_ok_iff] at hl
    simp [Middleware.AdminMiddleware, hl, hu, herr, hrole, errorsIs, MwStep.status]

/-- C6 at concrete inputs: with the logger and user id 1 in the context, the
role `default` is answered 403 and the role `admin` lets the request through. -/
theorem AdminMiddleware_spec_witness :
    ((⟨⟨fun _ => (none, none)⟩, ⟨fun _ => ("default", none)⟩⟩ : Middleware).AdminMiddleware
        ⟨"POST", "/api/v1/admin/film", [], ⟨some .logger, some (.uint64 1), none⟩⟩).status
      = some 403 ∧
    ((⟨⟨fun _ => (none, none)⟩, ⟨fun _ => ("admin", none)⟩⟩ : Middleware).AdminMiddleware
        ⟨"POST", "/api/v1/admin/film", [], ⟨some .logger, some (.uint64 1), none⟩⟩).invokedNext
      = true :=
  ⟨(AdminMiddleware_spec ⟨⟨fun _ => (none, none)⟩, ⟨fun _ => ("default", none)⟩⟩
      ⟨"POST", "/api/v1/admin/film", [], ⟨some .logger, some (.uint64 1), none⟩⟩).2.2.2.2.2.2.2
      1 (by decide) (by decide) (by decide) (by decide),
    (AdminMiddleware_spec ⟨⟨fun _ => (none, none)⟩, ⟨fun _ => ("admin", none)⟩⟩
      ⟨"POST", "/api/v1/admin/film", [], ⟨some .logger, some (.uint64 1), none⟩⟩).1.2
      ⟨by decide, 1, by decide, by decide⟩⟩

theorem Cookie_error_iff (r : Request) (name : String) :
    (∀ c ∈ r.cookies, c.1 ≠ name) ↔ r.Cookie name = .error GoError.ErrNoCookie := by
  unfold Request.Cookie
  cases hf : r.cookies.find? (fun c => c.1 == name) with
  | none =>
    rw [List.find?_eq_none] at hf
    simp only [iff_true]
    intro c hc
    simpa using hf c hc
  | some c =>
    have h1 := List.find?_some hf
    have h2 := List.mem_of_find?_eq_some hf
    simp only [reduceCtorEq, iff_false, not_forall]
    exact ⟨c, h2, by simpa using h1⟩

theorem AuthMiddleware_next_of (mw : Middleware) (r : Request) (sid : String) (sess : Session)
    (hl : r.ctx.loggerVal = some CtxValue.logger) (hc : r.Cookie "session_id" = .ok sid)
    (hs : mw.sessionUseCase.GetSession sid = (some sess, none)) :
    mw.AuthMiddleware r = .callNext
      (r.WithContext ⟨r.ctx.loggerVal, some (.uint64 sess.UserID), some (.string sess.ID)⟩) := by
  rw [← GetLoggerFromContext_ok_iff] at hl
  simp [Middleware.AuthMiddleware, hl, hc, hs, errorsIs]

/-- C8: `AuthMiddleware` calls `next` if and only if the context holds the
logger, the request carries a `session_id` cookie and `GetSession` on the cookie
value returns a session with a nil error; the request passed on then has the
session's `UserID` under `MyUserKey` and the session's `ID` under
`MySessionIDKey`. Otherwise `next` is not called, and the status is 500 without
the logger, 401 without the cookie, 401 when `GetSession` fails with
`ErrNoSession` and 500 on any other `GetSession` error. -/
theorem AuthMiddleware_spec (mw : Middleware) (r : Request) :
    ((mw.AuthMiddleware r).invokedNext = true ↔
      (r.ctx.loggerVal = some CtxValue.logger ∧
        ∃ sid sess, r.Cookie "session_id" = .ok sid ∧
          mw.sessionUseCase.GetSession sid = (some sess, none))) ∧
    (∀ sid sess, r.ctx.loggerVal = some CtxValue.logger → r.Cookie "session_id" = .ok sid →
      mw.sessionUseCase.GetSession sid = (some sess, none) →
      mw.AuthMiddleware r = .callNext
        (r.WithContext ⟨r.ctx.loggerVal, some (.uint64 sess.UserID), some (.string sess.ID)⟩)) ∧
    (r.ctx.loggerVal ≠ some CtxValue.logger → (mw.AuthMiddleware r).status = some 500) ∧
    (r.ctx.loggerVal = some CtxValue.logger → (∀ c ∈ r.cookies, c.1 ≠ "session_id") →
      (mw.AuthMiddleware r).status = some 401) ∧
    (∀ sid, r.ctx.loggerVal = some CtxValue.logger → r.Cookie "session_id" = .ok sid →
      errorsIs (mw.sessionUseCase.GetSession sid).2 .ErrNoSession = true →
      (mw.AuthMiddleware r).status = some 401) ∧
    (∀ sid, r.ctx.loggerVal = some CtxValue.logger → r.Cookie "session_id" = .ok sid →
      (mw.sessionUseCase.GetSession sid).2 ≠ none →
      errorsIs (mw.sessionUseCase.GetSession sid).2 .ErrNoSession = false →
      (mw.AuthMiddleware r).status = some 500) := by
  refine ⟨⟨?_, ?_⟩, ?_, ?_, ?_, ?_, ?_⟩
  · intro h
    cases hs : mw.AuthMiddleware r with
    | respond s b => rw [hs] at h; cases h
    | aborted => rw [hs] at h; cases h
    | callNext r1 =>
      obtain ⟨hl, sid, sess, hc, hg, _⟩ := AuthMiddleware_callNext mw r r1 hs
      exact ⟨hl, sid, sess, hc, hg⟩
  · rintro ⟨hl, sid, sess, hc, hg⟩
    rw [AuthMiddleware_next_of mw r sid sess hl hc hg]
    rfl
  · intro sid sess hl hc hg
    exact AuthMiddleware_next_of mw r sid sess hl hc hg
  · intro hl
    obtain ⟨e, he⟩ := GetLoggerFromContext_error r.ctx hl
    simp [Middleware.AuthMiddleware, he, MwStep.status]
  · intro hl hc
    rw [← GetLoggerFromContext_ok_iff] at hl
    rw [Cookie_error_iff] at hc
    simp [Middleware.AuthMiddleware, hl, hc, errorsIs, GoError.chainHas, MwStep.status]
  · intro sid hl hc he
    rw [← GetLoggerFromContext_ok_iff] at hl
    simp [Middleware.AuthMiddleware, hl, hc, he, MwStep.status]
  · intro sid hl hc hne he
    rw [← GetLoggerFromContext_ok_iff] at hl
    cases herr : (mw.sessionUseCase.GetSession sid).2 with
    | none => exact absurd herr hne
    | some e =>
      rw [herr] at he
      simp [Middleware.AuthMiddleware, hl, hc, he, herr, MwStep.status]

/-- C8 at concrete inputs: the cookie `session_id=qqq` with a lookup that fails
with `ErrNoSession` is answered 401, and with a lookup that finds the session of
user 7 the request is passed on with user id 7 and session id `qqq`. -/
theorem AuthMiddleware_spec_witness :
    ((⟨⟨fun _ => (none, some .ErrNoSession)⟩, ⟨fun _ => ("", none)⟩⟩ : Middleware).AuthMiddleware
        ⟨"GET", "/films", [("session_id", "qqq")], ⟨some .logger, none, none⟩⟩).status
      = some 401 ∧
    (⟨⟨fun sid => (some ⟨sid, 7⟩, none)⟩, ⟨fun _ => ("", none)⟩⟩ : Middleware).AuthMiddleware
        ⟨"GET", "/films", [("session_id", "qqq")], ⟨some .logger, none, none⟩⟩
      = .callNext ⟨"GET", "/films", [("session_id", "qqq")],
          ⟨some .logger, some (.uint64 7), some (.string "qqq")⟩⟩ :=
  ⟨(AuthMiddleware_spec ⟨⟨fun _ => (none, some .ErrNoSession)⟩, ⟨fun _ => ("", none)⟩⟩
      ⟨"GET", "/films", [("session_id", "qqq")], ⟨some .logger, none, none⟩⟩).2.2.2.2.1
      "qqq" (by decide) rfl (by decide),
    (AuthMiddleware_spec ⟨⟨fun sid => (some ⟨sid, 7⟩, none)⟩, ⟨fun _ => ("", none)⟩⟩
      ⟨"GET", "/films", [("session_id", "qqq")], ⟨some .logger, none, none⟩⟩).2.1
      "qqq" ⟨"qqq", 7⟩ (by decide) rfl (by decide)⟩

/-! ## Route table -/

theorem Route_Match_found (pm : PathMatcher) (route rt : Route) (r : Request)
    (h : route.Match pm r = .found rt) : rt = route := by
  unfold Route.Match at h
  split at h
  · split at h
    · cases h; rfl
    · cases h
  · cases h

theorem Router_Match_found_mem (pm : PathMatcher) (r : Request) :
    ∀ (routes : List Route) (rt : Route), Router.Match pm routes r = .found rt → rt ∈ routes := by
  intro routes
  induction routes with
  | nil => intro rt h; simp [Router.Match] at h
  | cons route rest ih =>
    intro rt h
    unfold Router.Match at h
    split at h
    · rename_i rt1 hm
      cases h
      rw [Route_Match_found pm route rt r hm]
      exact List.mem_cons_self _ _
    · split at h
      · rename_i rt1 hm
        cases h
        exact List.mem_cons_of_mem _ (ih rt hm)
      · cases h
    · exact List.mem_cons_of_mem _ (ih rt h)

theorem runMiddleware_callNext_cookies (env : Env) (m : MwName) (r r1 : Request)
    (h : runMiddleware env m r = .callNext r1) : r1.cookies = r.cookies := by
  cases m with
  | RequestInitMiddleware =>
    simp only [runMiddleware, Middleware.RequestInitMiddleware] at h
    split at h
    · cases h
    · cases h; rfl
  | AccessLog =>
    simp only [runMiddleware, Middleware.AccessLog] at h
    split at h
    · cases h
    · cases h; rfl
  | AuthMiddleware =>
    obtain ⟨_, _, _, _, _, h1⟩ := AuthMiddleware_callNext env.mw r r1 h
    rw [h1]; rfl
  | AdminMiddleware =>
    obtain ⟨_, _, _, _, h1⟩ := AdminMiddleware_callNext env.mw r r1 h
    rw [h1]

theorem passChain_cookies (env : Env) :
    ∀ (mws : List MwName) (r r1 : Request), passChain env mws r = .ok r1 →
      r1.cookies = r.cookies := by
  intro mws
  induction mws with
  | nil => intro r r1 h; simp [passChain] at h; rw [h]
  | cons m rest ih =>
    intro r r1 h
    unfold passChain at h
    split at h
    · cases h
    · cases h
    · rename_i r2 hm
      rw [ih r2 r1 h, runMiddleware_callNext_cookies env m r r2 hm]

theorem passChain_error (env : Env) :
    ∀ (mws : List MwName) (r : Request) (s : Served), passChain env mws r = .error s →
      ∀ h r1, s ≠ .reached h r1 := by
  intro mws
  induction mws with
  | nil => intro r s h; simp [passChain] at h
  | cons m rest ih =>
    intro r s h
    unfold passChain at h
    split at h
    · cases h; intro _ _ hc; cases hc
    · cases h; intro _ _ hc; cases hc
    · exact ih _ s h

/-- A request that a router hands to a handler function went through a route of
the router and through the whole middleware chain of the router. -/
theorem ServeHTTP_reached (pm : PathMatcher) (env : Env) (sub : RouterName → Request → Served)
    (routes : List Route) (mws : List MwName) (r r1 : Request) (h : HandlerName)
    (hs : ServeHTTP pm env sub routes mws r = .reached h r1) :
    ∃ route ∈ routes, ∃ r2, passChain env mws r = .ok r2 ∧
      ((route.target = .handlerFunc h ∧ r2 = r1) ∨
        ∃ rn, route.target = .router rn ∧ sub rn r2 = .reached h r1) := by
  unfold ServeHTTP at hs
  split at hs
  · cases hs
  · cases hs
  · rename_i route hm
    split at hs
    · rename_i s hp
      exact absurd hs (passChain_error env mws r s hp h r1)
    · rename_i r2 hp
      refine ⟨route, Router_Match_found_mem pm r routes route hm, r2, hp, ?_⟩
      split at hs
      · rename_i h1 ht
        cases hs
        exact Or.inl ⟨ht, rfl⟩
      · rename_i rn ht
        exact Or.inr ⟨rn, ht, hs⟩

theorem routes_mainRouter : routesOf mainRegistrations .mainRouter =
    [⟨true, "/api/v1", [], .router .router⟩, ⟨true, "/swagger/", [], .handlerFunc .Swagger⟩] := by
  decide

theorem middlewares_mainRouter : middlewaresOf mainRegistrations .mainRouter = [] := by
  decide

theorem middlewares_router : middlewaresOf mainRegistrations .router =
    [.RequestInitMiddleware, .AccessLog] := by
  decide

theorem middlewares_adminRouter : middlewaresOf mainRegistrations .adminRouter =
    [.AuthMiddleware, .AdminMiddleware] := by
  decide

theorem router_targets : ∀ route ∈ routesOf mainRegistrations .router,
    route.target = .router .adminRouter ∨ route.target = .router .authRouter ∨
      route.target ∈ [Target.handlerFunc .GetActorByID, .handlerFunc .GetActors,
        .handlerFunc .GetFilmByID, .handlerFunc .GetFilms, .handlerFunc .GetFilmsBySearch,
        .handlerFunc .Login, .handlerFunc .Register] := by
  decide

theorem authRouter_targets : ∀ route ∈ routesOf mainRegistrations .authRouter,
    route.target = .handlerFunc .Logout := by
  decide

/-- Passing the chain of `adminRouter`: the session lookup on the cookie
succeeded and the role of the session's user is `admin`. -/
theorem admin_chain_passed (env : Env) (r r1 : Request)
    (h : passChain env [.AuthMiddleware, .AdminMiddleware] r = .ok r1) :
    ∃ sid sess, r.Cookie "session_id" = .ok sid ∧
      env.mw.sessionUseCase.GetSession sid = (some sess, none) ∧
      env.mw.userUseCase.GetUserRole sess.UserID = ("admin", none) := by
  simp only [passChain, runMiddleware] at h
  split at h
  · cases h
  · cases h
  · rename_i r2 hauth
    split at h
    · cases h
    · cases h
    · rename_i r3 hadmin
      obtain ⟨_, sid, sess, hc, hg, hr2⟩ := AuthMiddleware_callNext env.mw r r2 hauth
      obtain ⟨_, uid, hu, hrole, _⟩ := AdminMiddleware_callNext env.mw r2 r3 hadmin
      rw [hr2] at hu
      simp only [Request.WithContext, Option.some.injEq, CtxValue.uint64.injEq] at hu
      rw [← hu] at hrole
      exact ⟨sid, sess, hc, hg, hrole⟩

theorem serveAdminRouter_reached (pm : PathMatcher) (env : Env) (r r1 : Request)
    (h : HandlerName) (hs : serveAdminRouter pm env r = .reached h r1) :
    ∃ sid sess, r.Cookie "session_id" = .ok sid ∧
      env.mw.sessionUseCase.GetSession sid = (some sess, none) ∧
      env.mw.userUseCase.GetUserRole sess.UserID = ("admin", none) := by
  obtain ⟨_, _, r2, hp, _⟩ := ServeHTTP_reached pm env _ _ _ r r1 h hs
  rw [middlewares_adminRouter] at hp
  exact admin_chain_passed env r r2 hp

theorem serveAuthRouter_reached (pm : PathMatcher) (env : Env) (r r1 : Request)
    (h : HandlerName) (hs : serveAuthRouter pm env r = .reached h r1) : h = .Logout := by
  obtain ⟨route, hmem, r2, _, hd⟩ := ServeHTTP_reached pm env _ _ _ r r1 h hs
  have ht := authRouter_targets route hmem
  rcases hd with ⟨h1, _⟩ | ⟨rn, h1, _⟩
  · rw [ht] at h1
    cases h1
    rfl
  · rw [ht] at h1
    cases h1

theorem serveRouter_reached (pm : PathMatcher) (env : Env) (r r1 : Request)
    (h : HandlerName) (hs : serveRouter pm env r = .reached h r1) (hmut : h ∈ mutatingHandlers) :
    ∃ sid sess, r.Cookie "session_id" = .ok sid ∧
      env.mw.sessionUseCase.GetSession sid = (some sess, none) ∧
      env.mw.userUseCase.GetUserRole sess.UserID = ("admin", none) := by
  obtain ⟨route, hmem, r2, hp, hd⟩ := ServeHTTP_reached pm env _ _ _ r r1 h hs
  have hck : r2.cookies = r.cookies := passChain_cookies env _ r r2 hp
  have hcookie : r2.Cookie "session_id" = r.Cookie "session_id" := by
    simp only [Request.Cookie, hck]
  rcases hd with ⟨h1, _⟩ | ⟨rn, h1, hsub⟩
  · rcases router_targets route hmem with ht | ht | ht
    · rw [ht] at h1; cases h1
    · rw [ht] at h1; cases h1
    · rw [h1] at ht
      simp only [List.mem_cons, Target.handlerFunc.injEq, List.mem_singleton,
        List.not_mem_nil, or_false] at ht
      rcases ht with rfl | rfl | rfl | rfl | rfl | rfl | rfl <;>
        exact absurd hmut (by decide)
  · cases rn with
    | adminRouter =>
      simp only at hsub
      obtain ⟨sid, sess, hc, hg, hrole⟩ := serveAdminRouter_reached pm env r2 r1 h hsub
      exact ⟨sid, sess, hcookie ▸ hc, hg, hrole⟩
    | authRouter =>
      simp only at hsub
      have := serveAuthRouter_reached pm env r2 r1 h hsub
      subst this
      exact absurd hmut (by decide)
    | mainRouter => simp only at hsub; cases hsub
    | router => simp only at hsub; cases hsub

/-- C7: in the route table built by `main`, every route to one of the six
mutating handlers (`AddFilm`, `UpdateFilm`, `DeleteFilm`, `AddActor`,
`UpdateActor`, `DeleteActor`) is a route of `adminRouter`, each of the six has
such a route, and the middleware chain of `adminRouter` is `AuthMiddleware`
followed by `AdminMiddleware`. Consequently, whatever the path matcher, a request
served by `mainRouter` reaches one of these handlers only if the session lookup
on its `session_id` cookie succeeded and the role of the session's user is
`admin`. -/
theorem mutating_handlers_behind_admin (pm : PathMatcher) (env : Env) (r r1 : Request)
    (h : HandlerName) :
    (∀ rn, ∀ route ∈ routesOf mainRegistrations rn, ∀ hn ∈ mutatingHandlers,
      route.target = .handlerFunc hn → rn = .adminRouter) ∧
    (∀ hn ∈ mutatingHandlers, ∃ route ∈ routesOf mainRegistrations .adminRouter,
      route.target = .handlerFunc hn) ∧
    middlewaresOf mainRegistrations .adminRouter = [.AuthMiddleware, .AdminMiddleware] ∧
    (serveMainRouter pm env r = .reached h r1 → h ∈ mutatingHandlers →
      ∃ sid sess, r.Cookie "session_id" = .ok sid ∧
        env.mw.sessionUseCase.GetSession sid = (some sess, none) ∧
        env.mw.userUseCase.GetUserRole sess.UserID = ("admin", none)) := by
  refine ⟨?_, ?_, middlewares_adminRouter, ?_⟩
  · intro rn
    cases rn <;> decide
  · decide
  · intro hs hmut
    obtain ⟨route, hmem, r2, hp, hd⟩ := ServeHTTP_reached pm env _ _ _ r r1 h hs
    rw [middlewares_mainRouter] at hp
    simp only [passChain, Except.ok.injEq] at hp
    subst hp
    rw [routes_mainRouter] at hmem
    simp only [List.mem_cons, List.mem_singleton, List.not_mem_nil, or_false] at hmem
    rcases hd with ⟨h1, _⟩ | ⟨rn, h1, hsub⟩
    · rcases hmem with rfl | rfl
      · cases h1
      · cases h1
        exact absurd hmut (by decide)
    · rcases hmem with rfl | rfl
      · cases h1
        exact serveRouter_reached pm env r r1 h hsub hmut
      · cases h1

/-- C7 at a concrete input: `POST /api/v1/admin/film` with the cookie of the
admin's session reaches `AddFilm`, and the session lookup and the role are as the
theorem says. -/
theorem mutating_handlers_behind_admin_witness :
    serveMainRouter literalMatcher sampleEnv
        ⟨"POST", "/api/v1/admin/film", [("session_id", "tok")], ⟨none, none, none⟩⟩
      = .reached .AddFilm ⟨"POST", "/api/v1/admin/film", [("session_id", "tok")],
          ⟨some .logger, some (.uint64 7), some (.string "tok")⟩⟩ ∧
    ∃ sid sess,
      (⟨"POST", "/api/v1/admin/film", [("session_id", "tok")], ⟨none, none, none⟩⟩ :
        Request).Cookie "session_id" = .ok sid ∧
      sampleEnv.mw.sessionUseCase.GetSession sid = (some sess, none) ∧
      sampleEnv.mw.userUseCase.GetUserRole sess.UserID = ("admin", none) :=
  ⟨by decide,
    (mutating_handlers_behind_admin literalMatcher sampleEnv
      ⟨"POST", "/api/v1/admin/film", [("session_id", "tok")], ⟨none, none, none⟩⟩
      ⟨"POST", "/api/v1/admin/film", [("session_id", "tok")],
        ⟨some .logger, some (.uint64 7), some (.string "tok")⟩⟩ .AddFilm).2.2.2
      (by decide) (by decide)⟩


/-! ## Session service: missing sessions, deletion, creation -/

/-- With the use cases wired as in `main`, a cookie that names no live session
is answered 500 with the internal-error body: the lookup fails with redigo's
`ErrNil`, which is not `ErrNoSession`. -/
theorem AuthMiddleware_wired_absent (sessions : Redis) (users : UserStore) (r : Request)
    (sid : String) (hl : r.ctx.loggerVal = some CtxValue.logger)
    (hc : r.Cookie "session_id" = .ok sid) (ha : sessions.live sid = none) :
    (NewMiddleware sessions users).AuthMiddleware r = .respond 500 internalErrorBody := by
  rw [← GetLoggerFromContext_ok_iff] at hl
  simp [Middleware.AuthMiddleware, NewMiddleware, hl, hc, GetSession_absent sessions sid ha,
    errorsIs, GoError.chainHas]

/-- C11 fails on the code: with `AuthMiddleware` wired to `SessionUseCaseApp` and
`SessionRepoRedis`, a request whose `session_id` cookie names a session that has
expired, or one that never existed, is answered 500 and not 401 (`next` is not
called and the body is the internal-error object). -/
theorem AuthMiddleware_expired_session_status :
    (NewMiddleware
        ((SessionUseCaseApp.CreateSession (NewSessionRepo redisServer) ⟨0, []⟩ "tok"
          42).2.advance expireTime) sampleUsers).AuthMiddleware
        ⟨"POST", "/api/v1/logout", [("session_id", "tok")], ⟨some .logger, none, none⟩⟩
      = .respond 500 internalErrorBody ∧
    (NewMiddleware ⟨0, []⟩ sampleUsers).AuthMiddleware
        ⟨"POST", "/api/v1/logout", [("session_id", "ghost")], ⟨some .logger, none, none⟩⟩
      = .respond 500 internalErrorBody ∧
    ((NewMiddleware ⟨0, []⟩ sampleUsers).AuthMiddleware
        ⟨"POST", "/api/v1/logout", [("session_id", "ghost")],
          ⟨some .logger, none, none⟩⟩).status ≠ some 401 := by
  decide

theorem live_after_delete (st : Redis) (token : String) :
    Redis.live ⟨st.now, st.entries.filter (fun e => !(e.key == token))⟩ token = none := by
  unfold Redis.live
  rw [List.find?_eq_none]
  intro e he
  have := (List.mem_filter.1 he).2
  simp only [Bool.not_eq_true', beq_eq_false_iff_ne, ne_eq] at this
  simp [this]

theorem repo_DeleteSession_absent (st : Redis) (token : String) (h : st.live token = none) :
    SessionRepoRedis.DeleteSession redisServer st token = ((false, none), st) := by
  simp [SessionRepoRedis.DeleteSession, redisServer, Redis.Do, h, redisBool]

theorem repo_DeleteSession_live (st : Redis) (token : String) (h : st.live token ≠ none) :
    SessionRepoRedis.DeleteSession redisServer st token
      = ((true, none), ⟨st.now, st.entries.filter (fun e => !(e.key == token))⟩) := by
  have h1 : (st.live token).isSome = true := by
    cases hl : st.live token with
    | none => exact absurd hl h
    | some e => rfl
  simp [SessionRepoRedis.DeleteSession, redisServer, Redis.Do, h1, redisBool]

/-- C12 as stated fails: for a token that was never created, the session
service's `DeleteSession` returns false together with the error `ErrNoSession`,
not a nil error. -/
theorem DeleteSession_absent_counterexample :
    Redis.live ⟨0, []⟩ "ghost" = none ∧
    (SessionUseCaseApp.DeleteSession (NewSessionRepo redisServer) ⟨0, []⟩ "ghost").1
      = (false, some GoError.ErrNoSession) ∧
    (SessionUseCaseApp.DeleteSession (NewSessionRepo redisServer) ⟨0, []⟩ "ghost").1
      ≠ (false, none) := by
  decide

/-- C12, amended: for every token that resolves to no live session (deleted,
expired or never created), `SessionRepoRedis.DeleteSession` returns
`(false, nil)` and the session service's `DeleteSession` returns false with the
domain error `ErrNoSession`, both leaving the store unchanged; on a live token
the service returns `(true, nil)` and, called again, `(false, ErrNoSession)`. -/
theorem DeleteSession_idempotent (st : Redis) (token : String) :
    (st.live token = none →
      SessionRepoRedis.DeleteSession redisServer st token = ((false, none), st) ∧
      SessionUseCaseApp.DeleteSession (NewSessionRepo redisServer) st token
        = ((false, some GoError.ErrNoSession), st)) ∧
    (st.live token ≠ none →
      (SessionUseCaseApp.DeleteSession (NewSessionRepo redisServer) st token).1 = (true, none) ∧
      (SessionUseCaseApp.DeleteSession (NewSessionRepo redisServer)
        (SessionUseCaseApp.DeleteSession (NewSessionRepo redisServer) st token).2 token).1
        = (false, some GoError.ErrNoSession)) := by
  constructor
  · intro h
    refine ⟨repo_DeleteSession_absent st token h, ?_⟩
    simp [SessionUseCaseApp.DeleteSession, NewSessionRepo, repo_DeleteSession_absent st token h]
  · intro h
    have h1 : SessionUseCaseApp.DeleteSession (NewSessionRepo redisServer) st token
        = ((true, none), ⟨st.now, st.entries.filter (fun e => !(e.key == token))⟩) := by
      simp only [SessionUseCaseApp.DeleteSession, NewSessionRepo,
        repo_DeleteSession_live st token h]
      rfl
    rw [h1]
    refine ⟨rfl, ?_⟩
    simp only [SessionUseCaseApp.DeleteSession, NewSessionRepo,
      repo_DeleteSession_absent _ token (live_after_delete st token)]
    rfl

/-- C12 amended, at a concrete input: the token `tok` created for user 42 is
deleted, then deleted again. -/
theorem DeleteSession_idempotent_witness :
    (SessionUseCaseApp.DeleteSession (NewSessionRepo redisServer)
        ⟨0, [⟨"tok", "42", 86400⟩]⟩ "tok").1 = (true, none) ∧
    (SessionUseCaseApp.DeleteSession (NewSessionRepo redisServer)
        (SessionUseCaseApp.DeleteSession (NewSessionRepo redisServer)
          ⟨0, [⟨"tok", "42", 86400⟩]⟩ "tok").2 "tok").1 = (false, some GoError.ErrNoSession) :=
  (DeleteSession_idempotent ⟨0, [⟨"tok", "42", 86400⟩]⟩ "tok").2 (by decide)

/-- What `CreateSession` of the repository returns: the error of
`redis.String` on the reply to `SET`, whatever the string replied. -/
theorem CreateSession_returns_String_error {σ : Type} (conn : RedisConn σ) (st : σ)
    (session : Session) :
    (SessionRepoRedis.CreateSession conn st session).1
      = (redisString (conn.Do st (.SET session.ID (formatUint session.UserID) expireTime)).1).2 := by
  unfold SessionRepoRedis.CreateSession
  simp only
  split
  · rfl
  · rename_i h
    simp only [not_or, not_not] at h
    rw [h.1]

/-- C13 fails on the code: when the store answers `SET` with a string other than
`OK` and no error (here the status `QUEUED`), `SessionRepoRedis.CreateSession`
returns a nil error, and so does `SessionUseCaseApp.CreateSession`. -/
theorem CreateSession_not_OK_returns_nil :
    (queuedConn.Do () (.SET "tok" (formatUint 1) expireTime)).1 = (Reply.status "QUEUED", none) ∧
    (SessionRepoRedis.CreateSession queuedConn () ⟨"tok", 1⟩).1 = none ∧
    (SessionUseCaseApp.CreateSession (NewSessionRepo queuedConn) () "tok" 1).1
      = ("tok", none) := by
  decide

/-- With `SessionUseCaseApp` as its session use case, whatever the repository,
`Logout` never answers 404: a session that was not deleted reaches the handler
as the error `ErrNoSession`, which it answers like any other error. -/
theorem Logout_never_404 {σ : Type} (sessionRepo : SessionRepo σ) (st : σ) (ctx : Context) :
    (UserHandler.Logout (SessionUseCaseApp.DeleteSession sessionRepo) st ctx).1.status ≠ 404 := by
  unfold UserHandler.Logout
  split
  · simp
  · split
    · simp only
      split
      · simp
      · rename_i herr
        split
        · rename_i hdel
          exfalso
          unfold SessionUseCaseApp.DeleteSession at herr hdel
          simp only at herr hdel
          split at herr
          · simp at herr
          · split at herr
            · simp at herr
            · rename_i h1 h2
              simp [h1, h2] at hdel
        · simp
    · simp

/-- C14 fails on the code: with the session use case of `main`, a session id in
the context that is no longer in the store is answered 500 by `Logout`, exactly
as a store error is, and not 404; only a use case that returned
`(false, nil)` would be answered 404. -/
theorem Logout_missing_session_status :
    (UserHandler.Logout (SessionUseCaseApp.DeleteSession (NewSessionRepo redisServer))
        ⟨0, []⟩ ⟨some .logger, some (.uint64 7), some (.string "ghost")⟩).1
      = ⟨500, internalErrorBody⟩ ∧
    (UserHandler.Logout (SessionUseCaseApp.DeleteSession (NewSessionRepo redisServer))
        ⟨0, [⟨"tok", "7", 86400⟩]⟩ ⟨some .logger, some (.uint64 7), some (.string "tok")⟩).1.status
      = 200 ∧
    (UserHandler.Logout (fun (_ : Unit) _ => ((false, some (GoError.text "EOF")), ()))
        () ⟨some .logger, some (.uint64 7), some (.string "ghost")⟩).1.status = 500 ∧
    (UserHandler.Logout (fun (_ : Unit) _ => ((false, none), ()))
        () ⟨some .logger, some (.uint64 7), some (.string "ghost")⟩).1.status = 404 := by
  decide

/-! ## User use case -/

theorem hexEncodeToString_length (bytes : List Nat) :
    (hexEncodeToString bytes).length = 2 * bytes.length := by
  unfold hexEncodeToString
  simp only [String.length]
  induction bytes with
  | nil => rfl
  | cons b rest ih =>
    simp only [List.flatMap_cons, List.length_append, List.length_cons, List.length_nil, ih]
    omega

/-- C15: `Login` asks the hasher for the digest of the password and then asks
the repository once, with the username and that digest (the value passed is the
hasher's output, not the password); it returns the repository's user with a nil
error when one is found, `(nil, ErrBadCredentials)` when none is found, and the
error of the hasher or of the repository, with a nil user, when one of them
fails. The SHA-256 hasher of `main` never fails and its digest is the hexadecimal
text of the hash, two characters per byte. -/
theorem Login_spec {σ : Type} (userRepo : UserRepo σ) (hasher : Hasher) (st : σ)
    (username password : String) :
    (∀ err, (hasher password).2 = some err →
      (UserUseCaseApp.Login userRepo hasher st username password).value = none ∧
      (UserUseCaseApp.Login userRepo hasher st username password).err = some err ∧
      (UserUseCaseApp.Login userRepo hasher st username password).calls
        = [.GetHashPassword password]) ∧
    ((hasher password).2 = none →
      (UserUseCaseApp.Login userRepo hasher st username password).calls
        = [.GetHashPassword password, .Login username (hasher password).1] ∧
      (∀ err, (userRepo.Login st username (hasher password).1).1.2 = some err →
        (UserUseCaseApp.Login userRepo hasher st username password).value = none ∧
        (UserUseCaseApp.Login userRepo hasher st username password).err = some err) ∧
      ((userRepo.Login st username (hasher password).1).1 = (none, none) →
        (UserUseCaseApp.Login userRepo hasher st username password).value = none ∧
        (UserUseCaseApp.Login userRepo hasher st username password).err
          = some GoError.ErrBadCredentials) ∧
      (∀ u, (userRepo.Login st username (hasher password).1).1 = (some u, none) →
        (UserUseCaseApp.Login userRepo hasher st username password).value = some u ∧
        (UserUseCaseApp.Login userRepo hasher st username password).err = none)) ∧
    (∀ sum256 : String → List Nat,
      (SHA256Hasher.GetHashPassword sum256 password).2 = none ∧
      (SHA256Hasher.GetHashPassword sum256 password).1 = hexEncodeToString (sum256 password) ∧
      (SHA256Hasher.GetHashPassword sum256 password).1.length = 2 * (sum256 password).length) := by
  refine ⟨?_, ?_, ?_⟩
  · intro err h
    simp [UserUseCaseApp.Login, h]
  · intro h
    refine ⟨?_, ?_, ?_, ?_⟩
    · unfold UserUseCaseApp.Login
      simp only [h]
      split
      · rfl
      · split <;> rfl
    · intro err he
      simp [UserUseCaseApp.Login, h, he]
    · intro he
      have h1 : (userRepo.Login st username (hasher password).1).1.2 = none := by rw [he]
      have h2 : (userRepo.Login st username (hasher password).1).1.1 = none := by rw [he]
      simp [UserUseCaseApp.Login, h, h1, h2]
    · intro u he
      have h1 : (userRepo.Login st username (hasher password).1).1.2 = none := by rw [he]
      have h2 : (userRepo.Login st username (hasher password).1).1.1 = some u := by rw [he]
      simp [UserUseCaseApp.Login, h, h1, h2]
  · intro sum256
    exact ⟨rfl, rfl, hexEncodeToString_length _⟩

/-- C15 at concrete inputs: `bob` logs in with the right password, and with a
wrong one. -/
theorem Login_spec_witness :
    (UserUseCaseApp.Login NewUserRepo sampleHasher sampleUsers "bob" "password").calls
      = [.GetHashPassword "password", .Login "bob" "drowssap"] ∧
    (UserUseCaseApp.Login NewUserRepo sampleHasher sampleUsers "bob" "password").value
      = some ⟨2, "bob"⟩ ∧
    (UserUseCaseApp.Login NewUserRepo sampleHasher sampleUsers "bob" "letmein1").err
      = some GoError.ErrBadCredentials :=
  ⟨((Login_spec NewUserRepo sampleHasher sampleUsers "bob" "password").2.1 (by decide)).1,
    (((Login_spec NewUserRepo sampleHasher sampleUsers "bob" "password").2.1
      (by decide)).2.2.2 ⟨2, "bob"⟩ (by decide)).1,
    (((Login_spec NewUserRepo sampleHasher sampleUsers "bob" "letmein1").2.1
      (by decide)).2.2.1 (by decide)).2⟩

theorem GetUserByUsername_found (us : UserStore) (username : String)
    (h : ∃ row ∈ us.rows, row.username = username) :
    ∃ u, UserRepoPG.GetUserByUsername us username = ((some u, none), us) := by
  unfold UserRepoPG.GetUserByUsername UserStore.selectByUsername
  cases hf : us.rows.find? (fun u => u.username == username) with
  | none =>
    rw [List.find?_eq_none] at hf
    obtain ⟨row, hr, hu⟩ := h
    exact absurd (hf row hr) (by simp [hu])
  | some row => exact ⟨_, rfl⟩

theorem GetUserByUsername_free (us : UserStore) (username : String)
    (h : ∀ row ∈ us.rows, row.username ≠ username) :
    UserRepoPG.GetUserByUsername us username = ((none, none), us) := by
  unfold UserRepoPG.GetUserByUsername UserStore.selectByUsername
  cases hf : us.rows.find? (fun u => u.username == username) with
  | none => simp [errorsIs, GoError.chainHas]
  | some row =>
    have h1 := List.find?_some hf
    have h2 := List.mem_of_find?_eq_some hf
    exact absurd (by simpa using h1) (h row h2)

/-- C16: when `GetUserByUsername` finds a user for the username, `Register`
returns `(nil, ErrUserAlreadyExists)` and the lookup is the only call it makes:
it neither hashes the password nor calls the repository's `Register`; over
`UserRepoPG`, for a username that a row of `users` carries, the relation is left
as it was. -/
theorem Register_taken_username {σ : Type} (userRepo : UserRepo σ) (hasher : Hasher) (st : σ)
    (username password : String) :
    (∀ u, (userRepo.GetUserByUsername st username).1 = (some u, none) →
      (UserUseCaseApp.Register userRepo hasher st username password).value = none ∧
      (UserUseCaseApp.Register userRepo hasher st username password).err
        = some GoError.ErrUserAlreadyExists ∧
      (UserUseCaseApp.Register userRepo hasher st username password).calls
        = [.GetUserByUsername username] ∧
      (UserUseCaseApp.Register userRepo hasher st username password).st
        = (userRepo.GetUserByUsername st username).2) ∧
    (∀ us : UserStore, (∃ row ∈ us.rows, row.username = username) →
      (UserUseCaseApp.Register NewUserRepo hasher us username password).value = none ∧
      (UserUseCaseApp.Register NewUserRepo hasher us username password).err
        = some GoError.ErrUserAlreadyExists ∧
      (UserUseCaseApp.Register NewUserRepo hasher us username password).calls
        = [.GetUserByUsername username] ∧
      (UserUseCaseApp.Register NewUserRepo hasher us username password).st = us) := by
  have key : ∀ {τ : Type} (repo : UserRepo τ) (s : τ) (u : User),
      (repo.GetUserByUsername s username).1 = (some u, none) →
      (UserUseCaseApp.Register repo hasher s username password).value = none ∧
      (UserUseCaseApp.Register repo hasher s username password).err
        = some GoError.ErrUserAlreadyExists ∧
      (UserUseCaseApp.Register repo hasher s username password).calls
        = [.GetUserByUsername username] ∧
      (UserUseCaseApp.Register repo hasher s username password).st
        = (repo.GetUserByUsername s username).2 := by
    intro τ repo s u h
    have h1 : (repo.GetUserByUsername s username).1.2 = none := by rw [h]
    have h2 : (repo.GetUserByUsername s username).1.1 = some u := by rw [h]
    simp [UserUseCaseApp.Register, h1, h2]
  refine ⟨fun u h => key userRepo st u h, ?_⟩
  intro us hrow
  obtain ⟨u, hu⟩ := GetUserByUsername_found us username hrow
  have hk := key NewUserRepo us u (by
    show (UserRepoPG.GetUserByUsername us username).1 = (some u, none)
    rw [hu])
  refine ⟨hk.1, hk.2.1, hk.2.2.1, ?_⟩
  rw [hk.2.2.2]
  show (UserRepoPG.GetUserByUsername us username).2 = us
  rw [hu]

/-- C16 at a concrete input: `bob` is taken. -/
theorem Register_taken_username_witness :
    (UserUseCaseApp.Register NewUserRepo sampleHasher sampleUsers "bob" "whatever").err
      = some GoError.ErrUserAlreadyExists ∧
    (UserUseCaseApp.Register NewUserRepo sampleHasher sampleUsers "bob" "whatever").calls
      = [.GetUserByUsername "bob"] ∧
    (UserUseCaseApp.Register NewUserRepo sampleHasher sampleUsers "bob" "whatever").st
      = sampleUsers :=
  ⟨((Register_taken_username NewUserRepo sampleHasher sampleUsers "bob" "whatever").2
      sampleUsers ⟨⟨2, "bob", "drowssap", "default"⟩, by decide, rfl⟩).2.1,
    ((Register_taken_username NewUserRepo sampleHasher sampleUsers "bob" "whatever").2
      sampleUsers ⟨⟨2, "bob", "drowssap", "default"⟩, by decide, rfl⟩).2.2.1,
    ((Register_taken_username NewUserRepo sampleHasher sampleUsers "bob" "whatever").2
      sampleUsers ⟨⟨2, "bob", "drowssap", "default"⟩, by decide, rfl⟩).2.2.2⟩

theorem Register_free_run (hasher : Hasher) (us : UserStore) (username password : String)
    (hfree : ∀ row ∈ us.rows, row.username ≠ username) (hh : (hasher password).2 = none) :
    (UserUseCaseApp.Register NewUserRepo hasher us username password).value
      = some ⟨us.seq + 1, username⟩ ∧
    (UserUseCaseApp.Register NewUserRepo hasher us username password).err = none ∧
    (UserUseCaseApp.Register NewUserRepo hasher us username password).st
      = ⟨us.rows ++ [⟨us.seq + 1, username, (hasher password).1, "default"⟩], us.seq + 1⟩ := by
  have hg : NewUserRepo.GetUserByUsername us username = ((none, none), us) :=
    GetUserByUsername_free us username hfree
  have hr : NewUserRepo.Register us username (hasher password).1
      = ((some ⟨us.seq + 1, username⟩, none),
          ⟨us.rows ++ [⟨us.seq + 1, username, (hasher password).1, "default"⟩], us.seq + 1⟩) := rfl
  simp [UserUseCaseApp.Register, hg, hh, hr]

theorem Register_rows (hasher : Hasher) (us : UserStore) (username password : String) :
    ∀ row ∈ (UserUseCaseApp.Register NewUserRepo hasher us username password).st.rows,
      row ∈ us.rows ∨ row.role = "default" := by
  have hget : ∀ name, (NewUserRepo.GetUserByUsername us name).2 = us := by
    intro name
    show (UserRepoPG.GetUserByUsername us name).2 = us
    unfold UserRepoPG.GetUserByUsername
    split
    · split <;> rfl
    · rfl
  have hreg : ∀ (s : UserStore) digest, (NewUserRepo.Register s username digest).2
      = ⟨s.rows ++ [⟨s.seq + 1, username, digest, "default"⟩], s.seq + 1⟩ := fun _ _ => rfl
  intro row hrow
  unfold UserUseCaseApp.Register at hrow
  simp only at hrow
  split at hrow
  · rw [hget] at hrow; exact Or.inl hrow
  · split at hrow
    · rw [hget] at hrow; exact Or.inl hrow
    · split at hrow
      · rw [hget] at hrow; exact Or.inl hrow
      · have hmem : row ∈ us.rows ++ [⟨us.seq + 1, username, (hasher password).1, "default"⟩] := by
          split at hrow <;> (rw [hreg, hget] at hrow; exact hrow)
        rcases List.mem_append.1 hmem with h | h
        · exact Or.inl h
        · right
          rw [List.mem_singleton.1 h]

theorem selectRole_new (us : UserStore) (username digest : String)
    (hseq : ∀ row ∈ us.rows, row.id ≤ us.seq) :
    UserStore.selectRole ⟨us.rows ++ [⟨us.seq + 1, username, digest, "default"⟩], us.seq + 1⟩
      (us.seq + 1) = .ok "default" := by
  unfold UserStore.selectRole
  have h1 : us.rows.find? (fun u => u.id == us.seq + 1) = none := by
    rw [List.find?_eq_none]
    intro row hr
    have := hseq row hr
    simp only [beq_iff_eq]
    omega
  simp [List.find?_append, h1]

/-- C17 as stated fails: in a store where the admin row has the id 3 and the id
sequence last handed out 2, the name `eve` is free and `Register` returns the
user with id 3 and a nil error; `GetUserRole` of that id finds the admin row
first, so the role is `admin` and `AdminMiddleware` wired to the store passes a
request of this user on. -/
theorem Register_stale_sequence_counterexample :
    (∀ row ∈ staleUsers.rows, row.username ≠ "eve") ∧
    (UserUseCaseApp.Register NewUserRepo sampleHasher staleUsers "eve" "secret12").value
      = some ⟨3, "eve"⟩ ∧
    (UserUseCaseApp.Register NewUserRepo sampleHasher staleUsers "eve" "secret12").err = none ∧
    (UserUseCaseApp.GetUserRole NewUserRepo
      (UserUseCaseApp.Register NewUserRepo sampleHasher staleUsers "eve" "secret12").st 3).value
      = "admin" ∧
    (UserUseCaseApp.GetUserRole NewUserRepo
      (UserUseCaseApp.Register NewUserRepo sampleHasher staleUsers "eve" "secret12").st 3).err
      = none ∧
    (NewMiddleware ⟨0, []⟩
        (UserUseCaseApp.Register NewUserRepo sampleHasher staleUsers "eve" "secret12").st
      ).AdminMiddleware
        ⟨"POST", "/api/v1/admin/film", [], ⟨some .logger, some (.uint64 3), none⟩⟩
      = .callNext ⟨"POST", "/api/v1/admin/film", [], ⟨some .logger, some (.uint64 3), none⟩⟩ := by
  decide

/-- C17, amended: whatever its input, `Register` adds no row to `users` whose
role is not `default`. After a `Register` that returns a nil error, on a store
where the username was free and no row has an id beyond the last value of the
id sequence, the user returned has the role `default` according to
`GetUserRole`, and `AdminMiddleware` wired to that store answers 403 to every
request that carries the logger and the id of this user. -/
theorem Register_role_default (hasher : Hasher) (us : UserStore) (username password : String) :
    (∀ row ∈ (UserUseCaseApp.Register NewUserRepo hasher us username password).st.rows,
      row ∈ us.rows ∨ row.role = "default") ∧
    ((∀ row ∈ us.rows, row.username ≠ username) → (∀ row ∈ us.rows, row.id ≤ us.seq) →
      (UserUseCaseApp.Register NewUserRepo hasher us username password).err = none →
      ∃ u, (UserUseCaseApp.Register NewUserRepo hasher us username password).value = some u ∧
        (UserUseCaseApp.GetUserRole NewUserRepo
          (UserUseCaseApp.Register NewUserRepo hasher us username password).st u.ID).value
          = "default" ∧
        (UserUseCaseApp.GetUserRole NewUserRepo
          (UserUseCaseApp.Register NewUserRepo hasher us username password).st u.ID).err = none ∧
        ∀ (sessions : Redis) (r : Request), r.ctx.loggerVal = some CtxValue.logger →
          r.ctx.userVal = some (.uint64 u.ID) →
          (NewMiddleware sessions
            (UserUseCaseApp.Register NewUserRepo hasher us username password).st).AdminMiddleware r
            = .respond 403 "\x7b\"error\": \"resource is forbidden for you\"\x7d") := by
  refine ⟨Register_rows hasher us username password, ?_⟩
  intro hfree hseq hok
  have hh : (hasher password).2 = none := by
    cases hc : (hasher password).2 with
    | none => rfl
    | some e =>
      have hg : NewUserRepo.GetUserByUsername us username = ((none, none), us) :=
        GetUserByUsername_free us username hfree
      simp [UserUseCaseApp.Register, hg, hc] at hok
  obtain ⟨hv, _, hst⟩ := Register_free_run hasher us username password hfree hh
  have hrole : NewUserRepo.GetUserRole
      ⟨us.rows ++ [⟨us.seq + 1, username, (hasher password).1, "default"⟩], us.seq + 1⟩
      (us.seq + 1) = (("default", none),
        ⟨us.rows ++ [⟨us.seq + 1, username, (hasher password).1, "default"⟩], us.seq + 1⟩) := by
    show UserRepoPG.GetUserRole _ _ = _
    unfold UserRepoPG.GetUserRole
    rw [selectRole_new us username _ hseq]
  refine ⟨⟨us.seq + 1, username⟩, hv, ?_, ?_, ?_⟩
  · rw [hst]
    simp [UserUseCaseApp.GetUserRole, hrole]
  · rw [hst]
    simp [UserUseCaseApp.GetUserRole, hrole]
  · intro sessions r hl hu
    rw [← GetLoggerFromContext_ok_iff] at hl
    rw [hst]
    simp [Middleware.AdminMiddleware, NewMiddleware, hl, hu, UserUseCaseApp.GetUserRole, hrole,
      errorsIs]

/-- C17 amended, at a concrete input: `eve` registers on the sample store and
gets id 3 and the role `default`. -/
theorem Register_role_default_witness :
    (∀ row ∈ sampleUsers.rows, row.username ≠ "eve") ∧
    (∀ row ∈ sampleUsers.rows, row.id ≤ sampleUsers.seq) ∧
    (UserUseCaseApp.Register NewUserRepo sampleHasher sampleUsers "eve" "secret12").err = none ∧
    (UserUseCaseApp.Register NewUserRepo sampleHasher sampleUsers "eve" "secret12").value
      = some ⟨3, "eve"⟩ ∧
    ∃ u, (UserUseCaseApp.Register NewUserRepo sampleHasher sampleUsers "eve" "secret12").value
        = some u ∧
      (UserUseCaseApp.GetUserRole NewUserRepo
        (UserUseCaseApp.Register NewUserRepo sampleHasher sampleUsers "eve" "secret12").st
        u.ID).value = "default" :=
  ⟨by decide, by decide, by decide, by decide,
    let ⟨u, h1, h2, _⟩ := (Register_role_default sampleHasher sampleUsers "eve" "secret12").2
      (by decide) (by decide) (by decide)
    ⟨u, h1, h2⟩⟩

/-! ## Layers above the film and actor repositories -/

theorem linkActors_retErr_cases (sch : Schema) (filmID : Nat) :
    ∀ (ids : List Nat) (tx : Tx) (ex : BodyExit),
      linkActors sch filmID ids tx = .error ex →
        ex.retErr = none ∨ ex.retErr = some GoError.uniqueViolation := by
  intro ids
  induction ids with
  | nil => intro tx ex h; simp [linkActors] at h
  | cons id rest ih =>
    intro tx ex h
    unfold linkActors at h
    cases hp : actorExists tx.work.actors id with
    | false =>
      rw [selectActorID_of_absent tx id hp] at h
      simp [errorsIs, GoError.chainHas] at h
      subst h
      exact Or.inl rfl
    | true =>
      rw [selectActorID_of_exists tx id hp] at h
      simp only at h
      cases hi : tx.insertFilmActor sch filmID id with
      | error e =>
        rw [hi] at h
        simp only at h
        cases h
        unfold Tx.insertFilmActor at hi
        split at hi
        · cases hi; exact Or.inr rfl
        · cases hi
      | ok tx1 =>
        rw [hi] at h
        exact ih tx1 ex h

/-- Result of `AddFilm` when an id of the list is missing from `actors`. -/
theorem AddFilm_absent_result (sch : Schema) (db : DB) (film : Film) (actorIDs : List Nat)
    (h : ∃ id ∈ actorIDs, actorExists db.tables.actors id = false) :
    (FilmRepoPG.AddFilm sch db film actorIDs).id = 0 ∧
    ((FilmRepoPG.AddFilm sch db film actorIDs).err = none ∨
      (FilmRepoPG.AddFilm sch db film actorIDs).err = some GoError.uniqueViolation) ∧
    ((FilmRepoPG.AddFilm sch db film actorIDs).err = none ↔
      (sch.uniquePair = false ∨
        ((actorIDs.takeWhile (actorExists db.tables.actors)).Nodup ∧
          ∀ a ∈ actorIDs.takeWhile (actorExists db.tables.actors),
            (db.filmSeq + 1, a) ∉ db.tables.filmActors))) := by
  obtain ⟨ex, hex, _⟩ := linkActors_absent sch (db.filmSeq + 1) actorIDs
    ⟨{ db.tables with films := db.tables.films ++ [{ film with ID := db.filmSeq + 1 }] },
      db.filmSeq + 1⟩ h
  have hr := linkActors_retErr sch (db.filmSeq + 1) actorIDs _ ex h hex
  have hc := linkActors_retErr_cases sch (db.filmSeq + 1) actorIDs _ ex hex
  have hid : (FilmRepoPG.AddFilm sch db film actorIDs).id = 0 := by
    simp only [FilmRepoPG.AddFilm, DB.begin, Tx.insertFilm, hex]
  have he : (FilmRepoPG.AddFilm sch db film actorIDs).err = ex.retErr := by
    simp only [FilmRepoPG.AddFilm, DB.begin, Tx.insertFilm, hex]
  refine ⟨hid, ?_, ?_⟩
  · rw [he]; exact hc
  · rw [he, hr]

/-- Answer of the `AddFilm` handler, over the use case of `main`, to a body that
decodes and validates, by the result of the repository. -/
theorem AddFilm_handler_status (sch : Schema) (db : DB) (codec : FilmAddCodec) (ctx : Context)
    (rBody : String) (filmDTO : FilmAdd) (hl : ctx.loggerVal = some CtxValue.logger)
    (hu : codec.Unmarshal rBody = .ok filmDTO) (hv : codec.Validate filmDTO = []) :
    (((FilmRepoPG.AddFilm sch db filmDTO.GetFilmAndActorIDs.1 filmDTO.GetFilmAndActorIDs.2).id = 0 ∧
      (FilmRepoPG.AddFilm sch db filmDTO.GetFilmAndActorIDs.1 filmDTO.GetFilmAndActorIDs.2).err
        = none) →
      (FilmHandler.AddFilm codec (NewFilmUseCase.AddFilm sch) db ctx (.ok rBody)).1.status = 400) ∧
    ((FilmRepoPG.AddFilm sch db filmDTO.GetFilmAndActorIDs.1 filmDTO.GetFilmAndActorIDs.2).err
        = some GoError.uniqueViolation →
      (FilmHandler.AddFilm codec (NewFilmUseCase.AddFilm sch) db ctx (.ok rBody)).1.status
        = 500) := by
  rw [← GetLoggerFromContext_ok_iff] at hl
  constructor
  · rintro ⟨hid, he⟩
    simp [FilmHandler.AddFilm, hl, hu, hv, NewFilmUseCase.AddFilm, FilmUseCaseApp.AddFilm, hid, he,
      errorsIs, GoError.chainHas]
  · intro he
    simp [FilmHandler.AddFilm, hl, hu, hv, NewFilmUseCase.AddFilm, FilmUseCaseApp.AddFilm, he,
      errorsIs, GoError.chainHas]

/-- The film of the examples passes the validation of the example codec. -/
theorem sampleValidate_filmX (actorIDs : List Nat) :
    sampleValidate ⟨"X", "a film", 1, 51 / 10, actorIDs⟩ = [] := by
  have h1 : 1 ≤ "X".length ∧ "X".length ≤ 150 := by decide
  have h2 : 1 ≤ "a film".length ∧ "a film".length ≤ 1000 := by decide
  have h3 : ¬ ((1 : Int) = 0) := by decide
  have h4 : ¬ ((51 / 10 : Rat) = 0 ∨ (51 / 10 : Rat) < 0 ∨ 10 < (51 / 10 : Rat)) := by norm_num
  simp only [sampleValidate, if_pos h1, if_pos h2, if_neg h3, if_neg h4, List.append_nil]

/-- C18 as stated fails: with an enforced unique pair, the actor ids `[1, 1, 2]`
(actor 2 does not exist) make `FilmRepoPG.AddFilm` return id 0 with the store's
uniqueness error, the use case pass that error on, and the handler answer 500
to a request that carries the logger and whose body decodes to the film and
these ids and passes validation. -/
theorem AddFilm_layers_counterexample :
    (∃ id ∈ [1, 1, 2], ∀ a ∈ sampleDB.tables.actors, a.ID ≠ id) ∧
    (FilmRepoPG.AddFilm ⟨true⟩ sampleDB filmX [1, 1, 2]).id = 0 ∧
    (FilmRepoPG.AddFilm ⟨true⟩ sampleDB filmX [1, 1, 2]).err
      = some GoError.uniqueViolation ∧
    FilmUseCaseApp.AddFilm filmX
        ((FilmRepoPG.AddFilm ⟨true⟩ sampleDB filmX [1, 1, 2]).id,
          (FilmRepoPG.AddFilm ⟨true⟩ sampleDB filmX [1, 1, 2]).err)
      = (none, some GoError.uniqueViolation) ∧
    (sampleCodec [1, 1, 2]).Unmarshal "body" = .ok ⟨"X", "a film", 1, 51 / 10, [1, 1, 2]⟩ ∧
    (sampleCodec [1, 1, 2]).Validate ⟨"X", "a film", 1, 51 / 10, [1, 1, 2]⟩ = [] ∧
    (FilmHandler.AddFilm (sampleCodec [1, 1, 2]) (NewFilmUseCase.AddFilm ⟨true⟩) sampleDB
        ⟨some .logger, none, none⟩ (.ok "body")).1.status = 500 :=
  ⟨by decide, rfl, rfl, rfl, rfl, sampleValidate_filmX [1, 1, 2],
    (AddFilm_handler_status ⟨true⟩ sampleDB (sampleCodec [1, 1, 2]) ⟨some .logger, none, none⟩
      "body" ⟨"X", "a film", 1, 51 / 10, [1, 1, 2]⟩ rfl rfl (sampleValidate_filmX [1, 1, 2])).2
      rfl⟩

/-- C18, amended: for every film and actor id list in which some id does not
exist in `actors`, `FilmRepoPG.AddFilm` returns id 0. Its error is nil exactly
when the store accepts the join rows of the ids before the first missing one
(uniqueness of the pair is not enforced, or these ids are pairwise distinct and
none is already a row of the new film id); then `FilmUseCaseApp.AddFilm` returns
`(nil, ErrBadFilmAddData)` and the handler answers 400. Otherwise the repository
returns the store's uniqueness error, the use case passes it on and the handler
answers 500. -/
theorem AddFilm_missing_actor_layers (sch : Schema) (db : DB) (film : Film)
    (actorIDs : List Nat) (h : ∃ id ∈ actorIDs, ∀ a ∈ db.tables.actors, a.ID ≠ id) :
    (FilmRepoPG.AddFilm sch db film actorIDs).id = 0 ∧
    ((FilmRepoPG.AddFilm sch db film actorIDs).err = none ↔
      (sch.uniquePair = false ∨
        ((actorIDs.takeWhile (actorExists db.tables.actors)).Nodup ∧
          ∀ a ∈ actorIDs.takeWhile (actorExists db.tables.actors),
            (db.filmSeq + 1, a) ∉ db.tables.filmActors))) ∧
    ((FilmRepoPG.AddFilm sch db film actorIDs).err = none →
      FilmUseCaseApp.AddFilm film
          ((FilmRepoPG.AddFilm sch db film actorIDs).id, (FilmRepoPG.AddFilm sch db film actorIDs).err)
        = (none, some GoError.ErrBadFilmAddData) ∧
      ∀ (codec : FilmAddCodec) (ctx : Context) (rBody : String) (filmDTO : FilmAdd),
        ctx.loggerVal = some CtxValue.logger → codec.Unmarshal rBody = .ok filmDTO →
        codec.Validate filmDTO = [] → filmDTO.GetFilmAndActorIDs = (film, actorIDs) →
        (FilmHandler.AddFilm codec (NewFilmUseCase.AddFilm sch) db ctx (.ok rBody)).1.status
          = 400) ∧
    ((FilmRepoPG.AddFilm sch db film actorIDs).err ≠ none →
      FilmUseCaseApp.AddFilm film
          ((FilmRepoPG.AddFilm sch db film actorIDs).id, (FilmRepoPG.AddFilm sch db film actorIDs).err)
        = (none, some GoError.uniqueViolation) ∧
      ∀ (codec : FilmAddCodec) (ctx : Context) (rBody : String) (filmDTO : FilmAdd),
        ctx.loggerVal = some CtxValue.logger → codec.Unmarshal rBody = .ok filmDTO →
        codec.Validate filmDTO = [] → filmDTO.GetFilmAndActorIDs = (film, actorIDs) →
        (FilmHandler.AddFilm codec (NewFilmUseCase.AddFilm sch) db ctx (.ok rBody)).1.status
          = 500) := by
  rw [absent_iff] at h
  obtain ⟨hid, hcases, hiff⟩ := AddFilm_absent_result sch db film actorIDs h
  refine ⟨hid, hiff, ?_, ?_⟩
  · intro he
    refine ⟨?_, ?_⟩
    · simp [FilmUseCaseApp.AddFilm, hid, he]
    · intro codec ctx rBody filmDTO hl hu hv hdto
      have h1 : filmDTO.GetFilmAndActorIDs.1 = film := by rw [hdto]
      have h2 : filmDTO.GetFilmAndActorIDs.2 = actorIDs := by rw [hdto]
      exact (AddFilm_handler_status sch db codec ctx rBody filmDTO hl hu hv).1
        (by rw [h1, h2]; exact ⟨hid, he⟩)
  · intro hne
    have he : (FilmRepoPG.AddFilm sch db film actorIDs).err = some GoError.uniqueViolation := by
      rcases hcases with hc | hc
      · exact absurd hc hne
      · exact hc
    refine ⟨?_, ?_⟩
    · simp [FilmUseCaseApp.AddFilm, he]
    · intro codec ctx rBody filmDTO hl hu hv hdto
      have h1 : filmDTO.GetFilmAndActorIDs.1 = film := by rw [hdto]
      have h2 : filmDTO.GetFilmAndActorIDs.2 = actorIDs := by rw [hdto]
      exact (AddFilm_handler_status sch db codec ctx rBody filmDTO hl hu hv).2
        (by rw [h1, h2]; exact he)

/-- C18 amended, at the example of the specification: the film `X` with rating
5.1 and the actors `[1, 2]`, of which actor 2 does not exist, in a request that
carries the logger and whose body decodes and passes validation. -/
theorem AddFilm_missing_actor_layers_witness :
    (∃ id ∈ [1, 2], ∀ a ∈ sampleDB.tables.actors, a.ID ≠ id) ∧
    (FilmRepoPG.AddFilm ⟨true⟩ sampleDB filmX [1, 2]).id = 0 ∧
    (FilmRepoPG.AddFilm ⟨true⟩ sampleDB filmX [1, 2]).err = none ∧
    FilmUseCaseApp.AddFilm filmX
        ((FilmRepoPG.AddFilm ⟨true⟩ sampleDB filmX [1, 2]).id,
          (FilmRepoPG.AddFilm ⟨true⟩ sampleDB filmX [1, 2]).err)
      = (none, some GoError.ErrBadFilmAddData) ∧
    (sampleCodec [1, 2]).Unmarshal "body" = .ok ⟨"X", "a film", 1, 51 / 10, [1, 2]⟩ ∧
    (sampleCodec [1, 2]).Validate ⟨"X", "a film", 1, 51 / 10, [1, 2]⟩ = [] ∧
    (FilmHandler.AddFilm (sampleCodec [1, 2]) (NewFilmUseCase.AddFilm ⟨true⟩) sampleDB
        ⟨some .logger, none, none⟩ (.ok "body")).1.status = 400 :=
  ⟨⟨2, by decide, by decide⟩,
    (AddFilm_missing_actor_layers ⟨true⟩ sampleDB filmX [1, 2]
      ⟨2, by decide, by decide⟩).1,
    rfl,
    ((AddFilm_missing_actor_layers ⟨true⟩ sampleDB filmX [1, 2]
      ⟨2, by decide, by decide⟩).2.2.1 rfl).1,
    rfl, sampleValidate_filmX [1, 2],
    ((AddFilm_missing_actor_layers ⟨true⟩ sampleDB filmX [1, 2]
      ⟨2, by decide, by decide⟩).2.2.1 rfl).2 (sampleCodec [1, 2])
      ⟨some .logger, none, none⟩ "body" ⟨"X", "a film", 1, 51 / 10, [1, 2]⟩
      (by decide) rfl (sampleValidate_filmX [1, 2]) rfl⟩

/-- What `ActorRepoPG.UpdateActor` returns, whether or not a row has the id. -/
theorem UpdateActor_always_true (db : DB) (actor : Actor) :
    (ActorRepoPG.UpdateActor db actor).1 = (true, none) := by
  simp [ActorRepoPG.UpdateActor, DB.updateActor]

/-- C19 fails on the code: actor 9 has no row in `actors`, the `UPDATE` affects
zero rows and reports no error, yet `ActorRepoPG.UpdateActor` returns
`(true, nil)` and `ActorUseCaseApp.UpdateActor` returns nil instead of
`ErrActorNotFound`. -/
theorem UpdateActor_absent_actor_reports_success :
    (∀ a ∈ sampleDB.tables.actors, a.ID ≠ (sampleActor 9).ID) ∧
    (ActorRepoPG.UpdateActor sampleDB (sampleActor 9)).1 = (true, none) ∧
    (ActorRepoPG.UpdateActor sampleDB (sampleActor 9)).2 = sampleDB ∧
    ActorUseCaseApp.UpdateActor (ActorRepoPG.UpdateActor sampleDB (sampleActor 9)).1 = none ∧
    ActorUseCaseApp.UpdateActor (false, none) = some GoError.ErrActorNotFound :=
  ⟨by decide, by decide, rfl, by decide, by decide⟩

/-- C20 as stated fails: in a store that does not cascade, `DeleteFilm(1)`
returns `(true, nil)` and the `film_actors` row `(1, 1)` of the deleted film is
still there. -/
theorem DeleteFilm_join_rows_counterexample :
    (FilmRepoPG.DeleteFilm false sampleDB 1).1 = (true, none) ∧
    (FilmRepoPG.DeleteFilm false sampleDB 1).2.tables.films = [] ∧
    (1, 1) ∈ (FilmRepoPG.DeleteFilm false sampleDB 1).2.tables.filmActors := by
  decide

/-- C20, amended: after a `DeleteFilm(id)` that returns `(true, nil)` no `films`
row has that id. `DeleteFilm` itself issues no statement on `film_actors`: the
join rows of the film are gone when the store cascades the delete, and are all
left as they were when it does not. -/
theorem DeleteFilm_removes_film (cascade : Bool) (db : DB) (id : Nat)
    (h : (FilmRepoPG.DeleteFilm cascade db id).1 = (true, none)) :
    (∀ f ∈ (FilmRepoPG.DeleteFilm cascade db id).2.tables.films, f.ID ≠ id) ∧
    (cascade = true →
      ∀ p ∈ (FilmRepoPG.DeleteFilm cascade db id).2.tables.filmActors, p.1 ≠ id) ∧
    (cascade = false →
      (FilmRepoPG.DeleteFilm cascade db id).2.tables.filmActors = db.tables.filmActors) := by
  have hlen : 0 < (db.tables.films.filter (fun f => f.ID == id)).length := by
    simp only [FilmRepoPG.DeleteFilm, DB.deleteFilm, Prod.mk.injEq, decide_eq_true_eq,
      and_true] at h
    exact h
  refine ⟨?_, ?_, ?_⟩
  · intro f hf
    simp only [FilmRepoPG.DeleteFilm, DB.deleteFilm] at hf
    have := (List.mem_filter.1 hf).2
    simpa using this
  · intro hc p hp
    simp only [FilmRepoPG.DeleteFilm, DB.deleteFilm, hc, hlen, decide_True, Bool.and_self,
      if_true] at hp
    have := (List.mem_filter.1 hp).2
    simpa using this
  · intro hc
    simp only [FilmRepoPG.DeleteFilm, DB.deleteFilm, hc, Bool.false_and]
    rfl

/-- C20 amended, at a concrete input: film 1 of the sample store, with and
without a cascading store. -/
theorem DeleteFilm_removes_film_witness :
    (FilmRepoPG.DeleteFilm true sampleDB 1).1 = (true, none) ∧
    (∀ f ∈ (FilmRepoPG.DeleteFilm true sampleDB 1).2.tables.films, f.ID ≠ 1) ∧
    (∀ p ∈ (FilmRepoPG.DeleteFilm true sampleDB 1).2.tables.filmActors, p.1 ≠ 1) ∧
    (FilmRepoPG.DeleteFilm false sampleDB 1).2.tables.filmActors = sampleDB.tables.filmActors :=
  ⟨by decide, (DeleteFilm_removes_film true sampleDB 1 (by decide)).1,
    (DeleteFilm_removes_film true sampleDB 1 (by decide)).2.1 rfl,
    (DeleteFilm_removes_film false sampleDB 1 (by decide)).2.2 rfl⟩


/-! ## Actor queries -/

theorem GetFilm_isSome (f : FilmDB) : f.GetFilm.isSome = f.ID.isSome := by
  unfold FilmDB.GetFilm
  cases f.ID <;> rfl

/-- `FilmDB.GetFilm` yields the film of the row. -/
theorem GetFilm_eq_specFilm (row : ActorFilmRow) : row.film.GetFilm = row.specFilm := by
  unfold FilmDB.GetFilm ActorFilmRow.specFilm
  cases row.film.ID <;> rfl

theorem filterMap_GetFilm_eq (rows : List ActorFilmRow) :
    rows.filterMap (fun row => row.film.GetFilm) = rows.filterMap ActorFilmRow.specFilm := by
  congr 1
  funext row
  exact GetFilm_eq_specFilm row

theorem filmsOfActor_eq (rows : List ActorFilmRow) (id : Nat) :
    filmsOfActor rows id
      = (rows.filter (fun row => row.aID == id)).filterMap (fun row => row.film.GetFilm) := by
  unfold filmsOfActor
  rw [filterMap_GetFilm_eq]

theorem getActorByID_foldl_films :
    ∀ (rows : List ActorFilmRow) (acc : ActorWithFilms) (l : List Film), acc.Films = some l →
      (rows.foldl getActorByIDStep acc).Films
        = some (l ++ rows.filterMap (fun row => row.film.GetFilm)) := by
  intro rows
  induction rows with
  | nil => intro acc l h; simp [h]
  | cons row rest ih =>
    intro acc l h
    simp only [List.foldl_cons]
    cases hf : row.film.GetFilm with
    | none =>
      rw [ih (getActorByIDStep acc row) l (by simp [getActorByIDStep, hf, h])]
      simp [List.filterMap_cons, hf]
    | some film =>
      rw [ih (getActorByIDStep acc row) (l ++ [film])
        (by simp [getActorByIDStep, hf, h, Slice.append])]
      simp [List.filterMap_cons, hf]

theorem getActorByID_foldl_actor (a : Actor) :
    ∀ (rows : List ActorFilmRow) (acc : ActorWithFilms),
      (∀ row ∈ rows, (⟨row.aID, row.aName, row.aSurname, row.aGender, row.aBirthday⟩ : Actor) = a) →
      (acc.Actor = a ∨ rows ≠ []) → (rows.foldl getActorByIDStep acc).Actor = a := by
  intro rows
  induction rows with
  | nil =>
    intro acc _ h
    rcases h with h | h
    · exact h
    · exact absurd rfl h
  | cons row rest ih =>
    intro acc hall _
    simp only [List.foldl_cons]
    apply ih
    · intro r hr
      exact hall r (List.mem_cons_of_mem _ hr)
    · left
      have := hall row (List.mem_cons_self _ _)
      unfold getActorByIDStep
      cases row.film.GetFilm <;> exact this

theorem filterMap_GetFilm_length (rows : List ActorFilmRow) :
    (rows.filterMap (fun row => row.film.GetFilm)).length
      = (rows.filter (fun row => row.film.ID.isSome)).length := by
  induction rows with
  | nil => rfl
  | cons row rest ih =>
    have h := GetFilm_isSome row.film
    cases hf : row.film.GetFilm with
    | none =>
      rw [hf] at h
      simp only [Option.isSome_none] at h
      simp [List.filterMap_cons, hf, List.filter_cons, ← h, ih]
    | some film =>
      rw [hf] at h
      simp only [Option.isSome_some] at h
      simp [List.filterMap_cons, hf, List.filter_cons, ← h, ih]

/-- C21: when the query for an actor id answers with `n >= 1` rows that all
carry that id and the same, non-empty name (and surname, gender, birthday),
`GetActorByID` returns, with a nil error, the one aggregate whose `Actor` is that
actor, with the requested id, and whose `Films` are the films of the rows whose
film id is not `NULL`, each with the id, name, description, release date and
rating of its row, in row order: exactly `k` entries for `k` such rows, and the
empty, non-nil slice when `k = 0`. -/
theorem GetActorByID_aggregate (Query : Nat → Except GoError (List ActorFilmRow))
    (actorID : Nat) (rows : List ActorFilmRow) (name surname gender : String) (birthday : Int)
    (hq : Query actorID = .ok rows) (hne : rows ≠ [])
    (hrows : ∀ row ∈ rows, row.aID = actorID ∧ row.aName = name ∧ row.aSurname = surname ∧
      row.aGender = gender ∧ row.aBirthday = birthday)
    (hname : name ≠ "") :
    ∃ films : List Film,
      ActorRepoPG.GetActorByID Query actorID
        = (some ⟨⟨actorID, name, surname, gender, birthday⟩, some films⟩, none) ∧
      films = (rows.filterMap fun row => row.film.ID.map fun id =>
        ({ ID := (id % 2 ^ 64).toNat
           Name := row.film.Name.getD ""
           Description := row.film.Description.getD ""
           DateOfRelease := row.film.DateOfRelease.getD 0
           Rating := row.film.Rating.getD 0 } : Film)) ∧
      films.length = (rows.filter (fun row => row.film.ID.isSome)).length ∧
      ((rows.filter (fun row => row.film.ID.isSome)).length = 0 → films = []) := by
  have hfilms := getActorByID_foldl_films rows ⟨Actor.zero, some []⟩ [] rfl
  have hactor := getActorByID_foldl_actor ⟨actorID, name, surname, gender, birthday⟩ rows
    ⟨Actor.zero, some []⟩
    (by
      intro row hr
      obtain ⟨h1, h2, h3, h4, h5⟩ := hrows row hr
      rw [h1, h2, h3, h4, h5])
    (Or.inr hne)
  have hres : ActorRepoPG.GetActorByID Query actorID
      = (some ⟨⟨actorID, name, surname, gender, birthday⟩,
          some (rows.filterMap ActorFilmRow.specFilm)⟩, none) := by
    unfold ActorRepoPG.GetActorByID
    rw [hq]
    simp only [hactor, hname, if_false]
    congr 2
    cases hfold : rows.foldl getActorByIDStep ⟨Actor.zero, some []⟩ with
    | mk a fs =>
      rw [hfold] at hfilms hactor
      simp only at hfilms hactor
      rw [hfilms, hactor, filterMap_GetFilm_eq]
      simp
  have hlen : (rows.filterMap ActorFilmRow.specFilm).length
      = (rows.filter (fun row => row.film.ID.isSome)).length := by
    rw [← filterMap_GetFilm_eq]
    exact filterMap_GetFilm_length rows
  refine ⟨rows.filterMap ActorFilmRow.specFilm, hres, rfl, hlen, ?_⟩
  intro hk
  rw [hk] at hlen
  exact List.length_eq_zero.1 hlen

/-- C21 at the example of the specification: actor 5 with two films, and actor 6
whose only row has a `NULL` film id. -/
theorem GetActorByID_aggregate_witness :
    ActorRepoPG.GetActorByID
        (fun id => .ok (sampleActorRows.filter (fun row => row.aID == id))) 5
      = (some ⟨⟨5, "John", "Doe", "male", 0⟩,
          some [⟨1, "Alien", "a ship", 1979, 8⟩, ⟨2, "Brazil", "a clerk", 1985, 7⟩]⟩, none) ∧
    ActorRepoPG.GetActorByID
        (fun id => .ok (sampleActorRows.filter (fun row => row.aID == id))) 6
      = (some ⟨⟨6, "Jane", "Roe", "female", 0⟩, some []⟩, none) :=
  ⟨by
      obtain ⟨films, h1, h2, _, _⟩ := GetActorByID_aggregate
        (fun id => .ok (sampleActorRows.filter (fun row => row.aID == id))) 5
        (sampleActorRows.filter (fun row => row.aID == 5)) "John" "Doe" "male" 0 rfl (by decide)
        (by decide) (by decide)
      subst h2
      exact h1,
    by
      obtain ⟨films, h1, _, _, h4⟩ := GetActorByID_aggregate
        (fun id => .ok (sampleActorRows.filter (fun row => row.aID == id))) 6
        (sampleActorRows.filter (fun row => row.aID == 6)) "Jane" "Roe" "female" 0 rfl (by decide)
        (by decide) (by decide)
      have h5 := h4 (by decide)
      subst h5
      exact h1⟩

theorem actorsMapOf_snoc (rows : List ActorFilmRow) (row : ActorFilmRow) :
    actorsMapOf (rows ++ [row]) = getActorsStep row (actorsMapOf rows) := by
  simp [actorsMapOf, List.foldl_append]

theorem getActorsStep_keys (row : ActorFilmRow) :
    ∀ m : List (Nat × ActorWithFilms),
      (getActorsStep row m).map Prod.fst
        = if row.aID ∈ m.map Prod.fst then m.map Prod.fst else m.map Prod.fst ++ [row.aID] := by
  intro m
  induction m with
  | nil => simp [getActorsStep]
  | cons entry rest ih =>
    by_cases h : entry.1 = row.aID
    · have hmem : row.aID ∈ (entry :: rest).map Prod.fst := by simp [← h]
      rw [if_pos hmem]
      simp only [getActorsStep, h, if_true]
      cases row.film.GetFilm <;> simp [h]
    · simp only [getActorsStep, h, if_false, List.map_cons, ih]
      by_cases hr : row.aID ∈ rest.map Prod.fst
      · have hmem : row.aID ∈ entry.1 :: rest.map Prod.fst := List.mem_cons_of_mem _ hr
        rw [if_pos hr, if_pos hmem]
      · have hmem : ¬ row.aID ∈ entry.1 :: rest.map Prod.fst := by
          intro hc
          rcases List.mem_cons.1 hc with hc | hc
          · exact h hc.symm
          · exact hr hc
        rw [if_neg hr, if_neg hmem]
        rfl

theorem filmsOfActor_snoc (rows : List ActorFilmRow) (row : ActorFilmRow) (id : Nat) :
    filmsOfActor (rows ++ [row]) id
      = filmsOfActor rows id ++ (if row.aID = id then row.film.GetFilm.toList else []) := by
  rw [filmsOfActor_eq, filmsOfActor_eq, List.filter_append, List.filterMap_append]
  by_cases h : row.aID = id
  · simp only [h, if_true]
    congr 1
    cases hf : row.film.GetFilm <;> simp [List.filter_cons, h, List.filterMap_cons, hf]
  · simp [List.filter_cons, h]

theorem filmsOfActor_absent (rows : List ActorFilmRow) (id : Nat)
    (h : ¬ id ∈ rows.map (fun row => row.aID)) : filmsOfActor rows id = [] := by
  rw [filmsOfActor_eq]
  have : rows.filter (fun row => row.aID == id) = [] := by
    rw [List.filter_eq_nil_iff]
    intro row hr hc
    apply h
    rw [List.mem_map]
    exact ⟨row, hr, by simpa using hc⟩
  rw [this]
  rfl

theorem getActorsStep_films (rows : List ActorFilmRow) (row : ActorFilmRow) :
    ∀ m : List (Nat × ActorWithFilms), (m.map Prod.fst).Nodup →
      (∀ e ∈ m, e.2.Films = some (filmsOfActor rows e.1)) →
      (¬ row.aID ∈ m.map Prod.fst → filmsOfActor rows row.aID = []) →
      ∀ e ∈ getActorsStep row m, e.2.Films = some (filmsOfActor (rows ++ [row]) e.1) := by
  intro m
  induction m with
  | nil =>
    intro _ _ habs e he
    have hnil := habs (by simp)
    simp only [getActorsStep, List.mem_singleton] at he
    subst he
    simp only [filmsOfActor_snoc, hnil, if_true, List.nil_append]
    cases row.film.GetFilm <;> simp [Slice.append]
  | cons entry rest ih =>
    intro hnd hall habs e he
    have hnd2 := List.nodup_cons.1 hnd
    by_cases h : entry.1 = row.aID
    · simp only [getActorsStep, h, if_true] at he
      have hentry := hall entry (List.mem_cons_self _ _)
      have hkeep : ∀ e2 ∈ rest, e2.2.Films = some (filmsOfActor (rows ++ [row]) e2.1) := by
        intro e2 he2
        have hne : ¬ row.aID = e2.1 := by
          intro hc
          apply hnd2.1
          rw [h, hc]
          exact List.mem_map_of_mem _ he2
        rw [filmsOfActor_snoc, if_neg hne, List.append_nil]
        exact hall e2 (List.mem_cons_of_mem _ he2)
      cases hf : row.film.GetFilm with
      | none =>
        rw [hf] at he
        simp only at he
        rcases List.mem_cons.1 he with he | he
        · subst he
          rw [filmsOfActor_snoc, if_pos h.symm, hf]
          simpa using hentry
        · exact hkeep e he
      | some film =>
        rw [hf] at he
        simp only at he
        rcases List.mem_cons.1 he with he | he
        · subst he
          rw [filmsOfActor_snoc]
          simp only [h, if_true, hf, Option.toList]
          rw [hentry, h]
          rfl
        · exact hkeep e he
    · simp only [getActorsStep, h, if_false] at he
      rcases List.mem_cons.1 he with he | he
      · subst he
        have hne : ¬ row.aID = e.1 := fun hc => h hc.symm
        rw [filmsOfActor_snoc, if_neg hne, List.append_nil]
        exact hall e (List.mem_cons_self _ _)
      · apply ih hnd2.2 (fun e2 he2 => hall e2 (List.mem_cons_of_mem _ he2)) _ e he
        intro hr
        apply habs
        intro hc
        rcases List.mem_cons.1 hc with hc | hc
        · exact h hc.symm
        · exact hr hc

theorem getActorsStep_ID (row : ActorFilmRow) :
    ∀ m : List (Nat × ActorWithFilms), (∀ e ∈ m, e.2.Actor.ID = 0) →
      ∀ e ∈ getActorsStep row m, e.2.Actor.ID = 0 := by
  intro m
  induction m with
  | nil =>
    intro _ e he
    simp only [getActorsStep, List.mem_singleton] at he
    subst he
    rfl
  | cons entry rest ih =>
    intro hall e he
    by_cases h : entry.1 = row.aID
    · simp only [getActorsStep, h, if_true] at he
      cases hf : row.film.GetFilm with
      | none =>
        rw [hf] at he
        exact hall e he
      | some film =>
        rw [hf] at he
        simp only at he
        rcases List.mem_cons.1 he with he | he
        · subst he
          exact hall entry (List.mem_cons_self _ _)
        · exact hall e (List.mem_cons_of_mem _ he)
    · simp only [getActorsStep, h, if_false] at he
      rcases List.mem_cons.1 he with he | he
      · subst he
        exact hall e (List.mem_cons_self _ _)
      · exact ih (fun e2 he2 => hall e2 (List.mem_cons_of_mem _ he2)) e he

theorem actorsMapOf_keys (rows : List ActorFilmRow) :
    ((actorsMapOf rows).map Prod.fst).Nodup ∧
      ∀ id, id ∈ (actorsMapOf rows).map Prod.fst ↔ id ∈ rows.map (fun row => row.aID) := by
  induction rows using List.reverseRecOn with
  | nil => exact ⟨List.nodup_nil, fun id => by simp [actorsMapOf]⟩
  | append_singleton rows row ih =>
    rw [actorsMapOf_snoc, getActorsStep_keys]
    by_cases h : row.aID ∈ (actorsMapOf rows).map Prod.fst
    · rw [if_pos h]
      refine ⟨ih.1, fun id => ?_⟩
      rw [List.map_append, List.mem_append, ← ih.2 id]
      constructor
      · exact Or.inl
      · rintro (hc | hc)
        · exact hc
        · simp only [List.map_cons, List.map_nil, List.mem_singleton] at hc
          rw [hc]
          exact h
    · rw [if_neg h]
      refine ⟨?_, fun id => ?_⟩
      · rw [List.nodup_append]
        refine ⟨ih.1, List.nodup_singleton _, ?_⟩
        intro a ha hb
        rw [List.mem_singleton] at hb
        exact h (hb ▸ ha)
      · rw [List.map_append, List.mem_append, List.mem_append, ih.2 id]
        simp

theorem actorsMapOf_films (rows : List ActorFilmRow) :
    ∀ e ∈ actorsMapOf rows, e.2.Films = some (filmsOfActor rows e.1) := by
  induction rows using List.reverseRecOn with
  | nil => intro e he; simp [actorsMapOf] at he
  | append_singleton rows row ih =>
    rw [actorsMapOf_snoc]
    apply getActorsStep_films rows row _ (actorsMapOf_keys rows).1 ih
    intro h
    apply filmsOfActor_absent
    rw [← (actorsMapOf_keys rows).2]
    exact h

theorem actorsMapOf_ID (rows : List ActorFilmRow) :
    ∀ e ∈ actorsMapOf rows, e.2.Actor.ID = 0 := by
  induction rows using List.reverseRecOn with
  | nil => intro e he; simp [actorsMapOf] at he
  | append_singleton rows row ih =>
    rw [actorsMapOf_snoc]
    exact getActorsStep_ID row _ ih

/-- C22: for every result set of the join query, and every order in which the
map of aggregates is ranged over (any permutation), `GetActors` returns, with a
nil error, a permutation of a grouping that has exactly one record per distinct
actor id of the rows; the `Films` of the record of an actor are the films of the
rows of that actor whose film id is not `NULL`, each with the id, name,
description, release date and rating of its row, in row order, and so the
empty, non-nil slice when every row of the actor has a `NULL` film id. -/
theorem GetActors_groups (rows : List ActorFilmRow)
    (rangeOrder : List ActorWithFilms → List ActorWithFilms)
    (hperm : ∀ l, (rangeOrder l).Perm l) :
    ∃ (records : List ActorWithFilms) (groups : List (Nat × ActorWithFilms)),
      ActorRepoPG.GetActors (.ok rows) rangeOrder = (some records, none) ∧
      records.Perm (groups.map Prod.snd) ∧
      (groups.map Prod.fst).Nodup ∧
      (∀ id, id ∈ groups.map Prod.fst ↔ ∃ row ∈ rows, row.aID = id) ∧
      records.length = (rows.map (fun row => row.aID)).dedup.length ∧
      (∀ g ∈ groups, g.2.Films
        = some ((rows.filter (fun row => row.aID == g.1)).filterMap fun row =>
            row.film.ID.map fun id =>
              ({ ID := (id % 2 ^ 64).toNat
                 Name := row.film.Name.getD ""
                 Description := row.film.Description.getD ""
                 DateOfRelease := row.film.DateOfRelease.getD 0
                 Rating := row.film.Rating.getD 0 } : Film))) ∧
      (∀ g ∈ groups, (∀ row ∈ rows, row.aID = g.1 → row.film.ID = none) →
        g.2.Films = some []) := by
  refine ⟨rangeOrder ((actorsMapOf rows).map Prod.snd), actorsMapOf rows, rfl, hperm _,
    (actorsMapOf_keys rows).1, ?_, ?_, actorsMapOf_films rows, ?_⟩
  · intro id
    rw [(actorsMapOf_keys rows).2 id, List.mem_map]
  · rw [(hperm _).length_eq, List.length_map, ← List.length_map (actorsMapOf rows) Prod.fst]
    apply List.Perm.length_eq
    rw [List.perm_ext_iff_of_nodup (actorsMapOf_keys rows).1 (List.nodup_dedup _)]
    intro id
    rw [(actorsMapOf_keys rows).2 id, List.mem_dedup]
  · intro g hg hnull
    rw [actorsMapOf_films rows g hg]
    congr 1
    rw [filmsOfActor_eq, List.filterMap_eq_nil_iff]
    intro row hr
    rw [List.mem_filter] at hr
    have hid := hnull row hr.1 (by simpa using hr.2)
    unfold FilmDB.GetFilm
    rw [hid]

/-- C22 on three rows of two actors, ranged over in reverse insertion order:
two records, the one of actor 5 with the films 1 and 2 of its rows, the one of
actor 6, who has no film, with the empty, non-nil slice. -/
theorem GetActors_groups_witness :
    (∀ l : List ActorWithFilms, (List.reverse l).Perm l) ∧
    (ActorRepoPG.GetActors (.ok sampleActorRows) List.reverse).1.map
        (fun records => records.map (fun record => record.Films))
      = some [some [],
          some [⟨1, "Alien", "a ship", 1979, 8⟩, ⟨2, "Brazil", "a clerk", 1985, 7⟩]] ∧
    ∃ (records : List ActorWithFilms) (groups : List (Nat × ActorWithFilms)),
      ActorRepoPG.GetActors (.ok sampleActorRows) List.reverse = (some records, none) ∧
      records.Perm (groups.map Prod.snd) ∧
      (groups.map Prod.fst).Nodup ∧
      (∀ id, id ∈ groups.map Prod.fst ↔ ∃ row ∈ sampleActorRows, row.aID = id) ∧
      records.length = (sampleActorRows.map (fun row => row.aID)).dedup.length ∧
      (∀ g ∈ groups, g.2.Films
        = some ((sampleActorRows.filter (fun row => row.aID == g.1)).filterMap fun row =>
            row.film.ID.map fun id =>
              ({ ID := (id % 2 ^ 64).toNat
                 Name := row.film.Name.getD ""
                 Description := row.film.Description.getD ""
                 DateOfRelease := row.film.DateOfRelease.getD 0
                 Rating := row.film.Rating.getD 0 } : Film))) ∧
      (∀ g ∈ groups, (∀ row ∈ sampleActorRows, row.aID = g.1 → row.film.ID = none) →
        g.2.Films = some []) :=
  ⟨fun l => List.reverse_perm l, rfl,
    GetActors_groups sampleActorRows List.reverse (fun l => List.reverse_perm l)⟩

/-- C23: in every record that `GetActors` returns `Actor.ID` is 0, whatever the
`a.id` column of the rows grouped into it: the column is scanned into the local
`actorID`, which is only the key of the map, and never stored in the actor. -/
theorem GetActors_record_ID_zero (rows : List ActorFilmRow)
    (rangeOrder : List ActorWithFilms → List ActorWithFilms)
    (hperm : ∀ l, (rangeOrder l).Perm l) :
    ∃ records : List ActorWithFilms,
      ActorRepoPG.GetActors (.ok rows) rangeOrder = (some records, none) ∧
      ∀ record ∈ records, record.Actor.ID = 0 := by
  refine ⟨rangeOrder ((actorsMapOf rows).map Prod.snd), rfl, ?_⟩
  intro record hr
  rw [(hperm _).mem_iff, List.mem_map] at hr
  obtain ⟨e, he, rfl⟩ := hr
  exact actorsMapOf_ID rows e he

/-- C23 on rows of the actors 5 and 6: both records carry the id 0. -/
theorem GetActors_record_ID_zero_witness :
    (∀ l : List ActorWithFilms, (id l).Perm l) ∧
    (∀ row ∈ sampleActorRows, row.aID ≠ 0) ∧
    ActorRepoPG.GetActors (.ok sampleActorRows) id
      = (some [⟨⟨0, "John", "Doe", "male", 0⟩, filmsOfActor sampleActorRows 5⟩,
          ⟨⟨0, "Jane", "Roe", "female", 0⟩, some []⟩], none) ∧
    ∃ records : List ActorWithFilms,
      ActorRepoPG.GetActors (.ok sampleActorRows) id = (some records, none) ∧
      ∀ record ∈ records, record.Actor.ID = 0 :=
  ⟨fun l => List.Perm.refl l, by decide, rfl,
    GetActors_record_ID_zero sampleActorRows id (fun l => List.Perm.refl l)⟩

/-! ## Film queries -/

theorem GetFilmsBySearch_no_film (repoResult : Slice Film × Option GoError)
    (herr : repoResult.2 = none) (hlen : repoResult.1.len = 0) :
    FilmUseCaseApp.GetFilmsBySearch repoResult = (none, some .ErrFilmsNotFound) := by
  unfold FilmUseCaseApp.GetFilmsBySearch
  rw [herr]
  simp [hlen]

/-- C24: when the repository answers a search with no error and no film (the
nil slice or a slice of length 0), `FilmUseCaseApp.GetFilmsBySearch` returns
`(nil, ErrFilmsNotFound)` and the `GetFilmsBySearch` handler over it, for a
request that carries the logger, responds 404; when the repository answers with
a slice that is not empty, the use case returns that slice and a nil error. -/
theorem GetFilmsBySearch_empty_is_not_found (repo : String → Slice Film × Option GoError)
    (Marshal : Slice Film → Except GoError String) (ctx : Context) (searchStr : String)
    (films : Slice Film) (hlog : GetLoggerFromContext ctx = .ok ())
    (hrepo : repo searchStr = (films, none)) :
    (films.len = 0 →
      FilmUseCaseApp.GetFilmsBySearch (repo searchStr) = (none, some .ErrFilmsNotFound) ∧
      (FilmHandler.GetFilmsBySearch (fun s => FilmUseCaseApp.GetFilmsBySearch (repo s)) Marshal
        ctx searchStr).status = 404) ∧
    (films.len ≠ 0 → FilmUseCaseApp.GetFilmsBySearch (repo searchStr) = (films, none)) := by
  constructor
  · intro hlen
    have huc := GetFilmsBySearch_no_film (repo searchStr) (by rw [hrepo]) (by rw [hrepo]; exact hlen)
    refine ⟨huc, ?_⟩
    unfold FilmHandler.GetFilmsBySearch
    rw [hlog]
    simp only [huc]
    rfl
  · intro hlen
    rw [hrepo]
    unfold FilmUseCaseApp.GetFilmsBySearch
    cases films with
    | none => exact absurd rfl hlen
    | some l =>
      have : ¬ l.length = 0 := hlen
      simp [Slice.len, this]

/-- C24 on the three answers of a repository: nil, empty, and one film. -/
theorem GetFilmsBySearch_empty_is_not_found_witness :
    (FilmUseCaseApp.GetFilmsBySearch ((none : Slice Film), none) = (none, some .ErrFilmsNotFound) ∧
      (FilmHandler.GetFilmsBySearch
        (fun s => FilmUseCaseApp.GetFilmsBySearch ((fun _ => (none, none)) s)) sampleMarshal
        loggerCtx "zzz").status = 404) ∧
    (FilmUseCaseApp.GetFilmsBySearch (some [], none) = (none, some .ErrFilmsNotFound) ∧
      (FilmHandler.GetFilmsBySearch
        (fun s => FilmUseCaseApp.GetFilmsBySearch ((fun _ => (some [], none)) s)) sampleMarshal
        loggerCtx "zzz").status = 404) ∧
    FilmUseCaseApp.GetFilmsBySearch (some [sampleFilm 1], none) = (some [sampleFilm 1], none) :=
  ⟨(GetFilmsBySearch_empty_is_not_found (fun _ => (none, none)) sampleMarshal loggerCtx "zzz" none
      rfl rfl).1 rfl,
    (GetFilmsBySearch_empty_is_not_found (fun _ => (some [], none)) sampleMarshal loggerCtx "zzz"
      (some []) rfl rfl).1 rfl,
    (GetFilmsBySearch_empty_is_not_found (fun _ => (some [sampleFilm 1], none)) sampleMarshal
      loggerCtx "zzz" (some [sampleFilm 1]) rfl rfl).2 (by decide)⟩

theorem orderBy_accepted (p : String) (h : p ∈ ["", "rating", "birthday", "name"]) :
    FilmRepoPG.orderBy p ∈ ["rating", "birthday", "name"] := by
  simp only [List.mem_cons, List.mem_singleton, List.not_mem_nil, or_false] at h
  rcases h with h | h | h | h <;> subst h <;> decide

theorem GetFilms_calls_of_accepted (GetFilms : String → Slice Film × Option GoError)
    (Marshal : Slice Film → Except GoError String) (ctx : Context) (sortParam : String)
    (hlog : GetLoggerFromContext ctx = .ok ())
    (h : sortParam ∈ ["", "rating", "birthday", "name"]) :
    (FilmHandler.GetFilms GetFilms Marshal ctx sortParam).2 = [sortParam] ∧
    (FilmHandler.GetFilms GetFilms Marshal ctx sortParam).1.status ≠ 400 := by
  have hcond : (decide (sortParam ≠ "") && decide (sortParam ≠ "rating")
      && decide (sortParam ≠ "birthday") && decide (sortParam ≠ "name")) = false := by
    simp only [List.mem_cons, List.mem_singleton, List.not_mem_nil, or_false] at h
    rcases h with h | h | h | h <;> subst h <;> decide
  unfold FilmHandler.GetFilms
  rw [hlog]
  simp only [hcond, Bool.false_eq_true, if_false]
  cases (GetFilms sortParam).2 with
  | some _ => exact ⟨rfl, by simp⟩
  | none =>
    cases Marshal (GetFilms sortParam).1 with
    | error _ => exact ⟨rfl, by simp⟩
    | ok _ => exact ⟨rfl, by simp⟩

theorem GetFilms_calls_subset (GetFilms : String → Slice Film × Option GoError)
    (Marshal : Slice Film → Except GoError String) (ctx : Context) (sortParam : String) :
    ∀ p ∈ (FilmHandler.GetFilms GetFilms Marshal ctx sortParam).2,
      p = sortParam ∧ p ∈ ["", "rating", "birthday", "name"] := by
  intro p hp
  unfold FilmHandler.GetFilms at hp
  cases hlog : GetLoggerFromContext ctx with
  | error _ => rw [hlog] at hp; simp at hp
  | ok _ =>
    rw [hlog] at hp
    simp only at hp
    by_cases hcond : (decide (sortParam ≠ "") && decide (sortParam ≠ "rating")
        && decide (sortParam ≠ "birthday") && decide (sortParam ≠ "name")) = true
    · rw [if_pos hcond] at hp
      simp at hp
    · rw [if_neg hcond] at hp
      have hmem : sortParam ∈ ["", "rating", "birthday", "name"] := by
        simp only [Bool.and_eq_true, decide_eq_true_eq, not_and, ne_eq] at hcond
        simp only [List.mem_cons, List.mem_singleton, List.not_mem_nil, or_false]
        by_cases h1 : sortParam = ""
        · exact Or.inl h1
        · by_cases h2 : sortParam = "rating"
          · exact Or.inr (Or.inl h2)
          · by_cases h3 : sortParam = "birthday"
            · exact Or.inr (Or.inr (Or.inl h3))
            · exact Or.inr (Or.inr (Or.inr (not_not.1 (hcond ⟨⟨h1, h2⟩, h3⟩))))
      have hp2 : p = sortParam := by
        cases h2 : (GetFilms sortParam).2 with
        | some _ => rw [h2] at hp; simpa using hp
        | none =>
          rw [h2] at hp
          cases h3 : Marshal (GetFilms sortParam).1 with
          | error _ => rw [h3] at hp; simpa using hp
          | ok _ => rw [h3] at hp; simpa using hp
      exact ⟨hp2, hp2 ▸ hmem⟩

/-- C27: for a request that carries the logger, the `GetFilms` handler answers a
`sort_param` other than the empty string, `"rating"`, `"birthday"` and `"name"`
with 400 without calling the use case, and otherwise calls the use case once,
with exactly that `sort_param`; so for every call the handler makes, the string
that `FilmRepoPG.GetFilms` puts after `ORDER BY` is `"rating"`, `"birthday"` or
`"name"`. -/
theorem GetFilms_sort_param_check (GetFilms : String → Slice Film × Option GoError)
    (Marshal : Slice Film → Except GoError String) (ctx : Context) (sortParam : String)
    (hlog : GetLoggerFromContext ctx = .ok ()) :
    (¬ sortParam ∈ ["", "rating", "birthday", "name"] →
      (FilmHandler.GetFilms GetFilms Marshal ctx sortParam).1.status = 400 ∧
      (FilmHandler.GetFilms GetFilms Marshal ctx sortParam).2 = []) ∧
    (sortParam ∈ ["", "rating", "birthday", "name"] →
      (FilmHandler.GetFilms GetFilms Marshal ctx sortParam).1.status ≠ 400 ∧
      (FilmHandler.GetFilms GetFilms Marshal ctx sortParam).2 = [sortParam]) ∧
    ∀ p ∈ (FilmHandler.GetFilms GetFilms Marshal ctx sortParam).2,
      ∃ column ∈ ["rating", "birthday", "name"],
        FilmRepoPG.orderBy p = column ∧
        FilmRepoPG.getFilmsQuery p
          = "SELECT f.id, f.name, f.description, f.date_of_release, f.rating FROM films f ORDER BY "
            ++ column ++ " DESC" := by
  refine ⟨?_, ?_, ?_⟩
  · intro h
    have hcond : (decide (sortParam ≠ "") && decide (sortParam ≠ "rating")
        && decide (sortParam ≠ "birthday") && decide (sortParam ≠ "name")) = true := by
      simp only [List.mem_cons, List.mem_singleton, List.not_mem_nil, or_false, not_or] at h
      simp [h.1, h.2.1, h.2.2.1, h.2.2.2]
    unfold FilmHandler.GetFilms
    rw [hlog]
    simp only [hcond, if_true, and_self]
  · intro h
    have := GetFilms_calls_of_accepted GetFilms Marshal ctx sortParam hlog h
    exact ⟨this.2, this.1⟩
  · intro p hp
    have := GetFilms_calls_subset GetFilms Marshal ctx sortParam p hp
    exact ⟨FilmRepoPG.orderBy p, orderBy_accepted p this.2, rfl, rfl⟩

/-- C27 at the parameters `"year"` (rejected) and `""` (ordered by rating). -/
theorem GetFilms_sort_param_check_witness :
    GetLoggerFromContext loggerCtx = .ok () ∧
    (FilmHandler.GetFilms (fun _ => (some [], none)) sampleMarshal loggerCtx "year").1.status = 400 ∧
    (FilmHandler.GetFilms (fun _ => (some [], none)) sampleMarshal loggerCtx "year").2 = [] ∧
    (FilmHandler.GetFilms (fun _ => (some [], none)) sampleMarshal loggerCtx "").2 = [""] ∧
    FilmRepoPG.orderBy "" = "rating" :=
  ⟨rfl,
    ((GetFilms_sort_param_check (fun _ => (some [], none)) sampleMarshal loggerCtx "year" rfl).1
      (by decide)).1,
    ((GetFilms_sort_param_check (fun _ => (some [], none)) sampleMarshal loggerCtx "year" rfl).1
      (by decide)).2,
    ((GetFilms_sort_param_check (fun _ => (some [], none)) sampleMarshal loggerCtx "" rfl).2.1
      (by decide)).2,
    by decide⟩

/-- C28: the `GetFilms` handler accepts the `sort_param` `"birthday"`: for a
request that carries the logger it does not answer 400 and calls the use case
with `"birthday"`, so that `FilmRepoPG.GetFilms` sends a statement ordered by
`birthday`, which is not a column of `films`. -/
theorem GetFilms_accepts_birthday (GetFilms : String → Slice Film × Option GoError)
    (Marshal : Slice Film → Except GoError String) :
    (FilmHandler.GetFilms GetFilms Marshal loggerCtx "birthday").1.status ≠ 400 ∧
    (FilmHandler.GetFilms GetFilms Marshal loggerCtx "birthday").2 = ["birthday"] ∧
    FilmRepoPG.getFilmsQuery "birthday"
      = "SELECT f.id, f.name, f.description, f.date_of_release, f.rating FROM films f ORDER BY birthday DESC" ∧
    "birthday" ≠ "" ∧ ¬ "birthday" ∈ filmColumns := by
  have := GetFilms_calls_of_accepted GetFilms Marshal loggerCtx "birthday" rfl (by decide)
  exact ⟨this.2, this.1, by decide, by decide, by decide⟩

/-! ## User handlers -/

theorem GetFilmByID_internal_error_body (GetFilmByID : Nat → Option Film × Option GoError)
    (Marshal : Option Film → Except GoError String) (ctx : Context) (filmID : String) (n : Nat)
    (err : GoError) (hlog : GetLoggerFromContext ctx = .ok ()) (hid : ParseUint filmID = .ok n)
    (hres : (GetFilmByID n).2 = some err) (hdom : errorsIs (some err) .ErrFilmNotFound = false) :
    FilmHandler.GetFilmByID GetFilmByID Marshal ctx filmID
      = ⟨500, "\x7b\"error\": \"internal server error\"\x7d"⟩ := by
  unfold FilmHandler.GetFilmByID
  rw [hlog, hid]
  simp only [hres, hdom, Bool.false_eq_true, if_false]

/-- C25: when the user use case answers `Login` with an error other than
`ErrBadCredentials`, the `Login` handler (for a request that carries the logger
and a well-formed body) responds 500 with a body that contains the text of that
error, so two internal errors with different texts give different bodies. -/
theorem Login_body_carries_error_text (codec : AuthCodec)
    (Login : String → String → Option User × Option GoError)
    (CreateSession : Nat → String × Option GoError) (ctx : Context)
    (body : Except GoError String) (req : AuthRequest) (err : GoError)
    (hlog : GetLoggerFromContext ctx = .ok ())
    (hreq : checkRequestFormat codec body = .ok req)
    (hres : (Login req.Username req.Password).2 = some err)
    (hdom : errorsIs (some err) .ErrBadCredentials = false) :
    UserHandler.Login codec Login CreateSession ctx body
      = .wrote ⟨500, "\x7b\"error\": \"error in getting user by login and password: "
          ++ err.Error ++ "\"\x7d"⟩ := by
  unfold UserHandler.Login
  rw [hlog, hreq]
  simp only [hres, hdom, Bool.false_eq_true, if_false]

/-- C25 for a user repository that fails with one of two store errors: the two
bodies of `Login` differ and show the text of the error, where `GetFilmByID`
answers both errors with the same fixed body. -/
theorem Login_body_carries_error_text_witness :
    UserHandler.Login sampleAuthCodec
        (fun u p =>
          ((UserUseCaseApp.Login (failingUserRepo (.text "dial tcp 10.0.0.5:5432: connection refused"))
              sampleHasher () u p).value,
            (UserUseCaseApp.Login (failingUserRepo (.text "dial tcp 10.0.0.5:5432: connection refused"))
              sampleHasher () u p).err))
        (fun _ => ("session", none)) loggerCtx (.ok "")
      = .wrote ⟨500, "\x7b\"error\": \"error in getting user by login and password: dial tcp 10.0.0.5:5432: connection refused\"\x7d"⟩ ∧
    UserHandler.Login sampleAuthCodec
        (fun u p =>
          ((UserUseCaseApp.Login (failingUserRepo (.text "pq: relation users does not exist"))
              sampleHasher () u p).value,
            (UserUseCaseApp.Login (failingUserRepo (.text "pq: relation users does not exist"))
              sampleHasher () u p).err))
        (fun _ => ("session", none)) loggerCtx (.ok "")
      = .wrote ⟨500, "\x7b\"error\": \"error in getting user by login and password: pq: relation users does not exist\"\x7d"⟩ ∧
    FilmHandler.GetFilmByID
        (fun _ => (none, some (.text "dial tcp 10.0.0.5:5432: connection refused")))
        sampleMarshal loggerCtx "1"
      = FilmHandler.GetFilmByID (fun _ => (none, some (.text "pq: relation users does not exist")))
        sampleMarshal loggerCtx "1" :=
  ⟨Login_body_carries_error_text sampleAuthCodec _ (fun _ => ("session", none)) loggerCtx (.ok "")
      ⟨"password1", "alice"⟩ (.text "dial tcp 10.0.0.5:5432: connection refused") rfl rfl rfl rfl,
    Login_body_carries_error_text sampleAuthCodec _ (fun _ => ("session", none)) loggerCtx (.ok "")
      ⟨"password1", "alice"⟩ (.text "pq: relation users does not exist") rfl rfl rfl rfl,
    by decide⟩

/-- C30: when the repository finds no user of the name, the hasher succeeds and
`Register` of the repository returns `(nil, nil)`, `UserUseCaseApp.Register`
returns `(nil, nil)`; the `Register` handler then passes the nil user to
`HandleGetSessionID`, which panics on `newUser.ID`. -/
theorem Register_returns_nil_nil {σ : Type} (userRepo : UserRepo σ) (hasher : Hasher) (st : σ)
    (username password : String) (codec : AuthCodec)
    (CreateSession : Nat → String × Option GoError) (ctx : Context)
    (body : Except GoError String)
    (hfree : (userRepo.GetUserByUsername st username).1 = (none, none))
    (hhash : (hasher password).2 = none)
    (hreg : (userRepo.Register (userRepo.GetUserByUsername st username).2 username
      (hasher password).1).1 = (none, none))
    (hlog : GetLoggerFromContext ctx = .ok ())
    (hreq : checkRequestFormat codec body = .ok ⟨password, username⟩) :
    (UserUseCaseApp.Register userRepo hasher st username password).value = none ∧
    (UserUseCaseApp.Register userRepo hasher st username password).err = none ∧
    UserHandler.Register codec
        (fun u p => ((UserUseCaseApp.Register userRepo hasher st u p).value,
          (UserUseCaseApp.Register userRepo hasher st u p).err))
        CreateSession ctx body = .panicked := by
  have hrun : (UserUseCaseApp.Register userRepo hasher st username password).value = none ∧
      (UserUseCaseApp.Register userRepo hasher st username password).err = none := by
    unfold UserUseCaseApp.Register
    simp only [hfree, hhash, hreg, and_self]
  refine ⟨hrun.1, hrun.2, ?_⟩
  unfold UserHandler.Register
  rw [hlog, hreq]
  simp only [hrun.1, hrun.2]
  rfl

/-- C30 for the repository `nilUserRepo`. -/
theorem Register_returns_nil_nil_witness :
    (UserUseCaseApp.Register nilUserRepo sampleHasher () "alice" "password1").value = none ∧
    (UserUseCaseApp.Register nilUserRepo sampleHasher () "alice" "password1").err = none ∧
    UserHandler.Register sampleAuthCodec
        (fun u p => ((UserUseCaseApp.Register nilUserRepo sampleHasher () u p).value,
          (UserUseCaseApp.Register nilUserRepo sampleHasher () u p).err))
        (fun _ => ("session", none)) loggerCtx (.ok "") = .panicked :=
  Register_returns_nil_nil nilUserRepo sampleHasher () "alice" "password1" sampleAuthCodec
    (fun _ => ("session", none)) loggerCtx (.ok "") rfl rfl rfl rfl rfl

/-! ## Failure bodies and statements -/

/-- The recogniser accepts the well-formed failure bodies of the program, and an
object with nested values and an escaped member name; it rejects an object
without the member, an array, and malformed numbers, commas and escapes. -/
theorem isJSONObjectWithError_examples :
    isJSONObjectWithError internalErrorBody = true ∧
    isJSONObjectWithError "\x7b\"error\": \"film with ID 5 is not found\"\x7d" = true ∧
    isJSONObjectWithError
      "\x7b\"a\": [1, 2.5e+3, \x7b\"error\": 1\x7d, true, null], \"err\\u006fr\": -0.1 \x7d " = true ∧
    isJSONObjectWithError "\x7b\"result\":\"success\"\x7d" = false ∧
    isJSONObjectWithError "[\"error\"]" = false ∧
    isJSONObjectWithError "\x7b\"error\": 01\x7d" = false ∧
    isJSONObjectWithError "\x7b\"error\": [],\x7d" = false ∧
    isJSONObjectWithError "\x7b\"error\": \"a\\qb\"\x7d" = false := by
  refine ⟨?_, ?_, ?_, ?_, ?_, ?_, ?_, ?_⟩ <;> decide

theorem AuthMiddleware_no_cookie_body (mw : Middleware) :
    mw.AuthMiddleware ⟨"GET", "/api/v1/films", [], loggerCtx⟩
      = .respond 401 "\x7b\"error\": \"no cookie in request\"\"\x7d" := rfl

theorem AuthMiddleware_no_session_body (users : UserUseCase) :
    (⟨⟨fun _ => (none, some .ErrNoSession)⟩, users⟩ : Middleware).AuthMiddleware
        ⟨"GET", "/api/v1/films", [("session_id", "tok")], loggerCtx⟩
      = .respond 401 "\x7b\"error\": \"there is no session for session id tok\x7d" := rfl

/-- C26: four failure responses whose body is not a JSON object. `AuthMiddleware`
answers a request without the cookie with 401 and a body that has one quote too
many, and a request whose session is not found with 401 and a body whose string
is not closed; the `GetFilms` handler answers the `sort_param` `year` with 400
and a body whose value is not quoted, and an error of its use case with 500 and
a body whose string is not closed. -/
theorem failure_bodies_malformed (mw : Middleware) (users : UserUseCase)
    (GetFilms : String → Slice Film × Option GoError)
    (Marshal : Slice Film → Except GoError String) (err : GoError) :
    (mw.AuthMiddleware ⟨"GET", "/api/v1/films", [], loggerCtx⟩
        = .respond 401 "\x7b\"error\": \"no cookie in request\"\"\x7d" ∧
      isJSONObjectWithError "\x7b\"error\": \"no cookie in request\"\"\x7d" = false) ∧
    ((⟨⟨fun _ => (none, some .ErrNoSession)⟩, users⟩ : Middleware).AuthMiddleware
        ⟨"GET", "/api/v1/films", [("session_id", "tok")], loggerCtx⟩
        = .respond 401 "\x7b\"error\": \"there is no session for session id tok\x7d" ∧
      isJSONObjectWithError "\x7b\"error\": \"there is no session for session id tok\x7d"
        = false) ∧
    ((FilmHandler.GetFilms GetFilms Marshal loggerCtx "year").1
        = ⟨400, "\x7b\"error\": year can not be sorting param\"\x7d"⟩ ∧
      isJSONObjectWithError "\x7b\"error\": year can not be sorting param\"\x7d" = false) ∧
    ((FilmHandler.GetFilms (fun _ => (none, some err)) Marshal loggerCtx "rating").1
        = ⟨500, "\x7b\"error\": \"internal server error\x7d"⟩ ∧
      isJSONObjectWithError "\x7b\"error\": \"internal server error\x7d" = false) :=
  ⟨⟨AuthMiddleware_no_cookie_body mw, by decide⟩,
    ⟨AuthMiddleware_no_session_body users, by decide⟩,
    ⟨rfl, by decide⟩, ⟨rfl, by decide⟩⟩

theorem GetFilmByID_sends_question_mark (QueryRow : String → List Nat → Except GoError Film)
    (filmID : Nat) (film : Film)
    (h : QueryRow "SELECT id, name, description, date_of_release, rating FROM films WHERE id = ?"
      [filmID] = .ok film) :
    FilmRepoPG.GetFilmByID QueryRow filmID = (some film, none) := by
  unfold FilmRepoPG.GetFilmByID FilmRepoPG.getFilmByIDQuery
  rw [h]

set_option maxRecDepth 100000 in
/-- C29: the statement of `FilmRepoPG.GetFilmByID`, to which one argument is
bound, holds the placeholder `?` and no placeholder `$1`; it is the only
statement with bound arguments of the three repositories that does not use the
positional placeholders `$1..$n` for its `n` arguments. -/
theorem GetFilmByID_statement_placeholder :
    (⟨"FilmRepoPG.GetFilmByID", FilmRepoPG.getFilmByIDQuery, 1⟩ : Statement) ∈ repoStatements ∧
    FilmRepoPG.getFilmByIDQuery.data.contains '?' = true ∧
    placeholderNumbers FilmRepoPG.getFilmByIDQuery.data = [] ∧
    (repoStatements.filter (fun s => !s.usesPositional)).map (fun s => s.method)
      = ["FilmRepoPG.GetFilmByID"] := by
  refine ⟨?_, ?_, ?_, ?_⟩ <;> decide

end Filmoteka
